import Mathlib

/-!
# LoggerController: persistent state, command dispatch and data-log chunking

A shallow embedding of `src/modules/logger/LoggerController.h`.  The controller object is a
record that every member function takes and returns; the EEPROM, the cloud connection and the
clock appear as explicit values.  What the headers included by `LoggerController.h` define
(`LoggerControllerState.h`, `LoggerCommands.h`, `LoggerInfo.h`, `LoggerData.h`,
`LoggerComponent.h`) is either modelled from the specification or collected in the record
`Headers`, over which every definition is parametric.
-/

namespace LabLogger

/-! ## Machine integers and C library functions -/

/-- A character buffer read as a C string: the characters before the terminator. -/
abbrev Text := List Char

/-- Width of `size_t` on the 32-bit target: arithmetic on `size_t` is modulo this number. -/
def SIZE_MOD : Nat := 2 ^ 32

/-- Largest value of a 32-bit `int`. -/
def INT_MAX : Int := 2147483647

/-- Smallest value of a 32-bit `int`. -/
def INT_MIN : Int := -2147483648

/-- Result of a 32-bit `int` operation whose mathematical value is `x` (two's complement). -/
def toInt32 (x : Int) : Int := (x + 2147483648) % 4294967296 - 2147483648

/-- Conversion of an integer to `uint8_t`. -/
def toUInt8 (x : Int) : Int := x % 256

/-- The C library `isspace` in the "C" locale. -/
def isspace (c : Char) : Bool :=
  c.toNat = 32 || (9 ≤ c.toNat && c.toNat ≤ 13)

/-- Value of the longest run of decimal digits at the start of `s`, continuing from `acc`. -/
def digitsValue : Text → Nat → Nat
  | [], acc => acc
  | c :: cs, acc =>
    if 48 ≤ c.toNat ∧ c.toNat ≤ 57 then digitsValue cs (10 * acc + (c.toNat - 48)) else acc

/-- The C library `atoi`: leading white space, an optional sign, then decimal digits; `0` when
there is no digit.  A value outside the range of `int` saturates, as in the `strtol` based
implementation of the target's C library. -/
def atoi (s : Text) : Int :=
  let clamp : Int → Int := fun x => max INT_MIN (min INT_MAX x)
  match s.dropWhile isspace with
  | [] => 0
  | c :: cs =>
    if c.toNat = 45 then clamp (-(digitsValue cs 0 : Int))
    else if c.toNat = 43 then clamp (digitsValue cs 0 : Int)
    else clamp (digitsValue (c :: cs) 0 : Int)

/-- The C library `strncpy(dst, src, n)` seen through `dst`: at most `n` characters of `src`. -/
def strncpy (src : Text) (n : Nat) : Text := src.take n

/-- The C library `snprintf(dst, size, ...)` where `formatted` is the complete output: the text
left in `dst` (at most `size - 1` characters) and the returned length of the complete output. -/
def snprintf (size : Nat) (formatted : Text) : Text × Nat :=
  (formatted.take (size - 1), formatted.length)

/-- Decimal digits of an unsigned number, as printed by `%lu` and `%d`. -/
def decimal (n : Nat) : Text := Nat.toDigits 10 n

/-- Two lower-case hexadecimal digits of a byte, as printed by `%02x`. -/
def hex02 (b : Nat) : Text :=
  let d := Nat.toDigits 16 b
  List.replicate (2 - d.length) (Char.ofNat 48) ++ d

/-! ## Data model -/

/-- Modelled from the spec: the persistent record of `LoggerControllerState.h` (not in the
sources), with the fields of the specification's data model: `version: u8`, `locked`,
`state_logging`, `data_logging`, `data_logging_period: i32` and `data_logging_type`. -/
structure LoggerControllerState where
  version : Nat
  locked : Bool
  state_logging : Bool
  data_logging : Bool
  data_logging_period : Int
  data_logging_type : Int
  deriving DecidableEq, Repr

/-- Modelled from the spec: the transient command value of `LoggerCommands.h` (not in the
sources): raw text, the text not yet consumed, the extracted variable (field `variable_`,
since `variable` is reserved in Lean), value and units, the notes, the JSON fragment
describing the change, the message and the result code.  The human-readable type labels only feed the display and the state log and are left out. -/
structure LoggerCommand where
  command : Text
  buffer : Text
  variable_ : Text
  value : Text
  units : Text
  notes : Text
  data : Text
  msg : Text
  ret_val : Int
  deriving DecidableEq, Repr

/-- Modelled from the spec: the capability set of a component (`LoggerComponent.h` is not in
the sources): its identifier, the size of its persistent record, the start of the storage
range it was given, its command handler (which reports whether it claimed the command) and the
state fragments it hands to `addToLoggerStateVariableBuffer`.  The record of a component is its
own and is not modelled, so a handler acts on the command only. -/
structure LoggerComponent where
  id : Text
  getStateSize : Nat
  eeprom_start : Nat
  parseCommand : LoggerCommand → Bool × LoggerCommand
  assembleLoggerStateVariable : List Text

/-- What the headers missing from the sources define, as used by `LoggerController.h`:
the constants of `LoggerControllerState.h`, `LoggerCommands.h` and `LoggerInfo.h`, the text
helpers of `LoggerInfo.h` (each returns the text it writes into a target of the given size),
the member functions of `LoggerData` over a type `D` of data series, the EEPROM capacity and
`sizeof(LoggerControllerState)`. -/
structure Headers (D : Type) where
  LOG_BY_TIME : Int
  LOG_BY_EVENT : Int
  CMD_RET_UNDEFINED : Int
  CMD_RET_SUCCESS : Int
  CMD_RET_WARN_NO_CHANGE : Int
  CMD_RET_ERR_LOCKED : Int
  CMD_RET_ERR_CMD : Int
  CMD_RET_ERR_VAL : Int
  CMD_RET_ERR_UNITS : Int
  CMD_RET_ERR_LOG_SMALLER_READ : Int
  CMD_LOCK : Text
  CMD_LOCK_ON : Text
  CMD_LOCK_OFF : Text
  CMD_STATE_LOG : Text
  CMD_STATE_LOG_ON : Text
  CMD_STATE_LOG_OFF : Text
  CMD_DATA_LOG : Text
  CMD_DATA_LOG_ON : Text
  CMD_DATA_LOG_OFF : Text
  CMD_DATA_LOG_PERIOD : Text
  CMD_DATA_LOG_PERIOD_NUMBER : Text
  CMD_DATA_LOG_PERIOD_SEC : Text
  CMD_DATA_LOG_PERIOD_MIN : Text
  CMD_DATA_LOG_PERIOD_HR : Text
  CMD_RESET : Text
  CMD_RESET_DATA : Text
  CMD_RESET_STATE : Text
  STATE_INFO_MAX_CHAR : Nat
  DATA_LOG_MAX_CHAR : Nat
  sizeof_command_data : Nat
  EEPROM_MAX : Nat
  sizeof_state : Nat
  getStateLockedText : Bool → Nat → Text
  getStateStateLoggingText : Bool → Nat → Text
  getStateDataLoggingText : Bool → Nat → Text
  getStateDataLoggingPeriodText : Int → Int → Nat → Text
  getStateStringText : Text → Text → Nat → Text
  assembleLog : Bool → D → Bool × D
  json : D → Text
  getN : D → Int
  getDataTime : D → Nat
  clear : Bool → D → D

/-- External collaborators as seen during one call: whether the cloud is connected
(`Particle.connected()`), the formatted current time (`Time.format(Time.now(), ...)`), the
device clock (`millis()`) and the outcome of `Particle.publish` for a payload. -/
structure Cloud where
  connected : Bool
  date_time : Text
  millis : Nat
  publish : Text → Bool

/-- The controller object.  `eeprom` is the content of the EEPROM range
`[eeprom_start, eeprom_start + sizeof(*state))` read as a controller record (what
`EEPROM.get(eeprom_start, ...)` yields); `isDataLoggingPeriodValid` is the virtual validity
hook of the object. -/
structure LoggerController (D : Type) where
  reset : Bool
  override_state_log : Bool
  mac_address : List Nat
  eeprom_location : Nat
  state : LoggerControllerState
  eeprom : LoggerControllerState
  date_time_buffer : Text
  state_variable : Text
  state_variable_buffer : Text
  data_log : Text
  data_log_buffer : Text
  last_data_log : Nat
  last_data_log_index : Int
  version : Text
  name : Text
  command : LoggerCommand
  data : List D
  components : List LoggerComponent
  isDataLoggingPeriodValid : Int → Int → Bool

/-! ## LoggerCommand -/

namespace LoggerCommand

/-- Modelled from the spec: `load` (`LoggerCommands.h` is not in the sources) puts the raw text
into the command value and resets the extracted parts and the result fields. -/
def load {D : Type} (H : Headers D) (command_string : Text) : LoggerCommand :=
  { command := command_string, buffer := command_string, variable_ := [], value := [],
    units := [], notes := [], data := [], msg := [], ret_val := H.CMD_RET_UNDEFINED }

/-- Modelled from the spec: `extractParam` is missing; it splits the leading token (the
characters before the first blank) off the unparsed text and returns it with the command
whose unparsed text starts after that blank. -/
def extractParam (cmd : LoggerCommand) : Text × LoggerCommand :=
  let tok := cmd.buffer.takeWhile (fun c => c.toNat != 32)
  (tok, { cmd with buffer := cmd.buffer.drop (tok.length + 1) })

/-- Modelled from the spec: `extractVariable` is missing; the leading token becomes the
candidate variable name. -/
def extractVariable (cmd : LoggerCommand) : LoggerCommand :=
  { (extractParam cmd).2 with variable_ := (extractParam cmd).1 }

/-- Modelled from the spec: `extractValue` is missing; the next token becomes the value. -/
def extractValue (cmd : LoggerCommand) : LoggerCommand :=
  { (extractParam cmd).2 with value := (extractParam cmd).1 }

/-- Modelled from the spec: `extractUnits` is missing; the next token becomes the units. -/
def extractUnits (cmd : LoggerCommand) : LoggerCommand :=
  { (extractParam cmd).2 with units := (extractParam cmd).1 }

/-- Modelled from the spec: `parseVariable` is missing; whether the variable is `cmd_name`. -/
def parseVariable (cmd : LoggerCommand) (cmd_name : Text) : Bool := cmd.variable_ == cmd_name

/-- Modelled from the spec: `parseValue` is missing; whether the value is `v`. -/
def parseValue (cmd : LoggerCommand) (v : Text) : Bool := cmd.value == v

/-- Modelled from the spec: `parseUnits` is missing; whether the units are `u`. -/
def parseUnits (cmd : LoggerCommand) (u : Text) : Bool := cmd.units == u

/-- Modelled from the spec: `isTypeDefined` is missing; whether a handler has claimed the
command, that is whether a result has been recorded. -/
def isTypeDefined {D : Type} (H : Headers D) (cmd : LoggerCommand) : Bool :=
  cmd.ret_val != H.CMD_RET_UNDEFINED

/-- Modelled from the spec: `success(state_changed)` is missing; it records `Success` when the
state changed and the warning `NoChange` when it was already as requested. -/
def success {D : Type} (H : Headers D) (cmd : LoggerCommand) (state_changed : Bool) :
    LoggerCommand :=
  if state_changed then { cmd with ret_val := H.CMD_RET_SUCCESS }
  else { cmd with ret_val := H.CMD_RET_WARN_NO_CHANGE }

/-- Modelled from the spec: `error(code, text)` is missing; it records the error `code`. -/
def error (cmd : LoggerCommand) (code : Int) : LoggerCommand := { cmd with ret_val := code }

/-- Modelled from the spec: `errorLocked` is missing; it records the `Locked` error. -/
def errorLocked {D : Type} (H : Headers D) (cmd : LoggerCommand) : LoggerCommand :=
  error cmd H.CMD_RET_ERR_LOCKED

/-- Modelled from the spec: `errorCommand` is missing; it records `UnknownCommand`. -/
def errorCommand {D : Type} (H : Headers D) (cmd : LoggerCommand) : LoggerCommand :=
  error cmd H.CMD_RET_ERR_CMD

/-- Modelled from the spec: `errorValue` is missing; it records `InvalidValue`. -/
def errorValue {D : Type} (H : Headers D) (cmd : LoggerCommand) : LoggerCommand :=
  error cmd H.CMD_RET_ERR_VAL

/-- Modelled from the spec: `errorUnits` is missing; it records `InvalidUnits`. -/
def errorUnits {D : Type} (H : Headers D) (cmd : LoggerCommand) : LoggerCommand :=
  error cmd H.CMD_RET_ERR_UNITS

/-- Modelled from the spec: `setLogMsg` is missing; it stores the free-text message. -/
def setLogMsg (cmd : LoggerCommand) (text : Text) : LoggerCommand := { cmd with msg := text }

end LoggerCommand

namespace LoggerController

variable {D : Type}

/-! ## Construction and component registration -/

/-- The constructor: the allocation cursor starts after the controller's own record,
`eeprom_location = eeprom_start + sizeof(*state)` with `eeprom_start = 0`.  `stored` is what the
EEPROM holds at that moment; the buffers are those set up by `init`. -/
def new (H : Headers D) (version : Text) (state stored : LoggerControllerState)
    (isDataLoggingPeriodValid : Int → Int → Bool) : LoggerController D :=
  { reset := false, override_state_log := false, mac_address := [0, 0, 0, 0, 0, 0],
    eeprom_location := (0 + H.sizeof_state) % SIZE_MOD,
    state := state, eeprom := stored, date_time_buffer := [],
    state_variable := [Char.ofNat 123, Char.ofNat 125], state_variable_buffer := [],
    data_log := [Char.ofNat 123, Char.ofNat 125], data_log_buffer := [],
    last_data_log := 0, last_data_log_index := -1, version := version, name := [],
    command := LoggerCommand.load H [], data := [], components := [],
    isDataLoggingPeriodValid := isDataLoggingPeriodValid }

/-- The member `addComponent`: the component is given the current cursor as the start of its
range, the cursor advances by the size of its record (in `size_t`), and the component is
registered unless the cursor has reached `EEPROM_MAX`. -/
def addComponent (H : Headers D) (c : LoggerController D) (component : LoggerComponent) :
    LoggerController D :=
  let component := { component with eeprom_start := c.eeprom_location }
  let eeprom_location := (c.eeprom_location + component.getStateSize) % SIZE_MOD
  if eeprom_location ≥ H.EEPROM_MAX then
    { c with eeprom_location := eeprom_location }
  else
    { c with eeprom_location := eeprom_location, components := c.components ++ [component] }

/-- A sequence of `addComponent` calls, in order, each on a component object of its own. -/
def addComponents (H : Headers D) (c : LoggerController D) (cs : List LoggerComponent) :
    LoggerController D :=
  cs.foldl (addComponent H) c

/-! ## State management -/

/-- The member `saveState`: `EEPROM.put(eeprom_start, *state)`. -/
def saveState (c : LoggerController D) : LoggerController D :=
  { c with eeprom := c.state }

/-- The member `restoreState`: reads the stored record, compares its version with the one in
memory, takes the stored record over when they agree and saves the record in memory
otherwise; returns whether the stored record was taken over. -/
def restoreState (c : LoggerController D) : Bool × LoggerController D :=
  let saved_state := c.eeprom
  let recoverable := saved_state.version == c.state.version
  if recoverable then (recoverable, { c with state := c.eeprom })
  else (recoverable, saveState c)

/-- The member `loadState`. -/
def loadState (c : LoggerController D) (reset : Bool) : LoggerController D :=
  if !reset then (restoreState c).2 else saveState c

/-! ## Data -/

/-- The member `clearData`: every data series is cleared. -/
def clearData (H : Headers D) (c : LoggerController D) (all : Bool) : LoggerController D :=
  { c with data := c.data.map (H.clear all) }

/-- The member `resetData`. -/
def resetData (H : Headers D) (c : LoggerController D) : LoggerController D :=
  clearData H c true

/-! ## State change functions -/

/-- The member `changeLocked`. -/
def changeLocked (c : LoggerController D) (on_ : Bool) : Bool × LoggerController D :=
  let changed := on_ != c.state.locked
  let c := if changed then { c with state := { c.state with locked := on_ } } else c
  let c := if changed then saveState c else c
  (changed, c)

/-- The member `changeStateLogging`. -/
def changeStateLogging (c : LoggerController D) (on_ : Bool) : Bool × LoggerController D :=
  let changed := on_ != c.state.state_logging
  let c := if changed then
      { c with state := { c.state with state_logging := on_ }, override_state_log := true }
    else c
  let c := if changed then saveState c else c
  (changed, c)

/-- The member `changeDataLogging`. -/
def changeDataLogging (H : Headers D) (c : LoggerController D) (on_ : Bool) :
    Bool × LoggerController D :=
  let changed := on_ != c.state.data_logging
  let c := if changed then { c with state := { c.state with data_logging := on_ } } else c
  let c := if changed then saveState c else c
  let c := if changed && on_ then resetData H c else c
  (changed, c)

/-- The member `changeDataLoggingPeriod`; the two comparisons are joined by a bitwise or. -/
def changeDataLoggingPeriod (c : LoggerController D) (period type : Int) :
    Bool × LoggerController D :=
  let changed := (period != c.state.data_logging_period) || (type != c.state.data_logging_type)
  let c := if changed then
      { c with state := { c.state with data_logging_period := period, data_logging_type := type } }
    else c
  let c := if changed then saveState c else c
  (changed, c)

/-! ## State report -/

/-- The member `addToLoggerStateVariableBuffer`; the buffer has
`STATE_INFO_MAX_CHAR - 50` characters. -/
def addToLoggerStateVariableBuffer (H : Headers D) (c : LoggerController D) (info : Text) :
    LoggerController D :=
  if c.state_variable_buffer = [] then
    { c with state_variable_buffer := strncpy info (H.STATE_INFO_MAX_CHAR - 50) }
  else
    { c with state_variable_buffer :=
        (snprintf (H.STATE_INFO_MAX_CHAR - 50)
          (c.state_variable_buffer ++ ",".data ++ info)).1 }

/-- The member `assembleLoggerStateVariable`; `pair` has 60 characters. -/
def assembleLoggerStateVariable (H : Headers D) (c : LoggerController D) : LoggerController D :=
  let c := addToLoggerStateVariableBuffer H c (H.getStateLockedText c.state.locked 60)
  let c := addToLoggerStateVariableBuffer H c (H.getStateStateLoggingText c.state.state_logging 60)
  let c := addToLoggerStateVariableBuffer H c (H.getStateDataLoggingText c.state.data_logging 60)
  addToLoggerStateVariableBuffer H c
    (H.getStateDataLoggingPeriodText c.state.data_logging_period c.state.data_logging_type 60)

/-- The member `assembleLoggerComponentsStateVariable`: every registered component, in
registration order, adds its fragments to the buffer. -/
def assembleLoggerComponentsStateVariable (H : Headers D) (c : LoggerController D) :
    LoggerController D :=
  c.components.foldl
    (fun c comp => comp.assembleLoggerStateVariable.foldl (addToLoggerStateVariableBuffer H) c) c

/-- The member `postLoggerStateVariable`. -/
def postLoggerStateVariable (H : Headers D) (env : Cloud) (c : LoggerController D) :
    LoggerController D :=
  if env.connected then
    let c := { c with date_time_buffer := env.date_time.take 24 }
    let mac := fun (k : Nat) => hex02 (c.mac_address.getD k 0)
    { c with state_variable :=
        (snprintf H.STATE_INFO_MAX_CHAR
          ("\x7b\"dt\":\"".data ++ c.date_time_buffer ++ "\",\"version\":\"".data ++ c.version
            ++ "\",\"mac\":\"".data ++ mac 0 ++ ":".data ++ mac 1 ++ ":".data ++ mac 2
            ++ ":".data ++ mac 3 ++ ":".data ++ mac 4 ++ ":".data ++ mac 5
            ++ "\",\"s\":[".data ++ c.state_variable_buffer ++ "]\x7d".data)).1 }
  else c

/-- The member `updateLoggerStateVariable`; the two display updates before the buffer is
reset write to the display only. -/
def updateLoggerStateVariable (H : Headers D) (env : Cloud) (c : LoggerController D) :
    LoggerController D :=
  let c := { c with state_variable_buffer := [] }
  let c := assembleLoggerStateVariable H c
  let c := assembleLoggerComponentsStateVariable H c
  postLoggerStateVariable H env c

/-! ## Command parsing -/

/-- The member `parseLocked`. -/
def parseLocked (H : Headers D) (c : LoggerController D) : Bool × LoggerController D :=
  let c :=
    if c.command.parseVariable H.CMD_LOCK then
      let c := { c with command := c.command.extractValue }
      let c :=
        if c.command.parseValue H.CMD_LOCK_ON then
          let r := changeLocked c true
          { r.2 with command := r.2.command.success H r.1 }
        else if c.command.parseValue H.CMD_LOCK_OFF then
          let r := changeLocked c false
          { r.2 with command := r.2.command.success H r.1 }
        else c
      { c with command :=
          { c.command with data := H.getStateLockedText c.state.locked H.sizeof_command_data } }
    else if c.state.locked then
      { c with command := c.command.errorLocked H }
    else c
  (c.command.isTypeDefined H, c)

/-- The member `parseStateLogging`. -/
def parseStateLogging (H : Headers D) (c : LoggerController D) : Bool × LoggerController D :=
  let c :=
    if c.command.parseVariable H.CMD_STATE_LOG then
      let c := { c with command := c.command.extractValue }
      let c :=
        if c.command.parseValue H.CMD_STATE_LOG_ON then
          let r := changeStateLogging c true
          { r.2 with command := r.2.command.success H r.1 }
        else if c.command.parseValue H.CMD_STATE_LOG_OFF then
          let r := changeStateLogging c false
          { r.2 with command := r.2.command.success H r.1 }
        else c
      { c with command :=
          { c.command with
            data := H.getStateStateLoggingText c.state.state_logging H.sizeof_command_data } }
    else c
  (c.command.isTypeDefined H, c)

/-- The member `parseDataLogging`. -/
def parseDataLogging (H : Headers D) (c : LoggerController D) : Bool × LoggerController D :=
  let c :=
    if c.command.parseVariable H.CMD_DATA_LOG then
      let c := { c with command := c.command.extractValue }
      let c :=
        if c.command.parseValue H.CMD_DATA_LOG_ON then
          let r := changeDataLogging H c true
          { r.2 with command := r.2.command.success H r.1 }
        else if c.command.parseValue H.CMD_DATA_LOG_OFF then
          let r := changeDataLogging H c false
          { r.2 with command := r.2.command.success H r.1 }
        else c
      { c with command :=
          { c.command with
            data := H.getStateDataLoggingText c.state.data_logging H.sizeof_command_data } }
    else c
  (c.command.isTypeDefined H, c)

/-- The member `parseReset`. -/
def parseReset (H : Headers D) (c : LoggerController D) : Bool × LoggerController D :=
  let c :=
    if c.command.parseVariable H.CMD_RESET then
      let c := { c with command := c.command.extractValue }
      if c.command.parseValue H.CMD_RESET_DATA then
        let c := resetData H c
        let c := { c with command := c.command.success H true }
        { c with command :=
            { c.command with
              data := H.getStateStringText H.CMD_RESET H.CMD_RESET_DATA H.sizeof_command_data } }
      else if c.command.parseValue H.CMD_RESET_STATE then
        let c := { c with state := { c.state with version := 0 } }
        let c := saveState c
        let c := { c with command := c.command.success H true }
        let c := { c with command :=
            { c.command with
              data := H.getStateStringText H.CMD_RESET H.CMD_RESET_STATE H.sizeof_command_data } }
        { c with command := c.command.setLogMsg "reset state on next startup".data }
      else c
    else c
  (c.command.isTypeDefined H, c)

/-- The base implementation of the virtual member `isDataLoggingPeriodValid`. -/
def isDataLoggingPeriodValid_base (_log_type : Int) (_log_period : Int) : Bool := true

/-- The decision on the units inside `parseDataLoggingPeriod`: from the value `log_period`
(an `int`; the products are 32-bit `int` products) to the `uint8_t` `log_type`, the period in
the base unit and the command, which carries the units error when no unit matches. -/
def parseDataLoggingPeriod_units (H : Headers D) (cmd : LoggerCommand) (log_period : Int) :
    Int × Int × LoggerCommand :=
  let log_type : Int := toUInt8 H.LOG_BY_TIME
  if cmd.parseUnits H.CMD_DATA_LOG_PERIOD_NUMBER then
    (toUInt8 H.LOG_BY_EVENT, log_period, cmd)
  else if cmd.parseUnits H.CMD_DATA_LOG_PERIOD_SEC then
    (log_type, log_period, cmd)
  else if cmd.parseUnits H.CMD_DATA_LOG_PERIOD_MIN then
    (log_type, toInt32 (60 * log_period), cmd)
  else if cmd.parseUnits H.CMD_DATA_LOG_PERIOD_HR then
    (log_type, toInt32 (60 * 60 * log_period), cmd)
  else
    (log_type, log_period, cmd.errorUnits H)

/-- The member `parseDataLoggingPeriod`. -/
def parseDataLoggingPeriod (H : Headers D) (c : LoggerController D) :
    Bool × LoggerController D :=
  let c :=
    if c.command.parseVariable H.CMD_DATA_LOG_PERIOD then
      let c := { c with command := c.command.extractValue }
      let log_period : Int := atoi c.command.value
      let c :=
        if log_period > 0 then
          let c := { c with command := c.command.extractUnits }
          let r := parseDataLoggingPeriod_units H c.command log_period
          let log_type := r.1
          let log_period := r.2.1
          let c := { c with command := r.2.2 }
          if !(c.command.isTypeDefined H) then
            if c.isDataLoggingPeriodValid log_type log_period then
              let r := changeDataLoggingPeriod c log_period log_type
              { r.2 with command := r.2.command.success H r.1 }
            else
              { c with command := c.command.error H.CMD_RET_ERR_LOG_SMALLER_READ }
          else c
        else
          { c with command := c.command.errorValue H }
      { c with command :=
          { c.command with
            data := H.getStateDataLoggingPeriodText c.state.data_logging_period
              c.state.data_logging_type H.sizeof_command_data } }
    else c
  (c.command.isTypeDefined H, c)

/-- The loop of `parseComponentsCommand` over the components still to be tried: each handler
gets the command, and the first one that reports success ends the loop. -/
def parseComponentsCommand_loop : List LoggerComponent → LoggerCommand → LoggerCommand
  | [], cmd => cmd
  | comp :: rest, cmd =>
    let r := comp.parseCommand cmd
    if r.1 then r.2 else parseComponentsCommand_loop rest r.2

/-- The member `parseComponentsCommand`. -/
def parseComponentsCommand (c : LoggerController D) : LoggerController D :=
  { c with command := parseComponentsCommand_loop c.components c.command }

/-- The member `parseCommand`: the decision tree over the handlers. -/
def parseCommand (H : Headers D) (c : LoggerController D) : LoggerController D :=
  let r := parseLocked H c
  if r.1 then r.2 else
  let r := parseStateLogging H r.2
  if r.1 then r.2 else
  let r := parseDataLogging H r.2
  if r.1 then r.2 else
  let r := parseDataLoggingPeriod H r.2
  if r.1 then r.2 else
  let r := parseReset H r.2
  if r.1 then r.2 else
  parseComponentsCommand r.2

/-- The part of the member `assembleStateLog` that touches the command: an empty data entry
becomes `{}`.  The formatted text goes to the `state_log` buffer, which is only published. -/
def assembleStateLog (c : LoggerController D) : LoggerController D :=
  if c.command.data = [] then
    { c with command := { c.command with data := "\x7b\x7d".data } }
  else c

/-- The member `receiveCommand`.  The display update, the publication of the state log and
the completion callback act on the display, the `state_log` buffer and the cloud only. -/
def receiveCommand (H : Headers D) (env : Cloud) (c : LoggerController D)
    (command_string : Text) : Int × LoggerController D :=
  let c := { c with command := LoggerCommand.load H command_string }
  let c := { c with command := c.command.extractVariable }
  let c := parseCommand H c
  let c := if !(c.command.isTypeDefined H) then { c with command := c.command.errorCommand H }
    else c
  let c := if c.state.state_logging || c.override_state_log then assembleStateLog c else c
  let c := { c with override_state_log := false }
  let c :=
    if c.command.ret_val ≥ H.CMD_RET_SUCCESS && c.command.ret_val != H.CMD_RET_WARN_NO_CHANGE
    then updateLoggerStateVariable H env c
    else c
  (c.command.ret_val, c)

/-! ## Data log -/

/-- The member `addToDataLog`, on the buffer; it has `DATA_LOG_MAX_CHAR - 10` characters. -/
def addToDataLog (H : Headers D) (data_log_buffer : Text) (info : Text) : Text :=
  if data_log_buffer = [] then
    strncpy info (H.DATA_LOG_MAX_CHAR - 10)
  else
    (snprintf (H.DATA_LOG_MAX_CHAR - 10) (data_log_buffer ++ ",".data ++ info)).1

/-- The first loop of `assembleDataLog`, from index `i` over the entries `data[i..]`: every
entry visited has its log assembled; the loop stops at the first one that has something to
report.  Returns the visited entries without a report and, if one reports, its index, the
entry itself and the entries after it. -/
def assembleDataLog_first (H : Headers D) (global_time_offset : Bool) :
    Nat → List D → List D × Option (Nat × D × List D)
  | _, [] => ([], none)
  | i, d :: ds =>
    let r := H.assembleLog (!global_time_offset) d
    if r.1 then ([], some (i, r.2, ds))
    else
      let q := assembleDataLog_first H global_time_offset (i + 1) ds
      (r.2 :: q.1, q.2)

/-- The variables the second loop of `assembleDataLog` updates: `total_string_length`,
`last_data_log_index`, the `data_log_buffer` and the indices of the entries handed to
`addToDataLog` so far in this call. -/
structure Chunk where
  total_string_length : Nat
  last_data_log_index : Int
  data_log_buffer : Text
  included : List Nat
  deriving DecidableEq, Repr

/-- The comparison `(total_string_length + strlen(json)) < cutoff` of `assembleDataLog`: the
sum is a `size_t`, so the `int` `cutoff` is converted to `size_t` as well. -/
def belowCutoff (len : Nat) (cutoff : Int) : Bool :=
  (len : Int) < (if cutoff < 0 then cutoff + (SIZE_MOD : Int) else cutoff)

/-- The second loop of `assembleDataLog`, from index `i` over the entries `data[i..]`: an
entry with something to report is added while the total stays below `cutoff`; the first one
that does not fit ends the loop.  Returns the entries as the loop leaves them and the
variables. -/
def assembleDataLog_fit (H : Headers D) (global_time_offset : Bool) (cutoff : Int) :
    Nat → List D → Chunk → List D × Chunk
  | _, [], k => ([], k)
  | i, d :: ds, k =>
    let r := H.assembleLog (!global_time_offset) d
    if r.1 then
      if belowCutoff (k.total_string_length + (H.json r.2).length) cutoff then
        let q := assembleDataLog_fit H global_time_offset cutoff (i + 1) ds
          { total_string_length := k.total_string_length + (H.json r.2).length,
            last_data_log_index := i,
            data_log_buffer := addToDataLog H k.data_log_buffer (H.json r.2),
            included := k.included ++ [i] }
        (r.2 :: q.1, q.2)
      else (r.2 :: ds, k)
    else
      let q := assembleDataLog_fit H global_time_offset cutoff (i + 1) ds k
      (r.2 :: q.1, q.2)

/-- What one call of `assembleDataLog` yields: the returned flag, the indices of the entries
handed to `addToDataLog` during the call, in the order of the calls, and the controller. -/
structure Assembled (D : Type) where
  ok : Bool
  included : List Nat
  ctrl : LoggerController D

/-- The member `assembleDataLog(bool global_time_offset)`.  The index `i` is an `int`
compared with the `size_t` `data.size()`: a negative `i` converts to a value no vector size
reaches, so neither the equality test nor the loop condition holds for it. -/
def assembleDataLog (H : Headers D) (env : Cloud) (c : LoggerController D)
    (global_time_offset : Bool) : Assembled D :=
  let i : Int := c.last_data_log_index + 1
  if i = (c.data.length : Int) then { ok := false, included := [], ctrl := c }
  else if i < 0 then { ok := false, included := [], ctrl := c }
  else
    let q := assembleDataLog_first H global_time_offset i.toNat (c.data.drop i.toNat)
    match q.2 with
    | none =>
      { ok := false, included := [], ctrl := { c with data := c.data.take i.toNat ++ q.1 } }
    | some (j, d, rest) =>
      let k : Chunk :=
        { total_string_length := (H.json d).length, last_data_log_index := j,
          data_log_buffer := addToDataLog H [] (H.json d), included := [j] }
      let global_time : Nat := (env.millis + SIZE_MOD - H.getDataTime d % SIZE_MOD) % SIZE_MOD
      let cutoff : Int := toInt32 (((H.DATA_LOG_MAX_CHAR : Int) - 50) % (SIZE_MOD : Int))
      let f := assembleDataLog_fit H global_time_offset cutoff (j + 1) rest k
      let formatted : Text :=
        if global_time_offset then
          "\x7b\"id\":\"".data ++ c.name ++ "\",\"to\":".data ++ decimal global_time
            ++ ",\"d\":[".data ++ f.2.data_log_buffer ++ "]\x7d".data
        else
          "\x7b\"id\":\"".data ++ c.name ++ "\",\"d\":[".data ++ f.2.data_log_buffer
            ++ "]\x7d".data
      let p := snprintf H.DATA_LOG_MAX_CHAR formatted
      let c := { c with
        data := c.data.take i.toNat ++ q.1 ++ d :: f.1,
        last_data_log_index := f.2.last_data_log_index,
        data_log := p.1,
        data_log_buffer := f.2.data_log_buffer }
      if p.2 ≥ H.DATA_LOG_MAX_CHAR then { ok := false, included := f.2.included, ctrl := c }
      else { ok := true, included := f.2.included, ctrl := c }

/-- The member `publishDataLog` (without `WEBHOOKS_DEBUG_ON`): nothing is sent when the data
log is empty; otherwise the log is published if the cloud is connected.  The controller is
left as it is (only the display is written). -/
def publishDataLog (env : Cloud) (c : LoggerController D) : Bool × LoggerController D :=
  if c.data_log.length = 0 then (false, c)
  else (env.connected && env.publish c.data_log, c)

/-- One pass of the loop of `logData` in which a chunk was assembled: the entries handed to
`addToDataLog`, the watermark and the data log as they were when `publishDataLog` was called,
and what `publishDataLog` returned. -/
structure Published where
  included : List Nat
  watermark : Int
  data_log : Text
  success : Bool
  deriving DecidableEq, Repr

/-- What one `logData` cycle did: the chunks assembled and handed to `publishDataLog`, in
order; the entries handed to `addToDataLog` by the final call of `assembleDataLog`, the one
that returned false (none unless that call ran into the overflow guard); and the controller
afterwards. -/
structure Cycle (D : Type) where
  chunks : List Published
  dropped : List Nat
  ctrl : LoggerController D

/-- The loop `while (assembleDataLog()) publishDataLog();` of `logData`, with a bound on the
number of passes: `none` when the bound is used up before `assembleDataLog` returns false.
`envs k` are the external collaborators during pass `k`. -/
def logData_loop (H : Headers D) (envs : Nat → Cloud) :
    Nat → Nat → LoggerController D → Option (Cycle D)
  | 0, _, _ => none
  | fuel + 1, k, c =>
    let r := assembleDataLog H (envs k) c true
    if r.ok then
      let p := publishDataLog (envs k) r.ctrl
      match logData_loop H envs fuel (k + 1) p.2 with
      | none => none
      | some cy =>
        some { cy with chunks :=
          { included := r.included, watermark := r.ctrl.last_data_log_index,
            data_log := r.ctrl.data_log, success := p.1 } :: cy.chunks }
    else some { chunks := [], dropped := r.included, ctrl := r.ctrl }

/-- The member `logData` (without `WEBHOOKS_DEBUG_ON`, so `override_data_log` is false): when
data logging is on, the watermark is reset to `-1` and chunks are assembled and published
until `assembleDataLog` returns false.  One more pass than there are data series is allowed,
which is enough for the loop to end. -/
def logData (H : Headers D) (envs : Nat → Cloud) (c : LoggerController D) :
    Option (Cycle D) :=
  if c.state.data_logging || false then
    logData_loop H envs (c.data.length + 1) 0 { c with last_data_log_index := -1 }
  else some { chunks := [], dropped := [], ctrl := c }

/-! ## Due check -/

/-- The member `getNumberDataPoints`: `data[0].getN()`; there is no result when the data
vector is empty (the access is then out of bounds). -/
def getNumberDataPoints (H : Headers D) (c : LoggerController D) : Option Int :=
  c.data.head?.map H.getN

/-- The member `isTimeForDataLogAndClear`.  By time, `log_period` is the `int` product
`data_logging_period * 1000` converted to the 32-bit `unsigned long`, and the elapsed time is
the `unsigned long` difference `millis() - last_data_log`. -/
def isTimeForDataLogAndClear (H : Headers D) (env : Cloud) (c : LoggerController D) :
    Option Bool :=
  if c.state.data_logging_type = H.LOG_BY_TIME then
    let log_period : Int := toInt32 (c.state.data_logging_period * 1000) % (SIZE_MOD : Int)
    if (((env.millis % SIZE_MOD + SIZE_MOD - c.last_data_log % SIZE_MOD) % SIZE_MOD : Nat) : Int)
        > log_period then
      some true
    else some false
  else if c.state.data_logging_type = H.LOG_BY_EVENT then
    match getNumberDataPoints H c with
    | none => none
    | some n => if n ≥ c.state.data_logging_period then some true else some false
  else some false

/-! ## The dispatch chain with a record of the handlers invoked -/

/-- The handlers of the dispatch chain: the five of the controller and the command handler
of the component registered at position `i`. -/
inductive Handler where
  | locked
  | stateLogging
  | dataLogging
  | dataLoggingPeriod
  | reset
  | component (i : Nat)
  deriving DecidableEq, Repr

/-- The loop of `parseComponentsCommand` from the component at position `i`, recording each
handler invoked with the flag it returned. -/
def parseComponentsCommand_trace :
    Nat → List LoggerComponent → LoggerCommand → List (Handler × Bool) × LoggerCommand
  | _, [], cmd => ([], cmd)
  | i, comp :: rest, cmd =>
    let r := comp.parseCommand cmd
    if r.1 then ([(Handler.component i, true)], r.2)
    else
      let q := parseComponentsCommand_trace (i + 1) rest r.2
      ((Handler.component i, false) :: q.1, q.2)

/-- The member `parseCommand`, recording each handler invoked with the flag it returned. -/
def parseCommand_trace (H : Headers D) (c : LoggerController D) :
    List (Handler × Bool) × LoggerController D :=
  let r1 := parseLocked H c
  if r1.1 then ([(Handler.locked, true)], r1.2) else
  let r2 := parseStateLogging H r1.2
  if r2.1 then ([(Handler.locked, false), (Handler.stateLogging, true)], r2.2) else
  let r3 := parseDataLogging H r2.2
  if r3.1 then
    ([(Handler.locked, false), (Handler.stateLogging, false), (Handler.dataLogging, true)],
      r3.2) else
  let r4 := parseDataLoggingPeriod H r3.2
  if r4.1 then
    ([(Handler.locked, false), (Handler.stateLogging, false), (Handler.dataLogging, false),
      (Handler.dataLoggingPeriod, true)], r4.2) else
  let r5 := parseReset H r4.2
  if r5.1 then
    ([(Handler.locked, false), (Handler.stateLogging, false), (Handler.dataLogging, false),
      (Handler.dataLoggingPeriod, false), (Handler.reset, true)], r5.2) else
  let q := parseComponentsCommand_trace 0 r5.2.components r5.2.command
  ([(Handler.locked, false), (Handler.stateLogging, false), (Handler.dataLogging, false),
    (Handler.dataLoggingPeriod, false), (Handler.reset, false)] ++ q.1,
    { r5.2 with command := q.2 })

/-! ## Notions used to state the properties -/

/-- The variable, value and units tokens of a raw command text, as `receiveCommand` and the
handlers extract them. -/
def variableOf (H : Headers D) (command_string : Text) : Text :=
  (LoggerCommand.load H command_string).extractVariable.variable_

/-- The value token of a raw command text. -/
def valueOf (H : Headers D) (command_string : Text) : Text :=
  (LoggerCommand.load H command_string).extractVariable.extractValue.value

/-- The units token of a raw command text. -/
def unitsOf (H : Headers D) (command_string : Text) : Text :=
  (LoggerCommand.load H command_string).extractVariable.extractValue.extractUnits.units

/-- The record in persistent storage equals the record in memory. -/
def Persisted (c : LoggerController D) : Prop := c.eeprom = c.state

instance (c : LoggerController D) : Decidable (Persisted c) := by
  unfold Persisted; infer_instance

/-- The storage range `[eeprom_start, eeprom_start + getStateSize)` of each component. -/
def ranges (cs : List LoggerComponent) : List (Nat × Nat) :=
  cs.map (fun comp => (comp.eeprom_start, comp.eeprom_start + comp.getStateSize))

/-- Ranges laid out one after the other from `start`: each begins where the previous one
ends. -/
def Contiguous : Nat → List (Nat × Nat) → Prop
  | _, [] => True
  | start, r :: rs => r.1 = start ∧ r.1 ≤ r.2 ∧ Contiguous r.2 rs

/-- Where a contiguous layout that starts at `start` ends: the end of its last range, or
`start` when there is no range. -/
def layoutEnd : Nat → List (Nat × Nat) → Nat
  | start, [] => start
  | _, r :: rs => layoutEnd r.2 rs

/-- The sizes of the persistent records of a sequence of components, summed. -/
def totalStateSize (cs : List LoggerComponent) : Nat :=
  (cs.map (fun comp => comp.getStateSize)).sum

/-- Following the specification's words for the chunking: the entries of `data[i..]` that
have something to report, in index order, each with its index and the length of its
serialized text. -/
def reporting (H : Headers D) (global_time_offset : Bool) : Nat → List D → List (Nat × Nat)
  | _, [] => []
  | i, d :: ds =>
    if (H.assembleLog (!global_time_offset) d).1 then
      (i, (H.json (H.assembleLog (!global_time_offset) d).2).length)
        :: reporting H global_time_offset (i + 1) ds
    else reporting H global_time_offset (i + 1) ds

/-- Following the specification's words: the pending entries that have something to report,
that is those whose index lies after the watermark, in index order. -/
def pending (H : Headers D) (global_time_offset : Bool) (c : LoggerController D) :
    List (Nat × Nat) :=
  (reporting H global_time_offset 0 c.data).filter
    (fun e => decide (c.last_data_log_index < (e.1 : Int)))

/-- The watermark after a call that included the entries `included`: the last of them, or
the previous watermark `w` when none was included. -/
def lastIncluded (included : List Nat) (w : Int) : Int :=
  (included.getLast?.map Int.ofNat).getD w

/-- The data vector `ys` is the vector `xs` in which some entries have had their log
assembled. -/
def AssembledFrom (H : Headers D) (flag : Bool) (xs ys : List D) : Prop :=
  List.Forall₂ (fun x y => y = x ∨ y = (H.assembleLog flag x).2) xs ys

/-- Following the specification's words: after the anchor, each following reporting entry is
appended while the cumulative serialized size stays under the budget; the first one that
would reach it is not included and nothing after it is. -/
def greedyTake (budget : Nat) : Nat → List (Nat × Nat) → List Nat
  | _, [] => []
  | total, e :: rest =>
    if total + e.2 < budget then e.1 :: greedyTake budget (total + e.2) rest else []

/-- Following the specification's words: a chunk is the first pending entry that has
something to report, followed by the entries that fit under the budget with it. -/
def greedyChunk (budget : Nat) : List (Nat × Nat) → List Nat
  | [] => []
  | e :: rest => e.1 :: greedyTake budget e.2 rest

/-- Assembling the log of a data series a second time reports the same and gives the same
serialized text. -/
def Reassembles (H : Headers D) (flag : Bool) : Prop :=
  ∀ d : D, (H.assembleLog flag (H.assembleLog flag d).2).1 = (H.assembleLog flag d).1 ∧
    H.json (H.assembleLog flag (H.assembleLog flag d).2).2 = H.json (H.assembleLog flag d).2

/-- The controller `c'` has the record in memory, the stored record, the data series and the
command of `c`. -/
def Untouched (c c' : LoggerController D) : Prop :=
  c'.state = c.state ∧ c'.eeprom = c.eeprom ∧ c'.data = c.data ∧ c'.command = c.command

/-- The fixed order of the dispatch chain for a controller with `n` registered components. -/
def chainOrder (n : Nat) : List Handler :=
  [Handler.locked, Handler.stateLogging, Handler.dataLogging, Handler.dataLoggingPeriod,
    Handler.reset] ++ (List.range n).map Handler.component

/-- A record `t` of handler invocations follows the order `order` and stops at the first
claim: the handlers invoked are the first ones of `order`, in that order; every one but the
last did not claim the command; and when none claimed it, all of `order` were invoked. -/
def FirstClaimWins (order : List Handler) (t : List (Handler × Bool)) : Prop :=
  (∃ rest, t.map Prod.fst ++ rest = order ∧ ((∀ e ∈ t, e.2 = false) → rest = [])) ∧
  ∀ e ∈ t.dropLast, e.2 = false

/-- Modelled from the spec: the contract of a component's command handler (the components
are not in the sources): a handler that does not claim a command which no handler has claimed
leaves it unclaimed. -/
def ComponentContract (H : Headers D) (comp : LoggerComponent) : Prop :=
  ∀ cmd : LoggerCommand, cmd.ret_val = H.CMD_RET_UNDEFINED → (comp.parseCommand cmd).1 = false →
    (comp.parseCommand cmd).2.ret_val = H.CMD_RET_UNDEFINED

/-- A sequence of components as registered one after the other from the offset `start`:
each with the start of its range set to where the previous one ends. -/
def placed : Nat → List LoggerComponent → List LoggerComponent
  | _, [] => []
  | start, x :: xs =>
    { x with eeprom_start := start } :: placed (start + x.getStateSize) xs

/-- What `addToLoggerStateVariableBuffer` does to the buffer. -/
def stateVariableBuffer_add (H : Headers D) (buffer info : Text) : Text :=
  if buffer = [] then strncpy info (H.STATE_INFO_MAX_CHAR - 50)
  else (snprintf (H.STATE_INFO_MAX_CHAR - 50) (buffer ++ ",".data ++ info)).1

/-- The state fragments of a report, in the order they are added: lock, state logging, data
logging and logging period of the controller, then the fragments of every component in
registration order. -/
def stateFragments (H : Headers D) (c : LoggerController D) : List Text :=
  [H.getStateLockedText c.state.locked 60, H.getStateStateLoggingText c.state.state_logging 60,
    H.getStateDataLoggingText c.state.data_logging 60,
    H.getStateDataLoggingPeriodText c.state.data_logging_period c.state.data_logging_type 60]
  ++ (c.components.map (fun comp => comp.assembleLoggerStateVariable)).flatten

/-- The state report of a controller with the time stamp `date_time`: the fragments joined
in a buffer that starts empty, wrapped with the time stamp, the version and the MAC address,
in the `state_variable` of `STATE_INFO_MAX_CHAR` characters. -/
def stateReport (H : Headers D) (c : LoggerController D) (date_time : Text) : Text :=
  (snprintf H.STATE_INFO_MAX_CHAR
    ("\x7b\"dt\":\"".data ++ date_time ++ "\",\"version\":\"".data ++ c.version
      ++ "\",\"mac\":\"".data ++ hex02 (c.mac_address.getD 0 0) ++ ":".data
      ++ hex02 (c.mac_address.getD 1 0) ++ ":".data ++ hex02 (c.mac_address.getD 2 0)
      ++ ":".data ++ hex02 (c.mac_address.getD 3 0) ++ ":".data
      ++ hex02 (c.mac_address.getD 4 0) ++ ":".data ++ hex02 (c.mac_address.getD 5 0)
      ++ "\",\"s\":[".data ++ (stateFragments H c).foldl (stateVariableBuffer_add H) []
      ++ "]\x7d".data)).1

/-- Following the specification's words: first match wins.  The handlers are tried in the
order of the list, each on the controller as the handlers before it left it; the first one
that claims the command ends the chain and the remaining handlers are skipped.  Returns the
handlers invoked, each with the flag it returned, and the controller afterwards. -/
def firstMatchWins {S : Type} : List (Handler × (S → Bool × S)) → S → List (Handler × Bool) × S
  | [], s => ([], s)
  | h :: rest, s =>
    if (h.2 s).1 then ([(h.1, true)], (h.2 s).2)
    else ((h.1, false) :: (firstMatchWins rest (h.2 s).2).1, (firstMatchWins rest (h.2 s).2).2)

/-- The command handlers of the components registered from position `i` on, in registration
order: each hands the command of the controller to `parseCommand` of its component. -/
def componentHandlers :
    Nat → List LoggerComponent → List (Handler × (LoggerController D → Bool × LoggerController D))
  | _, [] => []
  | i, comp :: rest =>
    (Handler.component i, fun k =>
      ((comp.parseCommand k.command).1, { k with command := (comp.parseCommand k.command).2 }))
      :: componentHandlers (i + 1) rest

/-- Following the specification's words: the dispatch chain in its fixed priority order: the
handlers of the controller for the lock, state logging, data logging, the logging period and
reset, then the command handler of every registered component in registration order. -/
def dispatchChain (H : Headers D) (components : List LoggerComponent) :
    List (Handler × (LoggerController D → Bool × LoggerController D)) :=
  [(Handler.locked, parseLocked H), (Handler.stateLogging, parseStateLogging H),
    (Handler.dataLogging, parseDataLogging H),
    (Handler.dataLoggingPeriod, parseDataLoggingPeriod H), (Handler.reset, parseReset H)]
  ++ componentHandlers 0 components

/-- Following the specification's words: the entries of `data[i..]` that have something to
report, in index order, each with its index and the entry as its log was assembled. -/
def reported (H : Headers D) (global_time_offset : Bool) : Nat → List D → List (Nat × D)
  | _, [] => []
  | i, d :: ds =>
    if (H.assembleLog (!global_time_offset) d).1 then
      (i, (H.assembleLog (!global_time_offset) d).2) :: reported H global_time_offset (i + 1) ds
    else reported H global_time_offset (i + 1) ds

/-- The serialized text of the entry at index `i` of a data vector, as assembling its log
gives it (empty when the vector has no such entry). -/
def entryText (H : Headers D) (global_time_offset : Bool) (data : List D) (i : Nat) : Text :=
  match data[i]? with
  | some d => H.json (H.assembleLog (!global_time_offset) d).2
  | none => []

/-- The data time of the entry at index `i` of a data vector, as assembling its log gives
it. -/
def entryDataTime (H : Headers D) (global_time_offset : Bool) (data : List D) (i : Nat) :
    Nat :=
  match data[i]? with
  | some d => H.getDataTime (H.assembleLog (!global_time_offset) d).2
  | none => 0

/-- The time offset a data log carries: the global time `t` when the log is assembled with
a global time offset, none otherwise. -/
def timeOffset (global_time_offset : Bool) (t : Nat) : Option Nat :=
  if global_time_offset then some t else none

/-- The wire payload of a data log chunk, `{"id","to"?,"d":[...]}`, around the text `body`
of its entries: the device name and the time offset if there is one. -/
def dataLogWrap (name : Text) (time_offset : Option Nat) (body : Text) : Text :=
  match time_offset with
  | some t =>
    "\x7b\"id\":\"".data ++ name ++ "\",\"to\":".data ++ decimal t ++ ",\"d\":[".data
      ++ body ++ "]\x7d".data
  | none => "\x7b\"id\":\"".data ++ name ++ "\",\"d\":[".data ++ body ++ "]\x7d".data

/-- Following the specification's words for the wire payload of a data log chunk: the device
name, the time offset if there is one, and the serialized entries of the chunk, in order,
separated by commas. -/
def dataLogText (name : Text) (time_offset : Option Nat) (entries : List Text) : Text :=
  dataLogWrap name time_offset (",".data.intercalate entries)

/-- A data series that has something to report has a serialized text that is not empty. -/
def ReportsText (H : Headers D) (flag : Bool) : Prop :=
  ∀ d : D, (H.assembleLog flag d).1 = true → H.json (H.assembleLog flag d).2 ≠ []

/-- What a cycle assembled, leaving out what `publishDataLog` returned: for every chunk the
entries, the watermark and the data log handed to `publishDataLog`; the entries of the final
call; and the controller afterwards. -/
def Cycle.assembled (cy : Cycle D) :
    List (List Nat × Int × Text) × List Nat × LoggerController D :=
  (cy.chunks.map (fun p => (p.included, p.watermark, p.data_log)), cy.dropped, cy.ctrl)

/-- All entries handed to `addToDataLog` during a cycle, in the order of the calls. -/
def Cycle.entries (cy : Cycle D) : List Nat :=
  (cy.chunks.map (fun p => p.included)).flatten ++ cy.dropped

end LoggerController

/-- The constants of the missing headers are usable: every result code a handler records
differs from the undefined code, the command words are pairwise distinct, so are the unit
words, and the two logging types are distinct values of a `uint8_t`. -/
def Headers.WellFormed {D : Type} (H : Headers D) : Prop :=
  H.CMD_RET_SUCCESS ≠ H.CMD_RET_UNDEFINED ∧ H.CMD_RET_WARN_NO_CHANGE ≠ H.CMD_RET_UNDEFINED ∧
  H.CMD_RET_ERR_LOCKED ≠ H.CMD_RET_UNDEFINED ∧ H.CMD_RET_ERR_CMD ≠ H.CMD_RET_UNDEFINED ∧
  H.CMD_RET_ERR_VAL ≠ H.CMD_RET_UNDEFINED ∧ H.CMD_RET_ERR_UNITS ≠ H.CMD_RET_UNDEFINED ∧
  H.CMD_RET_ERR_LOG_SMALLER_READ ≠ H.CMD_RET_UNDEFINED ∧
  [H.CMD_LOCK, H.CMD_STATE_LOG, H.CMD_DATA_LOG, H.CMD_DATA_LOG_PERIOD, H.CMD_RESET].Nodup ∧
  [H.CMD_DATA_LOG_PERIOD_NUMBER, H.CMD_DATA_LOG_PERIOD_SEC, H.CMD_DATA_LOG_PERIOD_MIN,
    H.CMD_DATA_LOG_PERIOD_HR].Nodup ∧
  H.LOG_BY_TIME ≠ H.LOG_BY_EVENT ∧
  0 ≤ H.LOG_BY_TIME ∧ H.LOG_BY_TIME < 256 ∧ 0 ≤ H.LOG_BY_EVENT ∧ H.LOG_BY_EVENT < 256

instance {D : Type} (H : Headers D) : Decidable H.WellFormed := by
  unfold Headers.WellFormed; infer_instance

/-! ## A concrete instance -/

/-- Modelled from the spec: an instance of the missing headers, with the command words of the
specification's examples (`lock yay`, `period 5 m`, `period 10 #`), a data series that is its
own serialized text and reports when that text is not empty, and small buffers. -/
def demoHeaders : Headers Text :=
  { LOG_BY_TIME := 0, LOG_BY_EVENT := 1,
    CMD_RET_UNDEFINED := -100, CMD_RET_SUCCESS := 0, CMD_RET_WARN_NO_CHANGE := 1,
    CMD_RET_ERR_LOCKED := -2, CMD_RET_ERR_CMD := -3, CMD_RET_ERR_VAL := -4,
    CMD_RET_ERR_UNITS := -5, CMD_RET_ERR_LOG_SMALLER_READ := -11,
    CMD_LOCK := "lock".data, CMD_LOCK_ON := "yay".data, CMD_LOCK_OFF := "nay".data,
    CMD_STATE_LOG := "state-log".data, CMD_STATE_LOG_ON := "yay".data,
    CMD_STATE_LOG_OFF := "nay".data,
    CMD_DATA_LOG := "data-log".data, CMD_DATA_LOG_ON := "yay".data,
    CMD_DATA_LOG_OFF := "nay".data,
    CMD_DATA_LOG_PERIOD := "period".data, CMD_DATA_LOG_PERIOD_NUMBER := "#".data,
    CMD_DATA_LOG_PERIOD_SEC := "s".data, CMD_DATA_LOG_PERIOD_MIN := "m".data,
    CMD_DATA_LOG_PERIOD_HR := "h".data,
    CMD_RESET := "reset".data, CMD_RESET_DATA := "data".data, CMD_RESET_STATE := "state".data,
    STATE_INFO_MAX_CHAR := 600, DATA_LOG_MAX_CHAR := 60, sizeof_command_data := 50,
    EEPROM_MAX := 64, sizeof_state := 12,
    getStateLockedText := fun b n => (if b then "L1" else "L0").data.take (n - 1),
    getStateStateLoggingText := fun b n => (if b then "S1" else "S0").data.take (n - 1),
    getStateDataLoggingText := fun b n => (if b then "D1" else "D0").data.take (n - 1),
    getStateDataLoggingPeriodText := fun p t n =>
      ("P".data ++ decimal p.toNat ++ (if t = 0 then "s" else "x").data).take (n - 1),
    getStateStringText := fun k v n => (k ++ "=".data ++ v).take (n - 1),
    assembleLog := fun _ d => (!d.isEmpty, d),
    json := fun d => d,
    getN := fun d => (d.length : Int),
    getDataTime := fun _ => 0,
    clear := fun _ _ => [] }

/-- A cloud that is connected and accepts every payload. -/
def demoCloud : Cloud :=
  { connected := true, date_time := "2020-01-01 00:00:00 UTC".data, millis := 1000,
    publish := fun _ => true }

/-- The default controller record of the instance. -/
def demoState : LoggerControllerState :=
  { version := 1, locked := false, state_logging := false, data_logging := false,
    data_logging_period := 10, data_logging_type := 0 }

/-- A controller of the instance after `loadState`, holding the given data series. -/
def demoController (data : List Text) : LoggerController Text :=
  { LoggerController.loadState
      (LoggerController.new demoHeaders "demo".data demoState demoState
        LoggerController.isDataLoggingPeriodValid_base) false with data := data }

/-- The controller of the instance, locked. -/
def demoLocked : LoggerController Text :=
  { demoController [] with
    state := { demoState with locked := true }, eeprom := { demoState with locked := true } }

/-- A controller of the instance as the constructor leaves it, before `loadState`: the
EEPROM still holds a record of an older layout. -/
def demoUnloaded : LoggerController Text :=
  LoggerController.new demoHeaders "demo".data demoState
    { demoState with version := 9, data_logging_period := 77 }
    LoggerController.isDataLoggingPeriodValid_base

/-- A component of the instance with a record of `size` bytes that claims no command. -/
def demoComponent (size : Nat) : LoggerComponent :=
  { id := "c".data, getStateSize := size, eeprom_start := 0,
    parseCommand := fun cmd => (false, cmd), assembleLoggerStateVariable := [] }

/-- A component of the instance that handles the variable `reads`: a positive value is a
change, any other value is invalid; it claims the command when it has given it a result. -/
def demoReads : LoggerComponent :=
  { id := "reads".data, getStateSize := 4, eeprom_start := 0,
    parseCommand := fun cmd =>
      if cmd.parseVariable "reads".data then
        let cmd := cmd.extractValue
        let cmd := if atoi cmd.value > 0 then cmd.success demoHeaders true
          else cmd.errorValue demoHeaders
        (cmd.isTypeDefined demoHeaders, cmd)
      else (false, cmd),
    assembleLoggerStateVariable := ["R1".data] }

/-- A component of the instance that gives every command the result `Success` and yet
reports that it did not claim it. -/
def demoSilent : LoggerComponent :=
  { id := "silent".data, getStateSize := 4, eeprom_start := 0,
    parseCommand := fun cmd => (false, cmd.success demoHeaders true),
    assembleLoggerStateVariable := [] }

/-- The controller of the instance with `demoComponent 8` and `demoReads` registered. -/
def demoWithComponents : LoggerController Text :=
  LoggerController.addComponents demoHeaders (demoController [])
    [demoComponent 8, demoReads]

/-- A cloud of the instance late in the uptime of the device: the clock has ten digits. -/
def demoLateCloud : Cloud :=
  { connected := true, date_time := "2020-01-15 00:00:00 UTC".data, millis := 1234567890,
    publish := fun _ => true }

/-- The controller of the instance with a device name of 19 characters and the given data. -/
def demoNamed (data : List Text) : LoggerController Text :=
  { demoController data with name := "abcdefghijklmnopqrs".data }

/-- The controller of the instance with data logging on and the given data. -/
def demoLogging (data : List Text) : LoggerController Text :=
  { demoController data with state := { demoState with data_logging := true },
                             eeprom := { demoState with data_logging := true } }

/-- A cloud of the instance that is not connected, so that every publication fails. -/
def demoOffline : Cloud :=
  { connected := false, date_time := "2020-01-01 00:00:00 UTC".data, millis := 1000,
    publish := fun _ => false }

end LabLogger

/-! # Properties -/

namespace LabLogger

open LoggerController

variable {D : Type}

/-! ## State store -/

theorem saveState_persisted (c : LoggerController D) : Persisted (saveState c) := rfl

theorem restoreState_fst (c : LoggerController D) :
    (restoreState c).1 = (c.eeprom.version == c.state.version) := by
  unfold restoreState
  by_cases h : (c.eeprom.version == c.state.version) = true <;> simp [h]

theorem restoreState_of_eq (c : LoggerController D) (h : c.eeprom.version = c.state.version) :
    restoreState c = (true, { c with state := c.eeprom }) := by
  simp [restoreState, h]

theorem restoreState_of_ne (c : LoggerController D) (h : c.eeprom.version ≠ c.state.version) :
    restoreState c = (false, saveState c) := by
  simp [restoreState, h]

theorem restoreState_persisted (c : LoggerController D) : Persisted (restoreState c).2 := by
  by_cases h : c.eeprom.version = c.state.version
  · rw [restoreState_of_eq c h]; rfl
  · rw [restoreState_of_ne c h]; rfl

/-- C5: `restoreState` returns true exactly when the stored record's version equals the
version in memory; when it returns true, the state in memory afterwards is the stored record,
field by field, and the storage is unchanged. -/
theorem restoreState_succeeds_iff_version_match (c : LoggerController D) :
    ((restoreState c).1 = true ↔ c.eeprom.version = c.state.version) ∧
    ((restoreState c).1 = true →
      (restoreState c).2.state = c.eeprom ∧ (restoreState c).2.eeprom = c.eeprom) := by
  by_cases h : c.eeprom.version = c.state.version
  · rw [restoreState_of_eq c h]; simp [h]
  · rw [restoreState_of_ne c h]; simp [h]

/-- C5 at a concrete input: a stored record of version 1 with other fields than the defaults
is taken over by a controller whose record has version 1. -/
theorem restoreState_succeeds_iff_version_match_witness :
    (restoreState ({ demoController [] with
        eeprom := { demoState with locked := true, data_logging_period := 77 } })).1 = true ∧
    (restoreState ({ demoController [] with
        eeprom := { demoState with locked := true, data_logging_period := 77 } })).2.state
      = { demoState with locked := true, data_logging_period := 77 } :=
  ⟨by decide,
   ((restoreState_succeeds_iff_version_match ({ demoController [] with
        eeprom := { demoState with locked := true, data_logging_period := 77 } })).2
      (by decide)).1⟩

/-- C6: when the stored record's version differs from the version in memory, `restoreState`
returns false, leaves the record in memory unchanged and overwrites the stored record with it;
after that, `saveState` followed by `restoreState` returns true and leaves the record in
memory (and the whole controller) as it was; on every controller, save then restore succeeds
and is the identity on the record in memory. -/
theorem restoreState_stale_then_round_trip (c : LoggerController D)
    (h : c.eeprom.version ≠ c.state.version) :
    (restoreState c).1 = false ∧
    (restoreState c).2.state = c.state ∧
    (restoreState c).2.eeprom = c.state ∧
    (restoreState (saveState (restoreState c).2)).1 = true ∧
    (restoreState (saveState (restoreState c).2)).2.state = c.state ∧
    (restoreState (saveState (restoreState c).2)).2 = (restoreState c).2 ∧
    (∀ k : LoggerController D, (restoreState (saveState k)).1 = true ∧
      (restoreState (saveState k)).2.state = k.state) := by
  rw [restoreState_of_ne c h]
  have h2 : ∀ k : LoggerController D,
      (saveState k).eeprom.version = (saveState k).state.version := fun _ => rfl
  rw [restoreState_of_eq _ (h2 _)]
  refine ⟨rfl, rfl, rfl, rfl, rfl, rfl, fun k => ?_⟩
  rw [restoreState_of_eq _ (h2 k)]
  exact ⟨rfl, rfl⟩

/-- C6 at a concrete input: a stored record of version 0 against a default of version 1. -/
theorem restoreState_stale_then_round_trip_witness :
    (restoreState ({ demoController [] with
        eeprom := { demoState with version := 0, locked := true } })).1 = false ∧
    (restoreState ({ demoController [] with
        eeprom := { demoState with version := 0, locked := true } })).2.eeprom = demoState :=
  have h := restoreState_stale_then_round_trip ({ demoController [] with
        eeprom := { demoState with version := 0, locked := true } }) (by decide)
  ⟨h.1, h.2.2.1⟩

/-! ## State change functions -/

theorem changeLocked_eq (c : LoggerController D) (on_ : Bool) :
    changeLocked c on_ =
      if on_ = c.state.locked then (false, c)
      else (true, { c with state := { c.state with locked := on_ },
                           eeprom := { c.state with locked := on_ } }) := by
  unfold changeLocked saveState
  by_cases h : on_ = c.state.locked <;> simp [h]

theorem changeStateLogging_eq (c : LoggerController D) (on_ : Bool) :
    changeStateLogging c on_ =
      if on_ = c.state.state_logging then (false, c)
      else (true, { c with state := { c.state with state_logging := on_ },
                           eeprom := { c.state with state_logging := on_ },
                           override_state_log := true }) := by
  unfold changeStateLogging saveState
  by_cases h : on_ = c.state.state_logging <;> simp [h]

theorem changeDataLogging_eq (H : Headers D) (c : LoggerController D) (on_ : Bool) :
    changeDataLogging H c on_ =
      if on_ = c.state.data_logging then (false, c)
      else (true, { c with state := { c.state with data_logging := on_ },
                           eeprom := { c.state with data_logging := on_ },
                           data := if on_ then c.data.map (H.clear true) else c.data }) := by
  unfold changeDataLogging saveState resetData clearData
  cases on_ <;> cases hb : c.state.data_logging <;> simp [hb]

theorem changeDataLoggingPeriod_eq (c : LoggerController D) (period type : Int) :
    changeDataLoggingPeriod c period type =
      if period = c.state.data_logging_period ∧ type = c.state.data_logging_type then (false, c)
      else (true, { c with
        state := { c.state with data_logging_period := period, data_logging_type := type },
        eeprom := { c.state with data_logging_period := period, data_logging_type := type } })
    := by
  unfold changeDataLoggingPeriod saveState
  by_cases h1 : period = c.state.data_logging_period <;>
    by_cases h2 : type = c.state.data_logging_type <;> simp [h1, h2]

theorem changeLocked_persisted (c : LoggerController D) (on_ : Bool) (h : Persisted c) :
    Persisted (changeLocked c on_).2 := by
  rw [changeLocked_eq]; split
  · exact h
  · rfl

theorem changeStateLogging_persisted (c : LoggerController D) (on_ : Bool) (h : Persisted c) :
    Persisted (changeStateLogging c on_).2 := by
  rw [changeStateLogging_eq]; split
  · exact h
  · rfl

theorem changeDataLogging_persisted (H : Headers D) (c : LoggerController D) (on_ : Bool)
    (h : Persisted c) : Persisted (changeDataLogging H c on_).2 := by
  rw [changeDataLogging_eq]; split
  · exact h
  · rfl

theorem changeDataLoggingPeriod_persisted (c : LoggerController D) (period type : Int)
    (h : Persisted c) : Persisted (changeDataLoggingPeriod c period type).2 := by
  rw [changeDataLoggingPeriod_eq]; split
  · exact h
  · rfl

/-! ## What the state report and `receiveCommand` leave alone -/

theorem untouched_refl (c : LoggerController D) : Untouched c c := ⟨rfl, rfl, rfl, rfl⟩

theorem untouched_trans {a b c : LoggerController D} (h1 : Untouched a b) (h2 : Untouched b c) :
    Untouched a c :=
  ⟨h2.1.trans h1.1, h2.2.1.trans h1.2.1, h2.2.2.1.trans h1.2.2.1, h2.2.2.2.trans h1.2.2.2⟩

theorem addToLoggerStateVariableBuffer_untouched (H : Headers D) (c : LoggerController D)
    (info : Text) : Untouched c (addToLoggerStateVariableBuffer H c info) := by
  unfold addToLoggerStateVariableBuffer
  split <;> exact ⟨rfl, rfl, rfl, rfl⟩

theorem foldl_addToLoggerStateVariableBuffer_untouched (H : Headers D) (infos : List Text) :
    ∀ c : LoggerController D,
      Untouched c (infos.foldl (addToLoggerStateVariableBuffer H) c) := by
  induction infos with
  | nil => intro c; exact untouched_refl c
  | cons x xs ih =>
    intro c
    exact untouched_trans (addToLoggerStateVariableBuffer_untouched H c x) (ih _)

theorem assembleLoggerStateVariable_untouched (H : Headers D) (c : LoggerController D) :
    Untouched c (assembleLoggerStateVariable H c) := by
  unfold assembleLoggerStateVariable
  exact untouched_trans (addToLoggerStateVariableBuffer_untouched H _ _)
    (untouched_trans (addToLoggerStateVariableBuffer_untouched H _ _)
      (untouched_trans (addToLoggerStateVariableBuffer_untouched H _ _)
        (addToLoggerStateVariableBuffer_untouched H _ _)))

theorem foldl_components_untouched (H : Headers D) (comps : List LoggerComponent) :
    ∀ c : LoggerController D,
      Untouched c (comps.foldl
        (fun c comp =>
          comp.assembleLoggerStateVariable.foldl (addToLoggerStateVariableBuffer H) c) c) := by
  induction comps with
  | nil => intro c; exact untouched_refl c
  | cons x xs ih =>
    intro c
    exact untouched_trans (foldl_addToLoggerStateVariableBuffer_untouched H _ c) (ih _)

theorem postLoggerStateVariable_untouched (H : Headers D) (env : Cloud)
    (c : LoggerController D) : Untouched c (postLoggerStateVariable H env c) := by
  unfold postLoggerStateVariable
  split <;> exact ⟨rfl, rfl, rfl, rfl⟩

theorem updateLoggerStateVariable_untouched (H : Headers D) (env : Cloud)
    (c : LoggerController D) : Untouched c (updateLoggerStateVariable H env c) := by
  unfold updateLoggerStateVariable assembleLoggerComponentsStateVariable
  have h0 : Untouched c { c with state_variable_buffer := [] } := ⟨rfl, rfl, rfl, rfl⟩
  exact untouched_trans h0 (untouched_trans (assembleLoggerStateVariable_untouched H _)
    (untouched_trans (foldl_components_untouched H _ _)
      (postLoggerStateVariable_untouched H env _)))

/-- The controller on which `receiveCommand` runs the dispatch chain. -/
theorem receiveCommand_eq (H : Headers D) (env : Cloud) (c : LoggerController D) (s : Text) :
    (receiveCommand H env c s).2.state
        = (parseCommand H { c with command := (LoggerCommand.load H s).extractVariable }).state ∧
    (receiveCommand H env c s).2.eeprom
        = (parseCommand H { c with command := (LoggerCommand.load H s).extractVariable }).eeprom ∧
    (receiveCommand H env c s).2.data
        = (parseCommand H { c with command := (LoggerCommand.load H s).extractVariable }).data ∧
    (receiveCommand H env c s).1
        = if (parseCommand H
              { c with command := (LoggerCommand.load H s).extractVariable }).command.ret_val
              = H.CMD_RET_UNDEFINED
          then H.CMD_RET_ERR_CMD
          else (parseCommand H
              { c with command := (LoggerCommand.load H s).extractVariable }).command.ret_val := by
  unfold receiveCommand
  dsimp only
  generalize parseCommand H { c with command := (LoggerCommand.load H s).extractVariable } = p
  have hu := fun q => updateLoggerStateVariable_untouched H env q
  unfold Untouched at hu
  simp only [LoggerCommand.isTypeDefined, LoggerCommand.errorCommand, LoggerCommand.error,
    assembleStateLog]
  split_ifs <;> simp_all

/-! ## The handlers keep the stored record equal to the record in memory -/

theorem parseLocked_persisted (H : Headers D) (c : LoggerController D) (h : Persisted c) :
    Persisted (parseLocked H c).2 := by
  unfold parseLocked
  dsimp only
  split_ifs
  · exact changeLocked_persisted { c with command := c.command.extractValue } true h
  · exact changeLocked_persisted { c with command := c.command.extractValue } false h
  · exact h
  · exact h
  · exact h

theorem parseStateLogging_persisted (H : Headers D) (c : LoggerController D)
    (h : Persisted c) : Persisted (parseStateLogging H c).2 := by
  unfold parseStateLogging
  dsimp only
  split_ifs
  · exact changeStateLogging_persisted { c with command := c.command.extractValue } true h
  · exact changeStateLogging_persisted { c with command := c.command.extractValue } false h
  · exact h
  · exact h

theorem parseDataLogging_persisted (H : Headers D) (c : LoggerController D)
    (h : Persisted c) : Persisted (parseDataLogging H c).2 := by
  unfold parseDataLogging
  dsimp only
  split_ifs
  · exact changeDataLogging_persisted H { c with command := c.command.extractValue } true h
  · exact changeDataLogging_persisted H { c with command := c.command.extractValue } false h
  · exact h
  · exact h

theorem parseDataLoggingPeriod_persisted (H : Headers D) (c : LoggerController D)
    (h : Persisted c) : Persisted (parseDataLoggingPeriod H c).2 := by
  unfold parseDataLoggingPeriod
  dsimp only
  split_ifs <;>
    first
    | exact h
    | exact changeDataLoggingPeriod_persisted
        { c with command := (parseDataLoggingPeriod_units H c.command.extractValue.extractUnits
            (atoi c.command.extractValue.value)).2.2 } _ _ h

theorem parseReset_persisted (H : Headers D) (c : LoggerController D)
    (h : Persisted c) : Persisted (parseReset H c).2 := by
  unfold parseReset
  dsimp only
  split_ifs
  · exact h
  · rfl
  · exact h
  · exact h

theorem parseComponentsCommand_persisted (c : LoggerController D) (h : Persisted c) :
    Persisted (parseComponentsCommand c) := h

theorem parseCommand_persisted (H : Headers D) (c : LoggerController D)
    (h : Persisted c) : Persisted (parseCommand H c) := by
  unfold parseCommand
  have h1 := parseLocked_persisted H c h
  have h2 := parseStateLogging_persisted H _ h1
  have h3 := parseDataLogging_persisted H _ h2
  have h4 := parseDataLoggingPeriod_persisted H _ h3
  have h5 := parseReset_persisted H _ h4
  dsimp only
  split_ifs
  · exact h1
  · exact h2
  · exact h3
  · exact h4
  · exact h5
  · exact parseComponentsCommand_persisted _ h5

theorem receiveCommand_persisted (H : Headers D) (env : Cloud) (c : LoggerController D)
    (s : Text) (h : Persisted c) : Persisted (receiveCommand H env c s).2 := by
  have e := receiveCommand_eq H env c s
  have hp : Persisted (parseCommand H
      { c with command := (LoggerCommand.load H s).extractVariable }) :=
    parseCommand_persisted H _ h
  unfold Persisted at *
  rw [e.1, e.2.1]; exact hp

/-! ## The dispatch chain on the lock command and on a locked controller -/

theorem parseCommand_of_parseLocked (H : Headers D) (c : LoggerController D)
    (h : (parseLocked H c).1 = true) : parseCommand H c = (parseLocked H c).2 := by
  unfold parseCommand
  simp only [h, ↓reduceIte]

theorem parseLocked_lock_on (H : Headers D) (c : LoggerController D)
    (hH : H.WellFormed)
    (hv : c.command.variable_ = H.CMD_LOCK)
    (hon : c.command.extractValue.value = H.CMD_LOCK_ON) :
    (parseLocked H c).1 = true ∧
    (parseLocked H c).2.command.ret_val
      = (if c.state.locked then H.CMD_RET_WARN_NO_CHANGE else H.CMD_RET_SUCCESS) ∧
    (parseLocked H c).2.state = { c.state with locked := true } ∧
    (parseLocked H c).2.eeprom
      = (if c.state.locked then c.eeprom else { c.state with locked := true }) ∧
    (parseLocked H c).2.data = c.data := by
  obtain ⟨hs, hn, -⟩ := hH
  unfold parseLocked
  simp only [LoggerCommand.parseVariable, LoggerCommand.parseValue, hv, hon, beq_self_eq_true,
    ↓reduceIte, changeLocked_eq, LoggerCommand.isTypeDefined, LoggerCommand.success]
  have eta : c.state = { c.state with locked := c.state.locked } := rfl
  cases hl : c.state.locked
  · simp [hs]
  · rw [hl] at eta
    simp [hn]
    exact eta

theorem parseLocked_locked_other (H : Headers D) (c : LoggerController D)
    (hH : H.WellFormed)
    (hv : c.command.variable_ ≠ H.CMD_LOCK)
    (hl : c.state.locked = true) :
    parseLocked H c = (true, { c with command := c.command.errorLocked H }) := by
  obtain ⟨-, -, he, -⟩ := hH
  unfold parseLocked
  simp [LoggerCommand.parseVariable, hv, hl, LoggerCommand.isTypeDefined,
    LoggerCommand.errorLocked, LoggerCommand.error, he]

theorem receiveCommand_lock_on (H : Headers D) (env : Cloud) (c : LoggerController D)
    (s : Text) (hH : H.WellFormed)
    (hv : variableOf H s = H.CMD_LOCK) (hon : valueOf H s = H.CMD_LOCK_ON) :
    (receiveCommand H env c s).1
      = (if c.state.locked then H.CMD_RET_WARN_NO_CHANGE else H.CMD_RET_SUCCESS) ∧
    (receiveCommand H env c s).2.state = { c.state with locked := true } ∧
    (receiveCommand H env c s).2.eeprom
      = (if c.state.locked then c.eeprom else { c.state with locked := true }) ∧
    (receiveCommand H env c s).2.data = c.data := by
  have e := receiveCommand_eq H env c s
  have p := parseLocked_lock_on H
    { c with command := (LoggerCommand.load H s).extractVariable } hH hv hon
  rw [parseCommand_of_parseLocked H _ p.1] at e
  obtain ⟨hs, hn, -⟩ := hH
  refine ⟨?_, e.1.trans p.2.2.1, e.2.1.trans p.2.2.2.1, e.2.2.1.trans p.2.2.2.2⟩
  rw [e.2.2.2, p.2.1]
  cases c.state.locked <;> simp [hs, hn]

theorem receiveCommand_locked_other (H : Headers D) (env : Cloud) (c : LoggerController D)
    (s : Text) (hH : H.WellFormed)
    (hv : variableOf H s ≠ H.CMD_LOCK) (hl : c.state.locked = true) :
    (receiveCommand H env c s).1 = H.CMD_RET_ERR_LOCKED ∧
    (receiveCommand H env c s).2.state = c.state ∧
    (receiveCommand H env c s).2.eeprom = c.eeprom ∧
    (receiveCommand H env c s).2.data = c.data := by
  have e := receiveCommand_eq H env c s
  have p := parseLocked_locked_other H
    { c with command := (LoggerCommand.load H s).extractVariable } hH hv hl
  have p1 : (parseLocked H
      { c with command := (LoggerCommand.load H s).extractVariable }).1 = true := by rw [p]
  rw [parseCommand_of_parseLocked H _ p1, p] at e
  obtain ⟨-, -, he, -⟩ := hH
  refine ⟨?_, e.1, e.2.1, e.2.2.1⟩
  rw [e.2.2.2]
  simp [LoggerCommand.errorLocked, LoggerCommand.error, he]

/-! ## The dispatch chain on the period command -/

theorem parseLocked_pass (H : Headers D) (c : LoggerController D)
    (hv : c.command.variable_ ≠ H.CMD_LOCK) (hl : c.state.locked = false) :
    parseLocked H c = (c.command.isTypeDefined H, c) := by
  unfold parseLocked
  simp [LoggerCommand.parseVariable, hv, hl]

theorem parseStateLogging_pass (H : Headers D) (c : LoggerController D)
    (hv : c.command.variable_ ≠ H.CMD_STATE_LOG) :
    parseStateLogging H c = (c.command.isTypeDefined H, c) := by
  unfold parseStateLogging
  simp [LoggerCommand.parseVariable, hv]

theorem parseDataLogging_pass (H : Headers D) (c : LoggerController D)
    (hv : c.command.variable_ ≠ H.CMD_DATA_LOG) :
    parseDataLogging H c = (c.command.isTypeDefined H, c) := by
  unfold parseDataLogging
  simp [LoggerCommand.parseVariable, hv]

theorem parseCommand_period (H : Headers D) (c : LoggerController D) (hH : H.WellFormed)
    (hv : c.command.variable_ = H.CMD_DATA_LOG_PERIOD) (hl : c.state.locked = false)
    (hu : c.command.ret_val = H.CMD_RET_UNDEFINED)
    (hp : (parseDataLoggingPeriod H c).1 = true) :
    parseCommand H c = (parseDataLoggingPeriod H c).2 := by
  have hn := hH.2.2.2.2.2.2.2.1
  have h1 : c.command.variable_ ≠ H.CMD_LOCK := by
    rw [hv]; intro h; rw [h] at hn; simp at hn
  have h2 : c.command.variable_ ≠ H.CMD_STATE_LOG := by
    rw [hv]; intro h; rw [h] at hn; simp at hn
  have h3 : c.command.variable_ ≠ H.CMD_DATA_LOG := by
    rw [hv]; intro h; rw [h] at hn; simp at hn
  have hd : c.command.isTypeDefined H = false := by
    simp [LoggerCommand.isTypeDefined, hu]
  unfold parseCommand
  simp only [parseLocked_pass H c h1 hl, parseStateLogging_pass H c h2,
    parseDataLogging_pass H c h3, hd, hp, ↓reduceIte, Bool.false_eq_true]



theorem parseDataLoggingPeriod_invalid_value (H : Headers D) (c : LoggerController D)
    (hH : H.WellFormed) (hv : c.command.variable_ = H.CMD_DATA_LOG_PERIOD)
    (hn : atoi c.command.extractValue.value ≤ 0) :
    (parseDataLoggingPeriod H c).1 = true ∧
    (parseDataLoggingPeriod H c).2.command.ret_val = H.CMD_RET_ERR_VAL ∧
    (parseDataLoggingPeriod H c).2.state = c.state ∧
    (parseDataLoggingPeriod H c).2.eeprom = c.eeprom ∧
    (parseDataLoggingPeriod H c).2.data = c.data := by
  have he := hH.2.2.2.2.1
  have hn' : ¬ atoi c.command.extractValue.value > 0 := not_lt.mpr hn
  unfold parseDataLoggingPeriod
  simp only [LoggerCommand.parseVariable, hv, beq_self_eq_true, ↓reduceIte, hn',
    LoggerCommand.isTypeDefined, LoggerCommand.errorValue, LoggerCommand.error]
  simp [he]

theorem parseDataLoggingPeriod_units_error (H : Headers D) (c : LoggerController D)
    (hv : c.command.variable_ = H.CMD_DATA_LOG_PERIOD)
    (hn : 0 < atoi c.command.extractValue.value)
    (hr : (parseDataLoggingPeriod_units H c.command.extractValue.extractUnits
      (atoi c.command.extractValue.value)).2.2.ret_val ≠ H.CMD_RET_UNDEFINED) :
    (parseDataLoggingPeriod H c).1 = true ∧
    (parseDataLoggingPeriod H c).2.command.ret_val
      = (parseDataLoggingPeriod_units H c.command.extractValue.extractUnits
          (atoi c.command.extractValue.value)).2.2.ret_val ∧
    (parseDataLoggingPeriod H c).2.state = c.state ∧
    (parseDataLoggingPeriod H c).2.eeprom = c.eeprom ∧
    (parseDataLoggingPeriod H c).2.data = c.data := by
  have hn' : atoi c.command.extractValue.value > 0 := hn
  unfold parseDataLoggingPeriod
  simp only [LoggerCommand.parseVariable, hv, beq_self_eq_true, ↓reduceIte, hn',
    LoggerCommand.isTypeDefined]
  simp [hr]

theorem parseDataLoggingPeriod_rejected (H : Headers D) (c : LoggerController D)
    (hH : H.WellFormed) (hv : c.command.variable_ = H.CMD_DATA_LOG_PERIOD)
    (hn : 0 < atoi c.command.extractValue.value)
    (hr : (parseDataLoggingPeriod_units H c.command.extractValue.extractUnits
      (atoi c.command.extractValue.value)).2.2.ret_val = H.CMD_RET_UNDEFINED)
    (hk : c.isDataLoggingPeriodValid
      (parseDataLoggingPeriod_units H c.command.extractValue.extractUnits
        (atoi c.command.extractValue.value)).1
      (parseDataLoggingPeriod_units H c.command.extractValue.extractUnits
        (atoi c.command.extractValue.value)).2.1 = false) :
    (parseDataLoggingPeriod H c).1 = true ∧
    (parseDataLoggingPeriod H c).2.command.ret_val = H.CMD_RET_ERR_LOG_SMALLER_READ ∧
    (parseDataLoggingPeriod H c).2.state = c.state ∧
    (parseDataLoggingPeriod H c).2.eeprom = c.eeprom ∧
    (parseDataLoggingPeriod H c).2.data = c.data := by
  have he := hH.2.2.2.2.2.2.1
  have hn' : atoi c.command.extractValue.value > 0 := hn
  unfold parseDataLoggingPeriod
  simp only [LoggerCommand.parseVariable, hv, beq_self_eq_true, ↓reduceIte, hn',
    LoggerCommand.isTypeDefined, LoggerCommand.error]
  simp [hr, hk, he]

theorem parseDataLoggingPeriod_accepted (H : Headers D) (c : LoggerController D)
    (hH : H.WellFormed) (hv : c.command.variable_ = H.CMD_DATA_LOG_PERIOD)
    (hn : 0 < atoi c.command.extractValue.value)
    (hr : (parseDataLoggingPeriod_units H c.command.extractValue.extractUnits
      (atoi c.command.extractValue.value)).2.2.ret_val = H.CMD_RET_UNDEFINED)
    (hk : c.isDataLoggingPeriodValid
      (parseDataLoggingPeriod_units H c.command.extractValue.extractUnits
        (atoi c.command.extractValue.value)).1
      (parseDataLoggingPeriod_units H c.command.extractValue.extractUnits
        (atoi c.command.extractValue.value)).2.1 = true) :
    (parseDataLoggingPeriod H c).1 = true ∧
    ((parseDataLoggingPeriod H c).2.command.ret_val = H.CMD_RET_SUCCESS ∨
      (parseDataLoggingPeriod H c).2.command.ret_val = H.CMD_RET_WARN_NO_CHANGE) ∧
    (parseDataLoggingPeriod H c).2.state.data_logging_period
      = (parseDataLoggingPeriod_units H c.command.extractValue.extractUnits
          (atoi c.command.extractValue.value)).2.1 ∧
    (parseDataLoggingPeriod H c).2.state.data_logging_type
      = (parseDataLoggingPeriod_units H c.command.extractValue.extractUnits
          (atoi c.command.extractValue.value)).1 ∧
    (Persisted c → Persisted (parseDataLoggingPeriod H c).2) ∧
    (parseDataLoggingPeriod H c).2.data = c.data := by
  obtain ⟨hs, hw, -⟩ := hH
  have hn' : atoi c.command.extractValue.value > 0 := hn
  refine ⟨?_, ?_, ?_, ?_, parseDataLoggingPeriod_persisted H c, ?_⟩ <;>
  · unfold parseDataLoggingPeriod
    simp only [LoggerCommand.parseVariable, hv, beq_self_eq_true, ↓reduceIte, hn',
      LoggerCommand.isTypeDefined, LoggerCommand.success, changeDataLoggingPeriod_eq]
    simp only [hr, hk, bne_self_eq_false, Bool.not_false, ↓reduceIte]
    split_ifs <;> simp_all



theorem toUInt8_of_range (x : Int) (h0 : 0 ≤ x) (h1 : x < 256) : toUInt8 x = x := by
  unfold toUInt8; omega

theorem toInt32_of_range (x : Int) (h0 : INT_MIN ≤ x) (h1 : x ≤ INT_MAX) : toInt32 x = x := by
  unfold toInt32; unfold INT_MIN at h0; unfold INT_MAX at h1; omega

theorem parseDataLoggingPeriod_units_number (H : Headers D) (cmd : LoggerCommand) (n : Int)
    (hH : H.WellFormed) (hu : cmd.units = H.CMD_DATA_LOG_PERIOD_NUMBER) :
    parseDataLoggingPeriod_units H cmd n = (H.LOG_BY_EVENT, n, cmd) := by
  obtain ⟨-, -, -, -, -, -, -, -, -, -, -, -, e0, e1⟩ := hH
  unfold parseDataLoggingPeriod_units
  simp [LoggerCommand.parseUnits, hu, toUInt8_of_range _ e0 e1]

theorem parseDataLoggingPeriod_units_sec (H : Headers D) (cmd : LoggerCommand) (n : Int)
    (hH : H.WellFormed) (hu : cmd.units = H.CMD_DATA_LOG_PERIOD_SEC) :
    parseDataLoggingPeriod_units H cmd n = (H.LOG_BY_TIME, n, cmd) := by
  obtain ⟨-, -, -, -, -, -, -, -, hn, -, t0, t1, -, -⟩ := hH
  have h1 : H.CMD_DATA_LOG_PERIOD_SEC ≠ H.CMD_DATA_LOG_PERIOD_NUMBER := by
    intro h; rw [h] at hn; simp at hn
  unfold parseDataLoggingPeriod_units
  simp [LoggerCommand.parseUnits, hu, toUInt8_of_range _ t0 t1, h1]

theorem parseDataLoggingPeriod_units_min (H : Headers D) (cmd : LoggerCommand) (n : Int)
    (hH : H.WellFormed) (hu : cmd.units = H.CMD_DATA_LOG_PERIOD_MIN) :
    parseDataLoggingPeriod_units H cmd n = (H.LOG_BY_TIME, toInt32 (60 * n), cmd) := by
  obtain ⟨-, -, -, -, -, -, -, -, hn, -, t0, t1, -, -⟩ := hH
  have h1 : H.CMD_DATA_LOG_PERIOD_MIN ≠ H.CMD_DATA_LOG_PERIOD_NUMBER := by
    intro h; rw [h] at hn; simp at hn
  have h2 : H.CMD_DATA_LOG_PERIOD_MIN ≠ H.CMD_DATA_LOG_PERIOD_SEC := by
    intro h; rw [h] at hn; simp at hn
  unfold parseDataLoggingPeriod_units
  simp [LoggerCommand.parseUnits, hu, toUInt8_of_range _ t0 t1, h1, h2]

theorem parseDataLoggingPeriod_units_hr (H : Headers D) (cmd : LoggerCommand) (n : Int)
    (hH : H.WellFormed) (hu : cmd.units = H.CMD_DATA_LOG_PERIOD_HR) :
    parseDataLoggingPeriod_units H cmd n = (H.LOG_BY_TIME, toInt32 (60 * 60 * n), cmd) := by
  obtain ⟨-, -, -, -, -, -, -, -, hn, -, t0, t1, -, -⟩ := hH
  have h1 : H.CMD_DATA_LOG_PERIOD_HR ≠ H.CMD_DATA_LOG_PERIOD_NUMBER := by
    intro h; rw [h] at hn; simp at hn
  have h2 : H.CMD_DATA_LOG_PERIOD_HR ≠ H.CMD_DATA_LOG_PERIOD_SEC := by
    intro h; rw [h] at hn; simp at hn
  have h3 : H.CMD_DATA_LOG_PERIOD_HR ≠ H.CMD_DATA_LOG_PERIOD_MIN := by
    intro h; rw [h] at hn; simp at hn
  unfold parseDataLoggingPeriod_units
  simp [LoggerCommand.parseUnits, hu, toUInt8_of_range _ t0 t1, h1, h2, h3]

theorem parseDataLoggingPeriod_units_unknown (H : Headers D) (cmd : LoggerCommand) (n : Int)
    (hu : cmd.units ∉ [H.CMD_DATA_LOG_PERIOD_NUMBER, H.CMD_DATA_LOG_PERIOD_SEC,
      H.CMD_DATA_LOG_PERIOD_MIN, H.CMD_DATA_LOG_PERIOD_HR]) :
    (parseDataLoggingPeriod_units H cmd n).2.2.ret_val = H.CMD_RET_ERR_UNITS := by
  simp only [List.mem_cons, List.mem_singleton, not_or, List.not_mem_nil, or_false] at hu
  unfold parseDataLoggingPeriod_units
  simp [LoggerCommand.parseUnits, hu, LoggerCommand.errorUnits, LoggerCommand.error]

theorem parseDataLoggingPeriod_units_known (H : Headers D) (cmd : LoggerCommand) (n : Int)
    (hu : cmd.units ∈ [H.CMD_DATA_LOG_PERIOD_NUMBER, H.CMD_DATA_LOG_PERIOD_SEC,
      H.CMD_DATA_LOG_PERIOD_MIN, H.CMD_DATA_LOG_PERIOD_HR]) :
    (parseDataLoggingPeriod_units H cmd n).2.2 = cmd := by
  simp only [List.mem_cons, List.mem_singleton, List.not_mem_nil, or_false] at hu
  unfold parseDataLoggingPeriod_units
  simp only [LoggerCommand.parseUnits]
  split_ifs with a b c d
  · rfl
  · rfl
  · rfl
  · rfl
  · exfalso
    simp only [beq_iff_eq] at a b c d
    rcases hu with h | h | h | h
    · exact a h
    · exact b h
    · exact c h
    · exact d h

theorem receiveCommand_period (H : Headers D) (env : Cloud) (c : LoggerController D)
    (s : Text) (hH : H.WellFormed) (hv : variableOf H s = H.CMD_DATA_LOG_PERIOD)
    (hl : c.state.locked = false)
    (hp : (parseDataLoggingPeriod H
      { c with command := (LoggerCommand.load H s).extractVariable }).1 = true) :
    (receiveCommand H env c s).1 = (parseDataLoggingPeriod H
      { c with command := (LoggerCommand.load H s).extractVariable }).2.command.ret_val ∧
    (receiveCommand H env c s).2.state = (parseDataLoggingPeriod H
      { c with command := (LoggerCommand.load H s).extractVariable }).2.state ∧
    (receiveCommand H env c s).2.eeprom = (parseDataLoggingPeriod H
      { c with command := (LoggerCommand.load H s).extractVariable }).2.eeprom ∧
    (receiveCommand H env c s).2.data = (parseDataLoggingPeriod H
      { c with command := (LoggerCommand.load H s).extractVariable }).2.data := by
  have e := receiveCommand_eq H env c s
  rw [parseCommand_period H { c with command := (LoggerCommand.load H s).extractVariable }
    hH hv hl rfl hp] at e
  refine ⟨?_, e.1, e.2.1, e.2.2.1⟩
  rw [e.2.2.2]
  have hd : (parseDataLoggingPeriod H
      { c with command := (LoggerCommand.load H s).extractVariable }).2.command.ret_val
        ≠ H.CMD_RET_UNDEFINED := by
    have : (parseDataLoggingPeriod H
      { c with command := (LoggerCommand.load H s).extractVariable }).1
      = LoggerCommand.isTypeDefined H (parseDataLoggingPeriod H
      { c with command := (LoggerCommand.load H s).extractVariable }).2.command := rfl
    rw [this] at hp
    simpa [LoggerCommand.isTypeDefined] using hp
  simp [hd]

/-! ## Claims on the lock, the changed flag and the persisted record -/

/-- C2, as stated, fails: on a locked controller the lock-on command `lock yay`, which is
not the unlock command `lock nay`, does not return the `Locked` error; it returns the
`NoChange` warning. -/
theorem locked_lock_on_is_not_refused :
    demoLocked.state.locked = true ∧
    valueOf demoHeaders "lock yay".data ≠ demoHeaders.CMD_LOCK_OFF ∧
    (receiveCommand demoHeaders demoCloud demoLocked "lock yay".data).1
      ≠ demoHeaders.CMD_RET_ERR_LOCKED ∧
    (receiveCommand demoHeaders demoCloud demoLocked "lock yay".data).1
      = demoHeaders.CMD_RET_WARN_NO_CHANGE := by
  decide

/-- C2, amended: whenever the controller is locked, `receiveCommand` on every command whose
variable is not the lock variable returns the `Locked` error code and leaves the controller
record, the stored record and the accumulated readings unchanged; the lock-on command
returns `NoChange` and leaves them unchanged as well. -/
theorem locked_refuses_other_variables (H : Headers D) (env : Cloud) (c : LoggerController D)
    (s : Text) (hH : H.WellFormed) (hl : c.state.locked = true) :
    (variableOf H s ≠ H.CMD_LOCK →
      (receiveCommand H env c s).1 = H.CMD_RET_ERR_LOCKED ∧
      (receiveCommand H env c s).2.state = c.state ∧
      (receiveCommand H env c s).2.eeprom = c.eeprom ∧
      (receiveCommand H env c s).2.data = c.data) ∧
    (variableOf H s = H.CMD_LOCK → valueOf H s = H.CMD_LOCK_ON →
      (receiveCommand H env c s).1 = H.CMD_RET_WARN_NO_CHANGE ∧
      (receiveCommand H env c s).2.state = c.state ∧
      (receiveCommand H env c s).2.eeprom = c.eeprom ∧
      (receiveCommand H env c s).2.data = c.data) := by
  refine ⟨fun hv => receiveCommand_locked_other H env c s hH hv hl, fun hv hon => ?_⟩
  have h := receiveCommand_lock_on H env c s hH hv hon
  have eta : c.state = { c.state with locked := c.state.locked } := rfl
  rw [hl] at eta
  refine ⟨?_, ?_, ?_, h.2.2.2⟩
  · rw [h.1]; simp [hl]
  · rw [h.2.1]; exact eta.symm
  · rw [h.2.2.1]; simp [hl]

/-- C2, amended, at a concrete input: the locked controller refuses `period 5 m`. -/
theorem locked_refuses_other_variables_witness :
    (receiveCommand demoHeaders demoCloud demoLocked "period 5 m".data).1 = -2 ∧
    (receiveCommand demoHeaders demoCloud demoLocked "period 5 m".data).2.state
      = demoLocked.state :=
  have h := (locked_refuses_other_variables demoHeaders demoCloud demoLocked
    "period 5 m".data (by decide) (by decide)).1 (by decide)
  ⟨h.1, h.2.1⟩

/-- C9: each of `changeLocked`, `changeStateLogging`, `changeDataLogging` and
`changeDataLoggingPeriod` returns true exactly when the requested value differs from the
current one (for the period: the period or the type differs), afterwards the state holds the
requested value, and the same request again returns false; a false flag is recorded as
`NoChange`, and the lock-on command on an unlocked controller returns `Success` with
`locked = true` in memory and in storage, while the same command again returns `NoChange`. -/
theorem change_returns_whether_changed (H : Headers D) (env : Cloud) (c : LoggerController D)
    (hH : H.WellFormed) :
    (∀ b : Bool, ((changeLocked c b).1 = true ↔ b ≠ c.state.locked) ∧
      (changeLocked c b).2.state.locked = b ∧
      (changeLocked (changeLocked c b).2 b).1 = false) ∧
    (∀ b : Bool, ((changeStateLogging c b).1 = true ↔ b ≠ c.state.state_logging) ∧
      (changeStateLogging c b).2.state.state_logging = b ∧
      (changeStateLogging (changeStateLogging c b).2 b).1 = false) ∧
    (∀ b : Bool, ((changeDataLogging H c b).1 = true ↔ b ≠ c.state.data_logging) ∧
      (changeDataLogging H c b).2.state.data_logging = b ∧
      (changeDataLogging H (changeDataLogging H c b).2 b).1 = false) ∧
    (∀ p t : Int,
      ((changeDataLoggingPeriod c p t).1 = true ↔
        (p ≠ c.state.data_logging_period ∨ t ≠ c.state.data_logging_type)) ∧
      (changeDataLoggingPeriod c p t).2.state.data_logging_period = p ∧
      (changeDataLoggingPeriod c p t).2.state.data_logging_type = t ∧
      (changeDataLoggingPeriod (changeDataLoggingPeriod c p t).2 p t).1 = false) ∧
    (∀ cmd : LoggerCommand, (cmd.success H false).ret_val = H.CMD_RET_WARN_NO_CHANGE ∧
      (cmd.success H true).ret_val = H.CMD_RET_SUCCESS) ∧
    (∀ s : Text, variableOf H s = H.CMD_LOCK → valueOf H s = H.CMD_LOCK_ON →
      c.state.locked = false →
      (receiveCommand H env c s).1 = H.CMD_RET_SUCCESS ∧
      (receiveCommand H env c s).2.state.locked = true ∧
      (receiveCommand H env c s).2.eeprom.locked = true ∧
      (receiveCommand H env (receiveCommand H env c s).2 s).1 = H.CMD_RET_WARN_NO_CHANGE) := by
  refine ⟨fun b => ?_, fun b => ?_, fun b => ?_, fun p t => ?_, fun cmd => ⟨rfl, rfl⟩,
    fun s hv hon hl => ?_⟩
  · simp only [changeLocked_eq]
    cases b <;> cases hb : c.state.locked <;> simp [hb]
  · simp only [changeStateLogging_eq]
    cases b <;> cases hb : c.state.state_logging <;> simp [hb]
  · simp only [changeDataLogging_eq]
    cases b <;> cases hb : c.state.data_logging <;> simp [hb]
  · simp only [changeDataLoggingPeriod_eq]
    by_cases h1 : p = c.state.data_logging_period <;>
      by_cases h2 : t = c.state.data_logging_type <;> simp [h1, h2]
  · have h := receiveCommand_lock_on H env c s hH hv hon
    have h2 := receiveCommand_lock_on H env (receiveCommand H env c s).2 s hH hv hon
    refine ⟨?_, ?_, ?_, ?_⟩
    · rw [h.1]; simp [hl]
    · rw [h.2.1]
    · rw [h.2.2.1]; simp [hl]
    · rw [h2.1, h.2.1]; simp

/-- C9 at a concrete input: `lock yay` on the unlocked controller of the instance returns
`Success` (0) and locks, and `lock yay` again returns `NoChange` (1). -/
theorem change_returns_whether_changed_witness :
    (receiveCommand demoHeaders demoCloud (demoController []) "lock yay".data).1 = 0 ∧
    (receiveCommand demoHeaders demoCloud
      (receiveCommand demoHeaders demoCloud (demoController []) "lock yay".data).2
      "lock yay".data).1 = 1 :=
  have h := (change_returns_whether_changed demoHeaders demoCloud (demoController [])
    (by decide)).2.2.2.2.2 "lock yay".data (by decide) (by decide) (by decide)
  ⟨h.1, h.2.2.2⟩

/-- C10: after `loadState`, with or without reset, the stored controller record equals the
record in memory, and this equality is preserved by `changeLocked`, `changeStateLogging`,
`changeDataLogging`, `changeDataLoggingPeriod`, by the reset handler and by `receiveCommand`
on every command (the reset-state command among them), for every argument and prior state. -/
theorem persist_on_change (H : Headers D) (env : Cloud) (c : LoggerController D) :
    (∀ reset : Bool, Persisted (loadState c reset)) ∧
    (Persisted c →
      (∀ b : Bool, Persisted (changeLocked c b).2) ∧
      (∀ b : Bool, Persisted (changeStateLogging c b).2) ∧
      (∀ b : Bool, Persisted (changeDataLogging H c b).2) ∧
      (∀ p t : Int, Persisted (changeDataLoggingPeriod c p t).2) ∧
      Persisted (parseReset H c).2 ∧
      (∀ s : Text, Persisted (receiveCommand H env c s).2)) ∧
    (c.command.variable_ = H.CMD_RESET → c.command.extractValue.value = H.CMD_RESET_STATE →
      H.CMD_RESET_STATE ≠ H.CMD_RESET_DATA →
      (parseReset H c).2.state = { c.state with version := 0 } ∧
      (parseReset H c).2.eeprom = { c.state with version := 0 }) := by
  refine ⟨fun reset => ?_, fun h => ⟨fun b => changeLocked_persisted c b h,
    fun b => changeStateLogging_persisted c b h, fun b => changeDataLogging_persisted H c b h,
    fun p t => changeDataLoggingPeriod_persisted c p t h, parseReset_persisted H c h,
    fun s => receiveCommand_persisted H env c s h⟩, fun hv hs hne => ?_⟩
  · unfold loadState
    cases reset
    · exact restoreState_persisted c
    · exact saveState_persisted c
  · unfold parseReset
    simp [LoggerCommand.parseVariable, LoggerCommand.parseValue, hv, hs, hne, saveState]

/-- C10 at a concrete input: the controller of the instance, once loaded, keeps the stored
record equal to the record in memory through `period 5 m` and `reset state`. -/
theorem persist_on_change_witness :
    Persisted (receiveCommand demoHeaders demoCloud (demoController []) "period 5 m".data).2 ∧
    Persisted (receiveCommand demoHeaders demoCloud (demoController []) "reset state".data).2 ∧
    (receiveCommand demoHeaders demoCloud (demoController [])
      "reset state".data).2.eeprom.version = 0 :=
  have h := (persist_on_change demoHeaders demoCloud (demoController [])).2.1 (by decide)
  ⟨h.2.2.2.2.2 _, h.2.2.2.2.2 _, by decide⟩

/-! ## Claims on the logging-period command -/

/-- C3, as stated, fails: on the unlocked controller of the instance, whose validity hook
accepts, the command `period 80000000 m` (value 80000000, unit minutes) is accepted but does
not set the period to `60 * 80000000`, which no 32-bit integer holds: the product wraps.  And
on a controller that has not loaded its state, `period 10 s` asks for the period already in
memory, so nothing is saved and the stored record does not hold the period. -/
theorem period_minutes_wraps :
    ((demoController []).state.locked = false ∧
      variableOf demoHeaders "period 80000000 m".data = demoHeaders.CMD_DATA_LOG_PERIOD ∧
      atoi (valueOf demoHeaders "period 80000000 m".data) = 80000000 ∧
      unitsOf demoHeaders "period 80000000 m".data = demoHeaders.CMD_DATA_LOG_PERIOD_MIN ∧
      (receiveCommand demoHeaders demoCloud (demoController [])
        "period 80000000 m".data).1 = demoHeaders.CMD_RET_SUCCESS ∧
      (receiveCommand demoHeaders demoCloud (demoController [])
        "period 80000000 m".data).2.state.data_logging_period ≠ 60 * 80000000 ∧
      (receiveCommand demoHeaders demoCloud (demoController [])
        "period 80000000 m".data).2.state.data_logging_period = 505032704) ∧
    (demoUnloaded.state.locked = false ∧
      atoi (valueOf demoHeaders "period 10 s".data) = 10 ∧
      unitsOf demoHeaders "period 10 s".data = demoHeaders.CMD_DATA_LOG_PERIOD_SEC ∧
      (receiveCommand demoHeaders demoCloud demoUnloaded
        "period 10 s".data).2.state.data_logging_period = 10 ∧
      (receiveCommand demoHeaders demoCloud demoUnloaded
        "period 10 s".data).2.eeprom.data_logging_period ≠ 10) := by
  decide

/-- C3, amended: on an unlocked controller whose stored record equals the record in memory
(as after `loadState`) and whose validity hook accepts, for every positive `n` the period command with value `n` and the unit seconds,
minutes, hours or count sets `(data_logging_period, data_logging_type)` to `(n, ByTime)`,
`(60 * n, ByTime)`, `(3600 * n, ByTime)` or `(n, ByEvent)` respectively, provided the period
in seconds fits a 32-bit `int`, and the stored record holds it as well. -/
theorem period_command_sets_period (H : Headers D) (env : Cloud) (c : LoggerController D)
    (s : Text) (n : Int) (hH : H.WellFormed) (hl : c.state.locked = false)
    (hp : Persisted c) (hk : ∀ t p : Int, c.isDataLoggingPeriodValid t p = true)
    (hv : variableOf H s = H.CMD_DATA_LOG_PERIOD)
    (hn : atoi (valueOf H s) = n) (hpos : 0 < n) :
    (unitsOf H s = H.CMD_DATA_LOG_PERIOD_SEC →
      (receiveCommand H env c s).2.state.data_logging_period = n ∧
      (receiveCommand H env c s).2.state.data_logging_type = H.LOG_BY_TIME ∧
      (receiveCommand H env c s).2.eeprom = (receiveCommand H env c s).2.state) ∧
    (unitsOf H s = H.CMD_DATA_LOG_PERIOD_MIN → 60 * n ≤ INT_MAX →
      (receiveCommand H env c s).2.state.data_logging_period = 60 * n ∧
      (receiveCommand H env c s).2.state.data_logging_type = H.LOG_BY_TIME ∧
      (receiveCommand H env c s).2.eeprom = (receiveCommand H env c s).2.state) ∧
    (unitsOf H s = H.CMD_DATA_LOG_PERIOD_HR → 3600 * n ≤ INT_MAX →
      (receiveCommand H env c s).2.state.data_logging_period = 3600 * n ∧
      (receiveCommand H env c s).2.state.data_logging_type = H.LOG_BY_TIME ∧
      (receiveCommand H env c s).2.eeprom = (receiveCommand H env c s).2.state) ∧
    (unitsOf H s = H.CMD_DATA_LOG_PERIOD_NUMBER →
      (receiveCommand H env c s).2.state.data_logging_period = n ∧
      (receiveCommand H env c s).2.state.data_logging_type = H.LOG_BY_EVENT ∧
      (receiveCommand H env c s).2.eeprom = (receiveCommand H env c s).2.state) := by
  have hper : Persisted (receiveCommand H env c s).2 := receiveCommand_persisted H env c s hp
  have hn0 : 0 < atoi (valueOf H s) := by rw [hn]; exact hpos
  -- the handler's result once the units are known to be recognised
  have main : ∀ t p : Int,
      parseDataLoggingPeriod_units H
        (LoggerCommand.load H s).extractVariable.extractValue.extractUnits
        (atoi (valueOf H s)) =
        (t, p, (LoggerCommand.load H s).extractVariable.extractValue.extractUnits) →
      (receiveCommand H env c s).2.state.data_logging_period = p ∧
      (receiveCommand H env c s).2.state.data_logging_type = t ∧
      (receiveCommand H env c s).2.eeprom = (receiveCommand H env c s).2.state := by
    intro t p hu
    have hr : (parseDataLoggingPeriod_units H
        (LoggerCommand.load H s).extractVariable.extractValue.extractUnits
        (atoi (valueOf H s))).2.2.ret_val = H.CMD_RET_UNDEFINED := by rw [hu]; rfl
    have a := parseDataLoggingPeriod_accepted H
      { c with command := (LoggerCommand.load H s).extractVariable } hH hv hn0 hr (hk _ _)
    have r := receiveCommand_period H env c s hH hv hl a.1
    refine ⟨?_, ?_, hper⟩
    · rw [r.2.1, a.2.2.1]
      show (parseDataLoggingPeriod_units H
        (LoggerCommand.load H s).extractVariable.extractValue.extractUnits
        (atoi (valueOf H s))).2.1 = p
      rw [hu]
    · rw [r.2.1, a.2.2.2.1]
      show (parseDataLoggingPeriod_units H
        (LoggerCommand.load H s).extractVariable.extractValue.extractUnits
        (atoi (valueOf H s))).1 = t
      rw [hu]
  have hmin : INT_MIN ≤ n := by unfold INT_MIN; omega
  refine ⟨fun hu => ?_, fun hu hb => ?_, fun hu hb => ?_, fun hu => ?_⟩
  · have := main _ _ (parseDataLoggingPeriod_units_sec H _ _ hH hu)
    rw [hn] at this; exact this
  · have := main _ _ (parseDataLoggingPeriod_units_min H _ _ hH hu)
    rw [hn, toInt32_of_range _ (by unfold INT_MIN; omega) hb] at this; exact this
  · have h3600 : (60 : Int) * 60 * n = 3600 * n := by ring
    have := main _ _ (parseDataLoggingPeriod_units_hr H _ _ hH hu)
    rw [hn, h3600, toInt32_of_range _ (by unfold INT_MIN; omega) hb] at this; exact this
  · have := main _ _ (parseDataLoggingPeriod_units_number H _ _ hH hu)
    rw [hn] at this; exact this

/-- C3, amended, at concrete inputs: `period 5 m` gives period 300 by time and `period 10 #`
gives period 10 by event. -/
theorem period_command_sets_period_witness :
    ((receiveCommand demoHeaders demoCloud (demoController [])
        "period 5 m".data).2.state.data_logging_period = 60 * 5 ∧
      (receiveCommand demoHeaders demoCloud (demoController [])
        "period 5 m".data).2.state.data_logging_type = demoHeaders.LOG_BY_TIME) ∧
    ((receiveCommand demoHeaders demoCloud (demoController [])
        "period 10 #".data).2.state.data_logging_period = 10 ∧
      (receiveCommand demoHeaders demoCloud (demoController [])
        "period 10 #".data).2.state.data_logging_type = demoHeaders.LOG_BY_EVENT) :=
  have h5 := (period_command_sets_period demoHeaders demoCloud (demoController [])
    "period 5 m".data 5 (by decide) (by decide) (by decide) (fun _ _ => rfl) (by decide)
    (by decide) (by decide)).2.1 (by decide) (by decide)
  have h10 := (period_command_sets_period demoHeaders demoCloud (demoController [])
    "period 10 #".data 10 (by decide) (by decide) (by decide) (fun _ _ => rfl) (by decide)
    (by decide) (by decide)).2.2.2 (by decide)
  ⟨⟨h5.1, h5.2.1⟩, ⟨h10.1, h10.2.1⟩⟩

/-- C4: for a period command, as the handler `parseDataLoggingPeriod` receives it from
`receiveCommand`, a value that does not parse to a positive integer gives `InvalidValue`, a
positive value with an unrecognised unit gives `InvalidUnits`, and a well-formed period that
the validity hook rejects gives the error code passed to `command->error`; in all three cases
the record in memory (period and type included), the stored record and the readings are
unchanged, and on an unlocked controller `receiveCommand` returns that error code. -/
theorem period_command_errors (H : Headers D) (env : Cloud) (c : LoggerController D)
    (s : Text) (hH : H.WellFormed) (hv : variableOf H s = H.CMD_DATA_LOG_PERIOD) :
    (atoi (valueOf H s) ≤ 0 →
      ((parseDataLoggingPeriod H
          { c with command := (LoggerCommand.load H s).extractVariable }).2.command.ret_val
          = H.CMD_RET_ERR_VAL ∧
        (parseDataLoggingPeriod H
          { c with command := (LoggerCommand.load H s).extractVariable }).2.state = c.state ∧
        (parseDataLoggingPeriod H
          { c with command := (LoggerCommand.load H s).extractVariable }).2.eeprom = c.eeprom) ∧
      (c.state.locked = false →
        (receiveCommand H env c s).1 = H.CMD_RET_ERR_VAL ∧
        (receiveCommand H env c s).2.state = c.state ∧
        (receiveCommand H env c s).2.eeprom = c.eeprom ∧
        (receiveCommand H env c s).2.data = c.data)) ∧
    (0 < atoi (valueOf H s) →
      unitsOf H s ∉ [H.CMD_DATA_LOG_PERIOD_NUMBER, H.CMD_DATA_LOG_PERIOD_SEC,
        H.CMD_DATA_LOG_PERIOD_MIN, H.CMD_DATA_LOG_PERIOD_HR] →
      ((parseDataLoggingPeriod H
          { c with command := (LoggerCommand.load H s).extractVariable }).2.command.ret_val
          = H.CMD_RET_ERR_UNITS ∧
        (parseDataLoggingPeriod H
          { c with command := (LoggerCommand.load H s).extractVariable }).2.state = c.state ∧
        (parseDataLoggingPeriod H
          { c with command := (LoggerCommand.load H s).extractVariable }).2.eeprom = c.eeprom) ∧
      (c.state.locked = false →
        (receiveCommand H env c s).1 = H.CMD_RET_ERR_UNITS ∧
        (receiveCommand H env c s).2.state = c.state ∧
        (receiveCommand H env c s).2.eeprom = c.eeprom ∧
        (receiveCommand H env c s).2.data = c.data)) ∧
    (0 < atoi (valueOf H s) →
      unitsOf H s ∈ [H.CMD_DATA_LOG_PERIOD_NUMBER, H.CMD_DATA_LOG_PERIOD_SEC,
        H.CMD_DATA_LOG_PERIOD_MIN, H.CMD_DATA_LOG_PERIOD_HR] →
      c.isDataLoggingPeriodValid
        (parseDataLoggingPeriod_units H
          (LoggerCommand.load H s).extractVariable.extractValue.extractUnits
          (atoi (valueOf H s))).1
        (parseDataLoggingPeriod_units H
          (LoggerCommand.load H s).extractVariable.extractValue.extractUnits
          (atoi (valueOf H s))).2.1 = false →
      ((parseDataLoggingPeriod H
          { c with command := (LoggerCommand.load H s).extractVariable }).2.command.ret_val
          = H.CMD_RET_ERR_LOG_SMALLER_READ ∧
        (parseDataLoggingPeriod H
          { c with command := (LoggerCommand.load H s).extractVariable }).2.state = c.state ∧
        (parseDataLoggingPeriod H
          { c with command := (LoggerCommand.load H s).extractVariable }).2.eeprom = c.eeprom) ∧
      (c.state.locked = false →
        (receiveCommand H env c s).1 = H.CMD_RET_ERR_LOG_SMALLER_READ ∧
        (receiveCommand H env c s).2.state = c.state ∧
        (receiveCommand H env c s).2.eeprom = c.eeprom ∧
        (receiveCommand H env c s).2.data = c.data)) := by
  refine ⟨fun hn => ?_, fun hn hu => ?_, fun hn hu hk => ?_⟩
  · have a := parseDataLoggingPeriod_invalid_value H
      { c with command := (LoggerCommand.load H s).extractVariable } hH hv hn
    refine ⟨⟨a.2.1, a.2.2.1, a.2.2.2.1⟩, fun hl => ?_⟩
    have r := receiveCommand_period H env c s hH hv hl a.1
    exact ⟨r.1.trans a.2.1, r.2.1.trans a.2.2.1, r.2.2.1.trans a.2.2.2.1,
      r.2.2.2.trans a.2.2.2.2⟩
  · have e := parseDataLoggingPeriod_units_unknown H
      (LoggerCommand.load H s).extractVariable.extractValue.extractUnits
      (atoi (valueOf H s)) hu
    have hne : (parseDataLoggingPeriod_units H
        (LoggerCommand.load H s).extractVariable.extractValue.extractUnits
        (atoi (valueOf H s))).2.2.ret_val ≠ H.CMD_RET_UNDEFINED := by
      rw [e]; exact hH.2.2.2.2.2.1
    have a := parseDataLoggingPeriod_units_error H
      { c with command := (LoggerCommand.load H s).extractVariable } hv hn hne
    refine ⟨⟨a.2.1.trans e, a.2.2.1, a.2.2.2.1⟩, fun hl => ?_⟩
    have r := receiveCommand_period H env c s hH hv hl a.1
    exact ⟨r.1.trans (a.2.1.trans e), r.2.1.trans a.2.2.1, r.2.2.1.trans a.2.2.2.1,
      r.2.2.2.trans a.2.2.2.2⟩
  · have e := parseDataLoggingPeriod_units_known H
      (LoggerCommand.load H s).extractVariable.extractValue.extractUnits
      (atoi (valueOf H s)) hu
    have hr : (parseDataLoggingPeriod_units H
        (LoggerCommand.load H s).extractVariable.extractValue.extractUnits
        (atoi (valueOf H s))).2.2.ret_val = H.CMD_RET_UNDEFINED := by rw [e]; rfl
    have a := parseDataLoggingPeriod_rejected H
      { c with command := (LoggerCommand.load H s).extractVariable } hH hv hn hr hk
    refine ⟨⟨a.2.1, a.2.2.1, a.2.2.2.1⟩, fun hl => ?_⟩
    have r := receiveCommand_period H env c s hH hv hl a.1
    exact ⟨r.1.trans a.2.1, r.2.1.trans a.2.2.1, r.2.2.1.trans a.2.2.2.1,
      r.2.2.2.trans a.2.2.2.2⟩

/-- C4 at concrete inputs: `period 0 s`, `period -3 s` and `period abc s` return
`InvalidValue` (-4) and `period 5 weeks` returns `InvalidUnits` (-5), leaving the record as
it was. -/
theorem period_command_errors_witness :
    (receiveCommand demoHeaders demoCloud (demoController []) "period -3 s".data).1 = -4 ∧
    (receiveCommand demoHeaders demoCloud (demoController []) "period abc s".data).1 = -4 ∧
    ((receiveCommand demoHeaders demoCloud (demoController []) "period 0 s".data).1 = -4 ∧
      (receiveCommand demoHeaders demoCloud (demoController []) "period 0 s".data).2.state
        = (demoController []).state) ∧
    ((receiveCommand demoHeaders demoCloud (demoController []) "period 5 weeks".data).1 = -5 ∧
      (receiveCommand demoHeaders demoCloud (demoController []) "period 5 weeks".data).2.state
        = (demoController []).state) :=
  have h0 := ((period_command_errors demoHeaders demoCloud (demoController [])
    "period 0 s".data (by decide) (by decide)).1 (by decide)).2 (by decide)
  have h3 := ((period_command_errors demoHeaders demoCloud (demoController [])
    "period -3 s".data (by decide) (by decide)).1 (by decide)).2 (by decide)
  have ha := ((period_command_errors demoHeaders demoCloud (demoController [])
    "period abc s".data (by decide) (by decide)).1 (by decide)).2 (by decide)
  have h5 := ((period_command_errors demoHeaders demoCloud (demoController [])
    "period 5 weeks".data (by decide) (by decide)).2.1 (by decide) (by decide)).2 (by decide)
  ⟨h3.1, ha.1, ⟨h0.1, h0.2.1⟩, ⟨h5.1, h5.2.1⟩⟩

/-! ## Component registration -/

theorem addComponent_components (H : Headers D) (c : LoggerController D)
    (comp : LoggerComponent) :
    (addComponent H c comp).components = c.components ∨
    (addComponent H c comp).components
      = c.components ++ [{ comp with eeprom_start := c.eeprom_location }] := by
  unfold addComponent
  dsimp only
  split_ifs
  · exact Or.inl rfl
  · exact Or.inr rfl

theorem addComponent_eeprom_location (H : Headers D) (c : LoggerController D)
    (comp : LoggerComponent) :
    (addComponent H c comp).eeprom_location
      = (c.eeprom_location + comp.getStateSize) % SIZE_MOD := by
  unfold addComponent
  dsimp only
  split_ifs <;> rfl

theorem addComponent_rejects (H : Headers D) (c : LoggerController D)
    (comp : LoggerComponent)
    (h : (c.eeprom_location + comp.getStateSize) % SIZE_MOD ≥ H.EEPROM_MAX) :
    (addComponent H c comp).components = c.components := by
  unfold addComponent
  dsimp only
  rw [if_pos h]

theorem addComponent_accepts (H : Headers D) (c : LoggerController D)
    (comp : LoggerComponent)
    (h : (c.eeprom_location + comp.getStateSize) % SIZE_MOD < H.EEPROM_MAX) :
    (addComponent H c comp).components
      = c.components ++ [{ comp with eeprom_start := c.eeprom_location }] := by
  unfold addComponent
  dsimp only
  rw [if_neg (not_le.mpr h)]

theorem addComponents_nil (H : Headers D) (c : LoggerController D) :
    addComponents H c [] = c := rfl

theorem addComponents_cons (H : Headers D) (c : LoggerController D) (comp : LoggerComponent)
    (cs : List LoggerComponent) :
    addComponents H c (comp :: cs) = addComponents H (addComponent H c comp) cs := rfl

theorem addComponents_append (H : Headers D) (c : LoggerController D)
    (xs ys : List LoggerComponent) :
    addComponents H c (xs ++ ys) = addComponents H (addComponents H c xs) ys := by
  unfold addComponents; rw [List.foldl_append]

theorem addComponents_keeps_registered (H : Headers D) (cs : List LoggerComponent) :
    ∀ c : LoggerController D,
      ∃ added, (addComponents H c cs).components = c.components ++ added := by
  induction cs with
  | nil => intro c; exact ⟨[], by simp [addComponents_nil]⟩
  | cons x xs ih =>
    intro c
    obtain ⟨t, ht⟩ := ih (addComponent H c x)
    rw [addComponents_cons, ht]
    rcases addComponent_components H c x with h | h
    · exact ⟨t, by rw [h]⟩
    · exact ⟨{ x with eeprom_start := c.eeprom_location } :: t, by rw [h]; simp⟩

theorem totalStateSize_cons (x : LoggerComponent) (xs : List LoggerComponent) :
    totalStateSize (x :: xs) = x.getStateSize + totalStateSize xs := by
  simp [totalStateSize]

theorem totalStateSize_append (xs ys : List LoggerComponent) :
    totalStateSize (xs ++ ys) = totalStateSize xs + totalStateSize ys := by
  simp [totalStateSize]

theorem addComponents_eeprom_location (H : Headers D) (cs : List LoggerComponent) :
    ∀ c : LoggerController D, c.eeprom_location + totalStateSize cs < SIZE_MOD →
      (addComponents H c cs).eeprom_location = c.eeprom_location + totalStateSize cs := by
  induction cs with
  | nil => intro c _; simp [addComponents_nil, totalStateSize]
  | cons x xs ih =>
    intro c h
    rw [totalStateSize_cons] at h
    have hx : (addComponent H c x).eeprom_location = c.eeprom_location + x.getStateSize := by
      rw [addComponent_eeprom_location]; exact Nat.mod_eq_of_lt (by omega)
    rw [addComponents_cons, ih _ (by rw [hx]; omega), hx, totalStateSize_cons]
    omega

/-- C7: in every sequence of `addComponent` calls (absent `size_t` wrap-around of the
allocation cursor), a component whose record would make the cumulative allocated size exceed
`EEPROM_MAX` is not added to the components list, and every component registered before it
stays registered, with the offset it was given, whatever is added afterwards. -/
theorem registration_refusal (H : Headers D) (c : LoggerController D)
    (before after : List LoggerComponent) (comp : LoggerComponent)
    (hfit : c.eeprom_location + totalStateSize before + comp.getStateSize < SIZE_MOD)
    (hover : c.eeprom_location + totalStateSize before + comp.getStateSize > H.EEPROM_MAX) :
    (addComponents H c (before ++ [comp])).components = (addComponents H c before).components ∧
    ∃ added, (addComponents H c (before ++ comp :: after)).components
      = (addComponents H c before).components ++ added := by
  have hloc := addComponents_eeprom_location H before c (by omega)
  constructor
  · rw [addComponents_append, addComponents_cons, addComponents_nil]
    apply addComponent_rejects
    rw [hloc, Nat.mod_eq_of_lt hfit]
    omega
  · rw [addComponents_append]
    exact addComponents_keeps_registered H _ _

/-- C7 at a concrete input: with 12 bytes of controller record and 64 bytes of EEPROM, after
a component of 20 bytes a component of 40 bytes is refused and the first stays at offset 12. -/
theorem registration_refusal_witness :
    ((addComponents demoHeaders (demoController [])
        ([demoComponent 20] ++ [demoComponent 40])).components.map
          (fun comp => (comp.eeprom_start, comp.getStateSize))) = [(12, 20)] :=
  have h := (registration_refusal demoHeaders (demoController []) [demoComponent 20]
    [] (demoComponent 40) (by decide) (by decide)).1
  by rw [h]; decide

theorem contiguous_append (rs : List (Nat × Nat)) :
    ∀ (start : Nat) (r : Nat × Nat), Contiguous start rs → r.1 = layoutEnd start rs →
      r.1 ≤ r.2 → Contiguous start (rs ++ [r]) := by
  induction rs with
  | nil => intro start r _ h1 h2; exact ⟨h1, h2, trivial⟩
  | cons x xs ih =>
    intro start r h h1 h2
    exact ⟨h.1, h.2.1, ih x.2 r h.2.2 h1 h2⟩

theorem layoutEnd_append (rs : List (Nat × Nat)) :
    ∀ (start : Nat) (r : Nat × Nat), layoutEnd start (rs ++ [r]) = r.2 := by
  induction rs with
  | nil => intro start r; rfl
  | cons x xs ih => intro start r; exact ih x.2 r

theorem contiguous_bounds (rs : List (Nat × Nat)) :
    ∀ start : Nat, Contiguous start rs →
      start ≤ layoutEnd start rs ∧
      rs.Pairwise (fun a b => a.2 ≤ b.1) ∧
      ∀ r ∈ rs, start ≤ r.1 ∧ r.1 ≤ r.2 ∧ r.2 ≤ layoutEnd start rs := by
  induction rs with
  | nil => intro start _; exact ⟨le_refl _, List.Pairwise.nil, fun r hr => by cases hr⟩
  | cons x xs ih =>
    intro start h
    obtain ⟨h1, h2, h3⟩ := h
    obtain ⟨i1, i2, i3⟩ := ih x.2 h3
    refine ⟨?_, List.Pairwise.cons (fun b hb => (i3 b hb).1) i2, fun r hr => ?_⟩
    · show start ≤ layoutEnd x.2 xs
      omega
    · show start ≤ r.1 ∧ r.1 ≤ r.2 ∧ r.2 ≤ layoutEnd x.2 xs
      rcases List.mem_cons.mp hr with e | e
      · subst e; exact ⟨by omega, h2, i1⟩
      · have := i3 r e
        exact ⟨by omega, this.2.1, this.2.2⟩

theorem ranges_append (xs : List LoggerComponent) (x : LoggerComponent) :
    ranges (xs ++ [x]) = ranges xs ++ [(x.eeprom_start, x.eeprom_start + x.getStateSize)] := by
  simp [ranges]

/-- The layout invariant of the allocation: the registered ranges are contiguous from
`start`; the cursor is at their end unless a component has been refused, in which case the
cursor has reached `EEPROM_MAX`; and the end of a non-empty layout is below `EEPROM_MAX`. -/
theorem addComponents_layout (H : Headers D) (start : Nat) (cs : List LoggerComponent) :
    ∀ c : LoggerController D, c.eeprom_location + totalStateSize cs < SIZE_MOD →
      Contiguous start (ranges c.components) →
      (layoutEnd start (ranges c.components) = c.eeprom_location ∨
        H.EEPROM_MAX ≤ c.eeprom_location) →
      (c.components = [] ∨ layoutEnd start (ranges c.components) < H.EEPROM_MAX) →
      Contiguous start (ranges (addComponents H c cs).components) ∧
      ((addComponents H c cs).components = [] ∨
        layoutEnd start (ranges (addComponents H c cs).components) < H.EEPROM_MAX) := by
  induction cs with
  | nil => intro c _ h1 _ h3; exact ⟨h1, h3⟩
  | cons x xs ih =>
    intro c hfit h1 h2 h3
    rw [totalStateSize_cons] at hfit
    have hloc : (addComponent H c x).eeprom_location = c.eeprom_location + x.getStateSize := by
      rw [addComponent_eeprom_location]; exact Nat.mod_eq_of_lt (by omega)
    rw [addComponents_cons]
    apply ih (addComponent H c x) (by rw [hloc]; omega)
    · by_cases hr : (c.eeprom_location + x.getStateSize) % SIZE_MOD ≥ H.EEPROM_MAX
      · rw [addComponent_rejects H c x hr]; exact h1
      · rw [addComponent_accepts H c x (not_le.mp hr), ranges_append]
        rw [Nat.mod_eq_of_lt (by omega)] at hr
        apply contiguous_append _ _ _ h1
        · show c.eeprom_location = layoutEnd start (ranges c.components)
          rcases h2 with e | e
          · exact e.symm
          · omega
        · show c.eeprom_location ≤ c.eeprom_location + x.getStateSize
          omega
    · by_cases hr : (c.eeprom_location + x.getStateSize) % SIZE_MOD ≥ H.EEPROM_MAX
      · rw [addComponent_rejects H c x hr, hloc]
        rw [Nat.mod_eq_of_lt (by omega)] at hr
        exact Or.inr hr
      · rw [addComponent_accepts H c x (not_le.mp hr), ranges_append, layoutEnd_append, hloc]
        exact Or.inl rfl
    · by_cases hr : (c.eeprom_location + x.getStateSize) % SIZE_MOD ≥ H.EEPROM_MAX
      · rw [addComponent_rejects H c x hr]; exact h3
      · rw [addComponent_accepts H c x (not_le.mp hr), ranges_append, layoutEnd_append]
        rw [Nat.mod_eq_of_lt (by omega)] at hr
        right
        show c.eeprom_location + x.getStateSize < H.EEPROM_MAX
        omega

/-- C8: after every sequence of `addComponent` calls on a fresh controller (absent `size_t`
wrap-around of the allocation cursor), the storage ranges of the registered components are
contiguous in registration order starting at the size of the controller record, so the first
offset equals that size; they are pairwise disjoint, each lying before the ones registered
later; none overlaps the controller's own record; and every range ends at or below
`EEPROM_MAX`. -/
theorem storage_layout_invariant (H : Headers D) (version : Text)
    (state stored : LoggerControllerState) (hook : Int → Int → Bool)
    (cs : List LoggerComponent)
    (hfit : H.sizeof_state + totalStateSize cs < SIZE_MOD) :
    Contiguous H.sizeof_state
      (ranges (addComponents H (new H version state stored hook) cs).components) ∧
    (ranges (addComponents H (new H version state stored hook) cs).components).Pairwise
      (fun a b => a.2 ≤ b.1) ∧
    ∀ r ∈ ranges (addComponents H (new H version state stored hook) cs).components,
      H.sizeof_state ≤ r.1 ∧ r.1 ≤ r.2 ∧ r.2 ≤ H.EEPROM_MAX := by
  have hs : (new H version state stored hook : LoggerController D).eeprom_location
      = H.sizeof_state := by
    show (0 + H.sizeof_state) % SIZE_MOD = H.sizeof_state
    rw [Nat.zero_add]; exact Nat.mod_eq_of_lt (by omega)
  have inv := addComponents_layout H H.sizeof_state cs (new H version state stored hook)
    (by rw [hs]; exact hfit) trivial (Or.inl hs.symm) (Or.inl rfl)
  obtain ⟨b1, b2, b3⟩ := contiguous_bounds _ _ inv.1
  refine ⟨inv.1, b2, fun r hr => ?_⟩
  have hb := b3 r hr
  refine ⟨hb.1, hb.2.1, ?_⟩
  rcases inv.2 with e | e
  · rw [e] at hr; cases hr
  · omega

/-- C8 at a concrete input: components of 20, 8 and 40 bytes on the fresh controller of the
instance; the first two are given the ranges `[12, 32)` and `[32, 40)`, one after the other
behind the record of the controller, and the third is refused. -/
theorem storage_layout_invariant_witness :
    ranges (addComponents demoHeaders
      (new demoHeaders "demo".data demoState demoState isDataLoggingPeriodValid_base)
      [demoComponent 20, demoComponent 8, demoComponent 40]).components
      = [(12, 32), (32, 40)] ∧
    Contiguous demoHeaders.sizeof_state (ranges (addComponents demoHeaders
      (new demoHeaders "demo".data demoState demoState isDataLoggingPeriodValid_base)
      [demoComponent 20, demoComponent 8, demoComponent 40]).components) ∧
    (ranges (addComponents demoHeaders
      (new demoHeaders "demo".data demoState demoState isDataLoggingPeriodValid_base)
      [demoComponent 20, demoComponent 8, demoComponent 40]).components).Pairwise
      (fun a b => a.2 ≤ b.1) ∧
    ∀ r ∈ ranges (addComponents demoHeaders
      (new demoHeaders "demo".data demoState demoState isDataLoggingPeriodValid_base)
      [demoComponent 20, demoComponent 8, demoComponent 40]).components,
      demoHeaders.sizeof_state ≤ r.1 ∧ r.1 ≤ r.2 ∧ r.2 ≤ demoHeaders.EEPROM_MAX :=
  ⟨by decide, storage_layout_invariant demoHeaders "demo".data demoState demoState
    isDataLoggingPeriodValid_base [demoComponent 20, demoComponent 8, demoComponent 40]
    (by decide)⟩

/-! ## Data-log chunking -/

theorem belowCutoff_iff (len x : Nat) (hx : x < SIZE_MOD) :
    belowCutoff len (toInt32 ((x : Int) % (SIZE_MOD : Int))) = true ↔ len < x := by
  unfold belowCutoff toInt32 SIZE_MOD at *
  simp only [decide_eq_true_eq]
  push_cast
  split_ifs <;> omega

theorem reporting_cons (H : Headers D) (g : Bool) (i : Nat) (d : D) (ds : List D) :
    reporting H g i (d :: ds) =
      if (H.assembleLog (!g) d).1 then
        (i, (H.json (H.assembleLog (!g) d).2).length) :: reporting H g (i + 1) ds
      else reporting H g (i + 1) ds := rfl

theorem assembleDataLog_first_cons (H : Headers D) (g : Bool) (i : Nat) (d : D) (ds : List D) :
    assembleDataLog_first H g i (d :: ds) =
      if (H.assembleLog (!g) d).1 then ([], some (i, (H.assembleLog (!g) d).2, ds))
      else ((H.assembleLog (!g) d).2 :: (assembleDataLog_first H g (i + 1) ds).1,
        (assembleDataLog_first H g (i + 1) ds).2) := rfl

theorem reporting_ge (H : Headers D) (g : Bool) (ds : List D) :
    ∀ i : Nat, ∀ e ∈ reporting H g i ds, i ≤ e.1 := by
  induction ds with
  | nil => intro i e he; cases he
  | cons d ds ih =>
    intro i e he
    rw [reporting_cons] at he
    split_ifs at he
    · rcases List.mem_cons.mp he with h | h
      · subst h; exact le_refl _
      · exact Nat.le_of_succ_le (ih _ e h)
    · exact Nat.le_of_succ_le (ih _ e he)

theorem reporting_sorted (H : Headers D) (g : Bool) (ds : List D) :
    ∀ i : Nat, (reporting H g i ds).Pairwise (fun a b => a.1 < b.1) := by
  induction ds with
  | nil => intro i; exact List.Pairwise.nil
  | cons d ds ih =>
    intro i
    rw [reporting_cons]
    split_ifs
    · exact List.Pairwise.cons (fun b hb => reporting_ge H g ds (i + 1) b hb) (ih _)
    · exact ih _

theorem reporting_drop (H : Headers D) (g : Bool) (ds : List D) :
    ∀ k n : Nat, reporting H g (k + n) (ds.drop n)
      = (reporting H g k ds).filter (fun e => decide (k + n ≤ e.1)) := by
  induction ds with
  | nil => intro k n; simp [reporting]
  | cons d ds ih =>
    intro k n
    cases n with
    | zero =>
      rw [List.drop_zero, Nat.add_zero]
      symm
      rw [List.filter_eq_self]
      intro e he
      simpa using reporting_ge H g _ k e he
    | succ n =>
      rw [List.drop_succ_cons]
      have e1 : k + (n + 1) = (k + 1) + n := by omega
      rw [e1, ih (k + 1) n]
      rw [reporting_cons]
      split_ifs
      · rw [List.filter_cons_of_neg (by simp; omega)]
      · rfl

theorem reporting_assembledFrom (H : Headers D) (g : Bool) (hR : Reassembles H (!g))
    (xs ys : List D) (h : AssembledFrom H (!g) xs ys) :
    ∀ i : Nat, reporting H g i ys = reporting H g i xs := by
  induction h with
  | nil => intro i; rfl
  | cons hxy _ ih =>
    intro i
    rw [reporting_cons, reporting_cons]
    rcases hxy with e | e
    · rw [e, ih]
    · rw [e, (hR _).1, (hR _).2, ih]

theorem assembledFrom_refl (H : Headers D) (flag : Bool) (xs : List D) :
    AssembledFrom H flag xs xs := by
  induction xs with
  | nil => exact List.Forall₂.nil
  | cons x xs ih => exact List.Forall₂.cons (Or.inl rfl) ih

theorem assembledFrom_append (H : Headers D) (flag : Bool) {xs ys xs2 ys2 : List D}
    (h1 : AssembledFrom H flag xs ys) (h2 : AssembledFrom H flag xs2 ys2) :
    AssembledFrom H flag (xs ++ xs2) (ys ++ ys2) := by
  induction h1 with
  | nil => exact h2
  | cons hxy _ ih => exact List.Forall₂.cons hxy ih

/-- What the first loop finds: nothing when no entry of the range reports, and otherwise the
first reporting entry, after which the reporting entries are those of the rest. -/
theorem assembleDataLog_first_spec (H : Headers D) (g : Bool) (ds : List D) :
    ∀ i : Nat,
      match (assembleDataLog_first H g i ds).2 with
      | none => reporting H g i ds = [] ∧
          AssembledFrom H (!g) ds (assembleDataLog_first H g i ds).1
      | some (j, d, rest) =>
          reporting H g i ds = (j, (H.json d).length) :: reporting H g (j + 1) rest ∧
          ∃ pre d0, ds = pre ++ d0 :: rest ∧ d = (H.assembleLog (!g) d0).2 ∧
            AssembledFrom H (!g) pre (assembleDataLog_first H g i ds).1 := by
  induction ds with
  | nil => intro i; exact ⟨rfl, List.Forall₂.nil⟩
  | cons d ds ih =>
    intro i
    rw [assembleDataLog_first_cons, reporting_cons]
    by_cases h : (H.assembleLog (!g) d).1 = true
    · rw [if_pos h, if_pos h]
      exact ⟨rfl, [], d, rfl, rfl, List.Forall₂.nil⟩
    · rw [if_neg h, if_neg h]
      have := ih (i + 1)
      revert this
      cases (assembleDataLog_first H g (i + 1) ds).2 with
      | none =>
        intro this
        exact ⟨this.1, List.Forall₂.cons (Or.inr rfl) this.2⟩
      | some v =>
        intro this
        obtain ⟨t1, pre, d0, e1, e2, e3⟩ := this
        exact ⟨t1, d :: pre, d0, by rw [e1]; rfl, e2, List.Forall₂.cons (Or.inr rfl) e3⟩



theorem assembleDataLog_fit_cons (H : Headers D) (g : Bool) (cutoff : Int) (i : Nat) (d : D)
    (ds : List D) (k : Chunk) :
    assembleDataLog_fit H g cutoff i (d :: ds) k =
      if (H.assembleLog (!g) d).1 then
        if belowCutoff (k.total_string_length + (H.json (H.assembleLog (!g) d).2).length) cutoff
        then
          ((H.assembleLog (!g) d).2 :: (assembleDataLog_fit H g cutoff (i + 1) ds
              { total_string_length :=
                  k.total_string_length + (H.json (H.assembleLog (!g) d).2).length,
                last_data_log_index := i,
                data_log_buffer := addToDataLog H k.data_log_buffer
                  (H.json (H.assembleLog (!g) d).2),
                included := k.included ++ [i] }).1,
            (assembleDataLog_fit H g cutoff (i + 1) ds
              { total_string_length :=
                  k.total_string_length + (H.json (H.assembleLog (!g) d).2).length,
                last_data_log_index := i,
                data_log_buffer := addToDataLog H k.data_log_buffer
                  (H.json (H.assembleLog (!g) d).2),
                included := k.included ++ [i] }).2)
        else ((H.assembleLog (!g) d).2 :: ds, k)
      else
        ((H.assembleLog (!g) d).2 :: (assembleDataLog_fit H g cutoff (i + 1) ds k).1,
          (assembleDataLog_fit H g cutoff (i + 1) ds k).2) := rfl

theorem greedyTake_cons (budget total : Nat) (e : Nat × Nat) (rest : List (Nat × Nat)) :
    greedyTake budget total (e :: rest) =
      if total + e.2 < budget then e.1 :: greedyTake budget (total + e.2) rest else [] := rfl

theorem lastIncluded_nil (w : Int) : lastIncluded [] w = w := rfl

theorem lastIncluded_cons (i : Nat) (t : List Nat) (w : Int) :
    lastIncluded (i :: t) w = lastIncluded t (i : Int) := by
  cases t with
  | nil => rfl
  | cons a t =>
    have hne : (a :: t).getLast? ≠ none := by simp
    unfold lastIncluded
    rw [List.getLast?_cons_cons]
    cases h : (a :: t).getLast? with
    | none => exact absurd h hne
    | some v => rfl

theorem lastIncluded_ge (t : List Nat) :
    ∀ w : Int, (∀ x ∈ t, w ≤ (x : Int)) → w ≤ lastIncluded t w := by
  induction t with
  | nil => intro w _; exact le_refl _
  | cons a t ih =>
    intro w h
    rw [lastIncluded_cons]
    cases t with
    | nil => exact h a (List.mem_cons_self _ _)
    | cons b t =>
      rw [lastIncluded_cons]
      have := h b (List.mem_cons_of_mem _ (List.mem_cons_self _ _))
      have h2 : lastIncluded (b :: t) w = lastIncluded t (b : Int) := lastIncluded_cons b t w
      have := ih w (fun x hx => h x (List.mem_cons_of_mem _ hx))
      rw [h2] at this
      exact this

/-- The second loop adds the entries that `greedyTake` selects among the reporting entries of
its range, leaving the watermark at the last of them. -/
theorem assembleDataLog_fit_spec (H : Headers D) (g : Bool) (cutoff : Int) (budget : Nat)
    (hc : ∀ len : Nat, belowCutoff len cutoff = true ↔ len < budget) (ds : List D) :
    ∀ (i : Nat) (k : Chunk),
      (assembleDataLog_fit H g cutoff i ds k).2.included
        = k.included ++ greedyTake budget k.total_string_length (reporting H g i ds) ∧
      (assembleDataLog_fit H g cutoff i ds k).2.last_data_log_index
        = lastIncluded (greedyTake budget k.total_string_length (reporting H g i ds))
            k.last_data_log_index ∧
      AssembledFrom H (!g) ds (assembleDataLog_fit H g cutoff i ds k).1 := by
  induction ds with
  | nil => intro i k; exact ⟨by simp [assembleDataLog_fit, reporting, greedyTake], rfl,
      List.Forall₂.nil⟩
  | cons d ds ih =>
    intro i k
    rw [assembleDataLog_fit_cons, reporting_cons]
    by_cases h : (H.assembleLog (!g) d).1 = true
    · rw [if_pos h, if_pos h, greedyTake_cons]
      by_cases hb : belowCutoff
          (k.total_string_length + (H.json (H.assembleLog (!g) d).2).length) cutoff = true
      · rw [if_pos hb, if_pos ((hc _).mp hb)]
        obtain ⟨i1, i2, i3⟩ := ih (i + 1)
          { total_string_length :=
              k.total_string_length + (H.json (H.assembleLog (!g) d).2).length,
            last_data_log_index := i,
            data_log_buffer := addToDataLog H k.data_log_buffer
              (H.json (H.assembleLog (!g) d).2),
            included := k.included ++ [i] }
        refine ⟨?_, ?_, List.Forall₂.cons (Or.inr rfl) i3⟩
        · rw [i1]; simp
        · rw [i2, lastIncluded_cons]
      · rw [if_neg hb, if_neg (fun hlt => hb ((hc _).mpr hlt))]
        exact ⟨by simp, rfl, List.Forall₂.cons (Or.inr rfl) (assembledFrom_refl H _ ds)⟩
    · rw [if_neg h, if_neg h]
      obtain ⟨i1, i2, i3⟩ := ih (i + 1) k
      exact ⟨i1, i2, List.Forall₂.cons (Or.inr rfl) i3⟩

theorem greedyTake_eq_take (budget : Nat) (es : List (Nat × Nat)) :
    ∀ total : Nat, greedyTake budget total es
      = (es.take (greedyTake budget total es).length).map Prod.fst := by
  induction es with
  | nil => intro total; rfl
  | cons e es ih =>
    intro total
    rw [greedyTake_cons]
    split_ifs
    · rw [List.length_cons, List.take_succ_cons, List.map_cons, ← ih]
    · rfl

theorem greedyChunk_eq_take (budget : Nat) (es : List (Nat × Nat)) :
    greedyChunk budget es = (es.take (greedyChunk budget es).length).map Prod.fst := by
  cases es with
  | nil => rfl
  | cons e es =>
    show e.1 :: greedyTake budget e.2 es = _
    rw [show (greedyChunk budget (e :: es)).length = (greedyTake budget e.2 es).length + 1
      from rfl, List.take_succ_cons, List.map_cons, ← greedyTake_eq_take]

theorem filter_after_last (es : List (Nat × Nat)) :
    ∀ (m : Nat) (w : Int), es.Pairwise (fun a b => a.1 < b.1) → (∀ e ∈ es, w < (e.1 : Int)) →
      es.filter (fun e => decide (lastIncluded ((es.take m).map Prod.fst) w < (e.1 : Int)))
        = es.drop m := by
  induction es with
  | nil => intro m w _ _; simp
  | cons e es ih =>
    intro m w hs hw
    cases m with
    | zero =>
      rw [List.take_zero, List.map_nil, lastIncluded_nil, List.drop_zero, List.filter_eq_self]
      intro a ha
      simpa using hw a ha
    | succ m =>
      rw [List.take_succ_cons, List.map_cons, lastIncluded_cons, List.drop_succ_cons]
      obtain ⟨h1, h2⟩ := List.pairwise_cons.mp hs
      have hge : (e.1 : Int) ≤ lastIncluded ((es.take m).map Prod.fst) (e.1 : Int) := by
        apply lastIncluded_ge
        intro x hx
        obtain ⟨a, ha, rfl⟩ := List.mem_map.mp hx
        have := h1 a (List.mem_of_mem_take ha)
        omega
      rw [List.filter_cons_of_neg (by simpa using hge)]
      exact ih m (e.1 : Int) h2 (fun a ha => by have := h1 a ha; omega)



theorem pending_eq_reporting (H : Headers D) (g : Bool) (c : LoggerController D) (n : Nat)
    (hn : c.last_data_log_index + 1 = (n : Int)) :
    pending H g c = reporting H g n (c.data.drop n) := by
  have h := reporting_drop H g c.data 0 n
  rw [Nat.zero_add] at h
  rw [h]
  unfold pending
  apply List.filter_congr
  intro e _
  simp only [decide_eq_decide]
  omega

theorem assembledFrom_take_drop (H : Headers D) (flag : Bool) (xs ys : List D) (n : Nat)
    (h : AssembledFrom H flag (xs.drop n) ys) : AssembledFrom H flag xs (xs.take n ++ ys) := by
  have := assembledFrom_append H flag (assembledFrom_refl H flag (xs.take n)) h
  rwa [List.take_append_drop] at this

/-- One call of `assembleDataLog` includes the greedy chunk of the pending reporting entries
and leaves the watermark at the last included entry. -/
theorem assembleDataLog_spec (H : Headers D) (env : Cloud) (c : LoggerController D) (g : Bool)
    (hM : 50 ≤ H.DATA_LOG_MAX_CHAR) (hM2 : H.DATA_LOG_MAX_CHAR < SIZE_MOD)
    (hw : -1 ≤ c.last_data_log_index) :
    (assembleDataLog H env c g).included
      = greedyChunk (H.DATA_LOG_MAX_CHAR - 50) (pending H g c) ∧
    (assembleDataLog H env c g).ctrl.last_data_log_index
      = lastIncluded (assembleDataLog H env c g).included c.last_data_log_index ∧
    AssembledFrom H (!g) c.data (assembleDataLog H env c g).ctrl.data := by
  obtain ⟨n, hn⟩ : ∃ n : Nat, c.last_data_log_index + 1 = (n : Int) :=
    ⟨(c.last_data_log_index + 1).toNat, by omega⟩
  have hc : ∀ len : Nat,
      belowCutoff len (toInt32 (((H.DATA_LOG_MAX_CHAR : Int) - 50) % (SIZE_MOD : Int))) = true
        ↔ len < H.DATA_LOG_MAX_CHAR - 50 := by
    intro len
    have := belowCutoff_iff len (H.DATA_LOG_MAX_CHAR - 50) (by omega)
    rwa [Nat.cast_sub hM] at this
  rw [pending_eq_reporting H g c n hn]
  unfold assembleDataLog
  simp only [hn, Int.toNat_natCast]
  by_cases h1 : (n : Int) = (c.data.length : Int)
  · rw [if_pos h1]
    have : c.data.drop n = [] := List.drop_eq_nil_of_le (by omega)
    rw [this]
    exact ⟨rfl, rfl, assembledFrom_refl H _ _⟩
  · rw [if_neg h1, if_neg (by omega)]
    have hs := assembleDataLog_first_spec H g (c.data.drop n) n
    split
    · rename_i heq
      rw [heq] at hs
      refine ⟨?_, rfl, assembledFrom_take_drop H _ _ _ _ hs.2⟩
      rw [hs.1]; rfl
    · rename_i j d rest heq
      rw [heq] at hs
      obtain ⟨f1, f2, f3⟩ := assembleDataLog_fit_spec H g
        (toInt32 (((H.DATA_LOG_MAX_CHAR : Int) - 50) % (SIZE_MOD : Int)))
        (H.DATA_LOG_MAX_CHAR - 50) hc rest (j + 1)
        { total_string_length := (H.json d).length, last_data_log_index := j,
          data_log_buffer := addToDataLog H [] (H.json d), included := [j] }
      have hdata : AssembledFrom H (!g) c.data
          (List.take n c.data ++ (assembleDataLog_first H g n (List.drop n c.data)).1 ++
            d :: (assembleDataLog_fit H g
              (toInt32 (((H.DATA_LOG_MAX_CHAR : Int) - 50) % (SIZE_MOD : Int))) (j + 1) rest
              { total_string_length := (H.json d).length, last_data_log_index := j,
                data_log_buffer := addToDataLog H [] (H.json d), included := [j] }).1) := by
        rw [List.append_assoc]
        apply assembledFrom_take_drop
        obtain ⟨pre, d0, e1, e2, e3⟩ := hs.2
        have h3 := assembledFrom_append H _ e3 (List.Forall₂.cons (Or.inr e2) f3)
        rw [← e1] at h3
        exact h3
      rw [hs.1]
      have hinc : (assembleDataLog_fit H g
          (toInt32 (((H.DATA_LOG_MAX_CHAR : Int) - 50) % (SIZE_MOD : Int))) (j + 1) rest
          { total_string_length := (H.json d).length, last_data_log_index := j,
            data_log_buffer := addToDataLog H [] (H.json d), included := [j] }).2.included
          = greedyChunk (H.DATA_LOG_MAX_CHAR - 50)
              ((j, (H.json d).length) :: reporting H g (j + 1) rest) := by
        rw [f1]; rfl
      have hlast : (assembleDataLog_fit H g
          (toInt32 (((H.DATA_LOG_MAX_CHAR : Int) - 50) % (SIZE_MOD : Int))) (j + 1) rest
          { total_string_length := (H.json d).length, last_data_log_index := j,
            data_log_buffer := addToDataLog H [] (H.json d), included := [j] }).2.last_data_log_index
          = lastIncluded (greedyChunk (H.DATA_LOG_MAX_CHAR - 50)
              ((j, (H.json d).length) :: reporting H g (j + 1) rest)) c.last_data_log_index := by
        rw [f2]
        show _ = lastIncluded (j :: greedyTake _ _ _) _
        rw [lastIncluded_cons]
      split_ifs <;> exact ⟨hinc, by rw [hinc]; exact hlast, hdata⟩



theorem filter_filter_of_imp {α : Type} (p q : α → Bool) (h : ∀ a, p a = true → q a = true)
    (l : List α) : (l.filter q).filter p = l.filter p := by
  induction l with
  | nil => rfl
  | cons a l ih =>
    by_cases hq : q a = true
    · rw [List.filter_cons_of_pos hq]
      by_cases hp : p a = true
      · rw [List.filter_cons_of_pos hp, List.filter_cons_of_pos hp, ih]
      · rw [List.filter_cons_of_neg hp, List.filter_cons_of_neg hp, ih]
    · have hp : ¬ p a = true := fun hp => hq (h a hp)
      rw [List.filter_cons_of_neg hq, List.filter_cons_of_neg hp, ih]

theorem pending_gt (H : Headers D) (g : Bool) (c : LoggerController D) :
    ∀ e ∈ pending H g c, c.last_data_log_index < (e.1 : Int) := by
  intro e he
  unfold pending at he
  simpa using (List.mem_filter.mp he).2

theorem pending_sorted (H : Headers D) (g : Bool) (c : LoggerController D) :
    (pending H g c).Pairwise (fun a b => a.1 < b.1) :=
  List.Pairwise.filter _ (reporting_sorted H g c.data 0)

/-- After a call, the pending reporting entries are those that were pending before, without
the ones the call included. -/
theorem pending_after (H : Headers D) (env : Cloud) (c : LoggerController D) (g : Bool)
    (hM : 50 ≤ H.DATA_LOG_MAX_CHAR) (hM2 : H.DATA_LOG_MAX_CHAR < SIZE_MOD)
    (hw : -1 ≤ c.last_data_log_index) (hR : Reassembles H (!g)) :
    c.last_data_log_index ≤ (assembleDataLog H env c g).ctrl.last_data_log_index ∧
    pending H g (assembleDataLog H env c g).ctrl
      = (pending H g c).drop (assembleDataLog H env c g).included.length := by
  obtain ⟨s1, s2, s3⟩ := assembleDataLog_spec H env c g hM hM2 hw
  have htake := greedyChunk_eq_take (H.DATA_LOG_MAX_CHAR - 50) (pending H g c)
  rw [← s1] at htake
  have hle : c.last_data_log_index ≤ (assembleDataLog H env c g).ctrl.last_data_log_index := by
    rw [s2]
    apply lastIncluded_ge
    intro x hx
    rw [htake] at hx
    obtain ⟨a, ha, rfl⟩ := List.mem_map.mp hx
    exact le_of_lt (pending_gt H g c a (List.mem_of_mem_take ha))
  refine ⟨hle, ?_⟩
  have hf := filter_after_last (pending H g c) (assembleDataLog H env c g).included.length
    c.last_data_log_index (pending_sorted H g c) (pending_gt H g c)
  rw [← htake, ← s2] at hf
  rw [← hf]
  conv_lhs => unfold pending
  rw [reporting_assembledFrom H g hR _ _ s3 0]
  conv_rhs => unfold pending
  rw [filter_filter_of_imp]
  intro a ha
  simp only [decide_eq_true_eq] at ha ⊢
  omega

theorem reported_cons (H : Headers D) (g : Bool) (i : Nat) (d : D) (ds : List D) :
    reported H g i (d :: ds) =
      if (H.assembleLog (!g) d).1 then
        (i, (H.assembleLog (!g) d).2) :: reported H g (i + 1) ds
      else reported H g (i + 1) ds := rfl

theorem reporting_eq_reported (H : Headers D) (g : Bool) (ds : List D) :
    ∀ i : Nat, reporting H g i ds
      = (reported H g i ds).map (fun e => (e.1, (H.json e.2).length)) := by
  induction ds with
  | nil => intro i; rfl
  | cons d ds ih =>
    intro i
    rw [reporting_cons, reported_cons]
    split_ifs
    · rw [List.map_cons, ih]
    · exact ih _

theorem reported_lookup (H : Headers D) (g : Bool) (ds : List D) :
    ∀ i : Nat, ∀ e ∈ reported H g i ds, i ≤ e.1 ∧
      ∃ d0, ds[e.1 - i]? = some d0 ∧ (H.assembleLog (!g) d0).1 = true ∧
        e.2 = (H.assembleLog (!g) d0).2 := by
  induction ds with
  | nil => intro i e he; cases he
  | cons d ds ih =>
    intro i e he
    rw [reported_cons] at he
    have tail : e ∈ reported H g (i + 1) ds → i ≤ e.1 ∧
        ∃ d0, (d :: ds)[e.1 - i]? = some d0 ∧ (H.assembleLog (!g) d0).1 = true ∧
          e.2 = (H.assembleLog (!g) d0).2 := by
      intro h
      obtain ⟨h1, d0, h2, h3, h4⟩ := ih (i + 1) e h
      refine ⟨by omega, d0, ?_, h3, h4⟩
      have : e.1 - i = (e.1 - (i + 1)) + 1 := by omega
      rw [this, List.getElem?_cons_succ]
      exact h2
    by_cases h : (H.assembleLog (!g) d).1 = true
    · rw [if_pos h] at he
      rcases List.mem_cons.mp he with e1 | e1
      · subst e1
        exact ⟨le_refl _, d, by simp, h, rfl⟩
      · exact tail e1
    · rw [if_neg h] at he
      exact tail he

/-- An entry among those reported from index `n` on is the entry of the data vector at its
index, with its serialized text and its data time. -/
theorem reported_entry (H : Headers D) (g : Bool) (data : List D) (n : Nat) (e : Nat × D)
    (he : e ∈ reported H g n (data.drop n)) :
    entryText H g data e.1 = H.json e.2 ∧ entryDataTime H g data e.1 = H.getDataTime e.2 ∧
    (ReportsText H (!g) → H.json e.2 ≠ []) := by
  obtain ⟨h1, d0, h2, h3, h4⟩ := reported_lookup H g _ n e he
  rw [List.getElem?_drop] at h2
  have : n + (e.1 - n) = e.1 := by omega
  rw [this] at h2
  unfold entryText entryDataTime
  rw [h2, h4]
  exact ⟨rfl, rfl, fun hJ => hJ d0 h3⟩

theorem assembleDataLog_first_reported (H : Headers D) (g : Bool) (ds : List D) :
    ∀ i : Nat,
      match (assembleDataLog_first H g i ds).2 with
      | none => reported H g i ds = []
      | some (j, d, rest) => reported H g i ds = (j, d) :: reported H g (j + 1) rest := by
  induction ds with
  | nil => intro i; rfl
  | cons d ds ih =>
    intro i
    rw [assembleDataLog_first_cons, reported_cons]
    by_cases h : (H.assembleLog (!g) d).1 = true
    · rw [if_pos h, if_pos h]
    · rw [if_neg h, if_neg h]
      exact ih (i + 1)

/-- The second loop hands to `addToDataLog`, in order, the serialized texts of the entries
it includes. -/
theorem assembleDataLog_fit_buffer (H : Headers D) (g : Bool) (cutoff : Int) (budget : Nat)
    (hc : ∀ len : Nat, belowCutoff len cutoff = true ↔ len < budget) (ds : List D) :
    ∀ (i : Nat) (k : Chunk),
      (assembleDataLog_fit H g cutoff i ds k).2.data_log_buffer
        = (((reported H g i ds).take
            (greedyTake budget k.total_string_length (reporting H g i ds)).length).map
            (fun e => H.json e.2)).foldl (addToDataLog H) k.data_log_buffer := by
  induction ds with
  | nil => intro i k; rfl
  | cons d ds ih =>
    intro i k
    rw [assembleDataLog_fit_cons, reporting_cons, reported_cons]
    by_cases h : (H.assembleLog (!g) d).1 = true
    · rw [if_pos h, if_pos h, if_pos h, greedyTake_cons]
      by_cases hb : belowCutoff
          (k.total_string_length + (H.json (H.assembleLog (!g) d).2).length) cutoff = true
      · rw [if_pos hb, if_pos ((hc _).mp hb), List.length_cons, List.take_succ_cons,
          List.map_cons, List.foldl_cons]
        exact ih (i + 1)
          { total_string_length :=
              k.total_string_length + (H.json (H.assembleLog (!g) d).2).length,
            last_data_log_index := i,
            data_log_buffer := addToDataLog H k.data_log_buffer
              (H.json (H.assembleLog (!g) d).2),
            included := k.included ++ [i] }
      · rw [if_neg hb, if_neg (fun hlt => hb ((hc _).mpr hlt))]
        rfl
    · rw [if_neg h, if_neg h, if_neg h]
      exact ih (i + 1) k

theorem greedyTake_reported (H : Headers D) (g : Bool) (budget total i : Nat) (ds : List D) :
    greedyTake budget total (reporting H g i ds)
      = ((reported H g i ds).take
          (greedyTake budget total (reporting H g i ds)).length).map Prod.fst := by
  have key : ∀ m : Nat, ((reporting H g i ds).take m).map Prod.fst
      = ((reported H g i ds).take m).map Prod.fst := by
    intro m
    rw [reporting_eq_reported, ← List.map_take, List.map_map]
    rfl
  exact (greedyTake_eq_take budget (reporting H g i ds) total).trans (key _)

theorem take_take_append {α : Type} (n m : Nat) (h : n ≤ m) (X Y : List α) :
    (X.take m ++ Y).take n = (X ++ Y).take n := by
  by_cases hX : X.length ≤ m
  · rw [List.take_of_length_le hX]
  · have h1 : n ≤ (X.take m).length := by rw [List.length_take]; omega
    rw [List.take_append_of_le_length h1, List.take_take, min_eq_left h,
      List.take_append_of_le_length (by omega)]

theorem intercalate_cons_eq {α : Type} (sep t : List α) (ts : List (List α)) :
    sep.intercalate (t :: ts) = t ++ (ts.map (fun u => sep ++ u)).flatten := by
  induction ts generalizing t with
  | nil => simp [List.intercalate]
  | cons u us ih =>
    have := ih u
    simp only [List.intercalate, List.intersperse, List.flatten_cons, List.map_cons,
      List.append_assoc] at this ⊢
    rw [this]

/-- What `addToDataLog` leaves in a buffer that is not empty after the texts `ts` have been
added: the buffer and the texts, each text after a comma, cut to the size of the buffer. -/
theorem addToDataLog_foldl (H : Headers D) (ts : List Text) :
    ∀ b : Text, b ≠ [] → 12 ≤ H.DATA_LOG_MAX_CHAR →
      ts.foldl (addToDataLog H) b
        = if ts = [] then b
          else (b ++ (ts.map (fun t => ",".data ++ t)).flatten).take
            (H.DATA_LOG_MAX_CHAR - 11) := by
  induction ts with
  | nil => intro b _ _; rfl
  | cons t ts ih =>
    intro b hb hM
    have hsub : H.DATA_LOG_MAX_CHAR - 10 - 1 = H.DATA_LOG_MAX_CHAR - 11 := by omega
    have hadd : addToDataLog H b t
        = (b ++ (",".data ++ t)).take (H.DATA_LOG_MAX_CHAR - 11) := by
      unfold addToDataLog snprintf
      rw [if_neg hb, hsub, List.append_assoc]
    have hne : addToDataLog H b t ≠ [] := by
      rw [hadd]
      cases b with
      | nil => exact absurd rfl hb
      | cons x b =>
        obtain ⟨m, hm⟩ : ∃ m, H.DATA_LOG_MAX_CHAR - 11 = m + 1 := ⟨H.DATA_LOG_MAX_CHAR - 12, by omega⟩
        rw [hm, List.cons_append, List.take_succ_cons]
        exact List.cons_ne_nil _ _
    rw [List.foldl_cons, ih _ hne hM, if_neg (List.cons_ne_nil _ _), List.map_cons,
      List.flatten_cons]
    by_cases hts : ts = []
    · rw [if_pos hts, hts, List.map_nil, List.flatten_nil, List.append_nil, hadd]
    · rw [if_neg hts, hadd, take_take_append _ _ (le_refl _), List.append_assoc]

/-- The texts handed to `addToDataLog` from an empty buffer on are left in the buffer joined
by commas, when the first one is not empty and the joined text fits the buffer with its
terminator; this is so in particular when the buffer is left shorter than it could be. -/
theorem addToDataLog_joined (H : Headers D) (hM : 12 ≤ H.DATA_LOG_MAX_CHAR) (t : Text)
    (ts : List Text) (ht : t ≠ [])
    (h : (",".data.intercalate (t :: ts)).length < H.DATA_LOG_MAX_CHAR - 10 ∨
      ((t :: ts).foldl (addToDataLog H) []).length < H.DATA_LOG_MAX_CHAR - 11) :
    (t :: ts).foldl (addToDataLog H) [] = ",".data.intercalate (t :: ts) := by
  have h0 : addToDataLog H [] t = t.take (H.DATA_LOG_MAX_CHAR - 10) := by
    unfold addToDataLog strncpy
    rw [if_pos rfl]
  have hne : t.take (H.DATA_LOG_MAX_CHAR - 10) ≠ [] := by
    cases t with
    | nil => exact absurd rfl ht
    | cons x t =>
      obtain ⟨m, hm⟩ : ∃ m, H.DATA_LOG_MAX_CHAR - 10 = m + 1 := ⟨H.DATA_LOG_MAX_CHAR - 11, by omega⟩
      rw [hm, List.take_succ_cons]
      exact List.cons_ne_nil _ _
  rw [List.foldl_cons, h0, addToDataLog_foldl H ts _ hne hM] at h ⊢
  rw [intercalate_cons_eq] at h ⊢
  by_cases hts : ts = []
  · rw [if_pos hts] at h ⊢
    rw [hts, List.map_nil, List.flatten_nil, List.append_nil] at h ⊢
    apply List.take_of_length_le
    rw [List.length_take] at h
    omega
  · rw [if_neg hts] at h ⊢
    rw [take_take_append _ _ (by omega)] at h ⊢
    apply List.take_of_length_le
    rw [List.length_take] at h
    omega

/-- The second loop, started on the anchor, includes the first reported entries and leaves
their serialized texts in the buffer as `addToDataLog` joins them. -/
theorem assembleDataLog_fit_anchor (H : Headers D) (g : Bool) (cutoff : Int) (budget : Nat)
    (hc : ∀ len : Nat, belowCutoff len cutoff = true ↔ len < budget) (rest : List D)
    (j : Nat) (d : D) :
    (assembleDataLog_fit H g cutoff (j + 1) rest
      { total_string_length := (H.json d).length, last_data_log_index := j,
        data_log_buffer := addToDataLog H [] (H.json d), included := [j] }).2.included ≠ [] ∧
    (assembleDataLog_fit H g cutoff (j + 1) rest
      { total_string_length := (H.json d).length, last_data_log_index := j,
        data_log_buffer := addToDataLog H [] (H.json d), included := [j] }).2.included
      = (((j, d) :: reported H g (j + 1) rest).take
          (assembleDataLog_fit H g cutoff (j + 1) rest
            { total_string_length := (H.json d).length, last_data_log_index := j,
              data_log_buffer := addToDataLog H [] (H.json d),
              included := [j] }).2.included.length).map Prod.fst ∧
    (assembleDataLog_fit H g cutoff (j + 1) rest
      { total_string_length := (H.json d).length, last_data_log_index := j,
        data_log_buffer := addToDataLog H [] (H.json d), included := [j] }).2.data_log_buffer
      = ((((j, d) :: reported H g (j + 1) rest).take
          (assembleDataLog_fit H g cutoff (j + 1) rest
            { total_string_length := (H.json d).length, last_data_log_index := j,
              data_log_buffer := addToDataLog H [] (H.json d),
              included := [j] }).2.included.length).map
          (fun x => H.json x.2)).foldl (addToDataLog H) [] := by
  obtain ⟨f1, -, -⟩ := assembleDataLog_fit_spec H g cutoff budget hc rest (j + 1)
    { total_string_length := (H.json d).length, last_data_log_index := j,
      data_log_buffer := addToDataLog H [] (H.json d), included := [j] }
  have fb := assembleDataLog_fit_buffer H g cutoff budget hc rest (j + 1)
    { total_string_length := (H.json d).length, last_data_log_index := j,
      data_log_buffer := addToDataLog H [] (H.json d), included := [j] }
  have hg := greedyTake_reported H g budget (H.json d).length (j + 1) rest
  rw [f1, fb]
  dsimp only
  refine ⟨List.cons_ne_nil _ _, ?_, ?_⟩
  · rw [List.singleton_append, List.length_cons, List.take_succ_cons, List.map_cons, ← hg]
  · rw [List.singleton_append, List.length_cons, List.take_succ_cons, List.map_cons,
      List.foldl_cons]

/-- What one call of `assembleDataLog` leaves in its buffers: the entries included are the
first of those reported after the watermark; their texts are in `data_log_buffer` as
`addToDataLog` joins them; `data_log` is the wrapper around that buffer, cut to its size, and
the call returns true exactly when the wrapper fits with its terminator. -/
theorem assembleDataLog_raw (H : Headers D) (env : Cloud) (c : LoggerController D) (g : Bool)
    (hM : 50 ≤ H.DATA_LOG_MAX_CHAR) (hM2 : H.DATA_LOG_MAX_CHAR < SIZE_MOD)
    (n : Nat) (hn : c.last_data_log_index + 1 = (n : Int)) :
    (assembleDataLog H env c g).ctrl.name = c.name ∧
    (assembleDataLog H env c g).included
      = ((reported H g n (c.data.drop n)).take
          (assembleDataLog H env c g).included.length).map Prod.fst ∧
    ∀ (e : Nat × D) (L : List (Nat × D)), reported H g n (c.data.drop n) = e :: L →
      (assembleDataLog H env c g).included ≠ [] ∧
      (assembleDataLog H env c g).ctrl.data_log_buffer
        = (((e :: L).take (assembleDataLog H env c g).included.length).map
            (fun x => H.json x.2)).foldl (addToDataLog H) [] ∧
      (assembleDataLog H env c g).ctrl.data_log
        = (snprintf H.DATA_LOG_MAX_CHAR (dataLogWrap c.name
            (timeOffset g ((env.millis + SIZE_MOD - H.getDataTime e.2 % SIZE_MOD) % SIZE_MOD))
            (assembleDataLog H env c g).ctrl.data_log_buffer)).1 ∧
      ((assembleDataLog H env c g).ok = true ↔
        (dataLogWrap c.name
            (timeOffset g ((env.millis + SIZE_MOD - H.getDataTime e.2 % SIZE_MOD) % SIZE_MOD))
            (assembleDataLog H env c g).ctrl.data_log_buffer).length
          < H.DATA_LOG_MAX_CHAR) := by
  have hc : ∀ len : Nat,
      belowCutoff len (toInt32 (((H.DATA_LOG_MAX_CHAR : Int) - 50) % (SIZE_MOD : Int))) = true
        ↔ len < H.DATA_LOG_MAX_CHAR - 50 := by
    intro len
    have := belowCutoff_iff len (H.DATA_LOG_MAX_CHAR - 50) (by omega)
    rwa [Nat.cast_sub hM] at this
  have hfmt : ∀ (t : Nat) (body : Text),
      (if g = true then
          "\x7b\"id\":\"".data ++ c.name ++ "\",\"to\":".data ++ decimal t
            ++ ",\"d\":[".data ++ body ++ "]\x7d".data
        else
          "\x7b\"id\":\"".data ++ c.name ++ "\",\"d\":[".data ++ body ++ "]\x7d".data)
        = dataLogWrap c.name (timeOffset g t) body := by
    intro t body
    cases g <;> rfl
  generalize hr : assembleDataLog H env c g = r
  unfold assembleDataLog at hr
  simp only [hn, Int.toNat_natCast] at hr
  by_cases h1 : (n : Int) = (c.data.length : Int)
  · rw [if_pos h1] at hr
    have hd : c.data.drop n = [] := List.drop_eq_nil_of_le (by omega)
    subst hr
    rw [hd]
    exact ⟨rfl, rfl, fun e L h => by cases h⟩
  · rw [if_neg h1, if_neg (by omega)] at hr
    have hs := assembleDataLog_first_reported H g (c.data.drop n) n
    split at hr
    · rename_i heq
      rw [heq] at hs
      subst hr
      rw [hs]
      exact ⟨rfl, rfl, fun e L h => by cases h⟩
    · rename_i j d rest heq
      rw [heq] at hs
      obtain ⟨a1, a2, a3⟩ := assembleDataLog_fit_anchor H g
        (toInt32 (((H.DATA_LOG_MAX_CHAR : Int) - 50) % (SIZE_MOD : Int)))
        (H.DATA_LOG_MAX_CHAR - 50) hc rest j d
      rw [hs]
      rw [hfmt] at hr
      split_ifs at hr with hp <;> subst hr <;> refine ⟨rfl, a2, fun e L h => ?_⟩ <;>
        obtain ⟨rfl, rfl⟩ := List.cons.inj h
      · refine ⟨a1, a3, rfl, ?_⟩
        dsimp only
        constructor
        · intro hh; cases hh
        · intro hh
          exact absurd hp (not_le.mpr hh)
      · refine ⟨a1, a3, rfl, ?_⟩
        dsimp only
        constructor
        · intro _
          exact not_le.mp hp
        · intro _; rfl

theorem dataLogWrap_length (name : Text) (time_offset : Option Nat) (body : Text) :
    (dataLogWrap name time_offset body).length
      = (dataLogWrap name time_offset []).length + body.length ∧
    15 ≤ (dataLogWrap name time_offset []).length := by
  cases time_offset with
  | none =>
    simp only [dataLogWrap, List.length_append, List.length_nil, List.length_cons]
    omega
  | some t =>
    simp only [dataLogWrap, List.length_append, List.length_nil, List.length_cons]
    omega

/-- The chunk that one call of `assembleDataLog` assembles, as text: when it includes
entries, their serialized texts are left in `data_log_buffer` joined by commas if that text
fits the buffer; the call returns true exactly when the wire payload around these texts fits
`data_log` with its terminator, and `data_log` then holds this payload. -/
theorem assembleDataLog_text (H : Headers D) (env : Cloud) (c : LoggerController D) (g : Bool)
    (hM : 50 ≤ H.DATA_LOG_MAX_CHAR) (hM2 : H.DATA_LOG_MAX_CHAR < SIZE_MOD)
    (hw : -1 ≤ c.last_data_log_index) (hJ : ReportsText H (!g)) :
    ∀ (j : Nat) (rest : List Nat), (assembleDataLog H env c g).included = j :: rest →
      ((",".data.intercalate ((j :: rest).map (entryText H g c.data))).length
          < H.DATA_LOG_MAX_CHAR - 10 →
        (assembleDataLog H env c g).ctrl.data_log_buffer
          = ",".data.intercalate ((j :: rest).map (entryText H g c.data))) ∧
      ((assembleDataLog H env c g).ok = true ↔
        (dataLogText c.name
          (timeOffset g
            ((env.millis + SIZE_MOD - entryDataTime H g c.data j % SIZE_MOD) % SIZE_MOD))
          ((j :: rest).map (entryText H g c.data))).length < H.DATA_LOG_MAX_CHAR) ∧
      ((assembleDataLog H env c g).ok = true →
        (assembleDataLog H env c g).ctrl.data_log
          = dataLogText c.name
              (timeOffset g
                ((env.millis + SIZE_MOD - entryDataTime H g c.data j % SIZE_MOD) % SIZE_MOD))
              ((j :: rest).map (entryText H g c.data))) := by
  obtain ⟨n, hn⟩ : ∃ n : Nat, c.last_data_log_index + 1 = (n : Int) :=
    ⟨(c.last_data_log_index + 1).toNat, by omega⟩
  obtain ⟨-, r2, r3⟩ := assembleDataLog_raw H env c g hM hM2 n hn
  intro j rest hinc
  obtain ⟨k, hk⟩ : ∃ k, rest.length = k := ⟨_, rfl⟩
  cases hL : reported H g n (c.data.drop n) with
  | nil =>
    rw [hL, hinc] at r2
    cases r2
  | cons e L =>
    obtain ⟨-, q2, q3, q4⟩ := r3 e L hL
    rw [hinc, List.length_cons, hk] at r2 q2
    rw [hL, List.take_succ_cons, List.map_cons] at r2
    rw [List.take_succ_cons, List.map_cons] at q2
    obtain ⟨hj, hrest⟩ := List.cons.inj r2
    have hmem : ∀ x ∈ e :: L, entryText H g c.data x.1 = H.json x.2 ∧
        entryDataTime H g c.data x.1 = H.getDataTime x.2 ∧
        (ReportsText H (!g) → H.json x.2 ≠ []) :=
      fun x hx => reported_entry H g c.data n x (by rw [hL]; exact hx)
    have htexts : (j :: rest).map (entryText H g c.data)
        = H.json e.2 :: (L.take k).map (fun x => H.json x.2) := by
      rw [hj, hrest, List.map_cons, List.map_map, (hmem e (List.mem_cons_self _ _)).1]
      congr 1
      apply List.map_congr_left
      intro x hx
      exact (hmem x (List.mem_cons_of_mem _ (List.mem_of_mem_take hx))).1
    have htime : entryDataTime H g c.data j = H.getDataTime e.2 := by
      rw [hj]; exact (hmem e (List.mem_cons_self _ _)).2.1
    have hne := (hmem e (List.mem_cons_self _ _)).2.2 hJ
    have hjoin := addToDataLog_joined H (by omega) (H.json e.2)
      ((L.take k).map (fun x => H.json x.2)) hne
    rw [← q2] at hjoin
    rw [htexts, htime]
    unfold dataLogText
    obtain ⟨w1, w2⟩ := dataLogWrap_length c.name
      (timeOffset g ((env.millis + SIZE_MOD - H.getDataTime e.2 % SIZE_MOD) % SIZE_MOD))
      (assembleDataLog H env c g).ctrl.data_log_buffer
    obtain ⟨w3, -⟩ := dataLogWrap_length c.name
      (timeOffset g ((env.millis + SIZE_MOD - H.getDataTime e.2 % SIZE_MOD) % SIZE_MOD))
      (",".data.intercalate (H.json e.2 :: (L.take k).map (fun x => H.json x.2)))
    have hok : (assembleDataLog H env c g).ok = true →
        (assembleDataLog H env c g).ctrl.data_log_buffer
          = ",".data.intercalate (H.json e.2 :: (L.take k).map (fun x => H.json x.2)) := by
      intro h
      have := q4.mp h
      exact hjoin (Or.inr (by omega))
    refine ⟨fun h => hjoin (Or.inl h), ⟨fun h => ?_, fun h => ?_⟩, fun h => ?_⟩
    · rw [← hok h]
      exact q4.mp h
    · apply q4.mpr
      rw [hjoin (Or.inl (by omega))]
      exact h
    · have hlen := q4.mp h
      rw [q3, ← hok h]
      unfold snprintf
      exact List.take_of_length_le (by omega)

/-- C1: for every data vector and every watermark (`-1` or an index), one call of
`assembleDataLog` includes the first pending entry that has something to report and then each
following reporting entry, in index order, while the cumulative serialized length stays below
the budget `sizeof(data_log) - 50`, stops at the first entry that would reach the budget, and
sets the watermark to the last included entry; the next call continues with the pending
entries that were not included.  The chunk is these entries as text (an entry that reports
having a text that is not empty): their serialized texts, joined by commas, are what the call
leaves in `data_log_buffer` when that fits, the call returns true exactly when the wire
payload around them fits `data_log`, and `data_log` then holds this payload.  In particular,
for reporting entries `R1..R5` with `R1 + R2 + R3` under the budget and `R1 + R2 + R3 + R4`
not, the first call includes exactly `R1, R2, R3`, the data log of a call that returns true
holds the texts of exactly these three, and the next call starts with `R4`, followed by `R5`
if it fits with `R4`. -/
theorem greedy_in_order_chunking (H : Headers D) (env env2 : Cloud) (c : LoggerController D)
    (g : Bool) (hM : 50 ≤ H.DATA_LOG_MAX_CHAR) (hM2 : H.DATA_LOG_MAX_CHAR < SIZE_MOD)
    (hw : -1 ≤ c.last_data_log_index) :
    (assembleDataLog H env c g).included
      = greedyChunk (H.DATA_LOG_MAX_CHAR - 50) (pending H g c) ∧
    (assembleDataLog H env c g).ctrl.last_data_log_index
      = lastIncluded (assembleDataLog H env c g).included c.last_data_log_index ∧
    (Reassembles H (!g) →
      (assembleDataLog H env2 (assembleDataLog H env c g).ctrl g).included
        = greedyChunk (H.DATA_LOG_MAX_CHAR - 50)
            ((pending H g c).drop (assembleDataLog H env c g).included.length)) ∧
    (ReportsText H (!g) →
      ∀ (j : Nat) (rest : List Nat), (assembleDataLog H env c g).included = j :: rest →
        ((",".data.intercalate ((j :: rest).map (entryText H g c.data))).length
            < H.DATA_LOG_MAX_CHAR - 10 →
          (assembleDataLog H env c g).ctrl.data_log_buffer
            = ",".data.intercalate ((j :: rest).map (entryText H g c.data))) ∧
        ((assembleDataLog H env c g).ok = true ↔
          (dataLogText c.name
            (timeOffset g
              ((env.millis + SIZE_MOD - entryDataTime H g c.data j % SIZE_MOD) % SIZE_MOD))
            ((j :: rest).map (entryText H g c.data))).length < H.DATA_LOG_MAX_CHAR) ∧
        ((assembleDataLog H env c g).ok = true →
          (assembleDataLog H env c g).ctrl.data_log
            = dataLogText c.name
                (timeOffset g
                  ((env.millis + SIZE_MOD - entryDataTime H g c.data j % SIZE_MOD)
                    % SIZE_MOD))
                ((j :: rest).map (entryText H g c.data)))) ∧
    (∀ R1 R2 R3 R4 R5 : Nat × Nat, pending H g c = [R1, R2, R3, R4, R5] →
      R1.2 + R2.2 + R3.2 < H.DATA_LOG_MAX_CHAR - 50 →
      ¬ (R1.2 + R2.2 + R3.2 + R4.2 < H.DATA_LOG_MAX_CHAR - 50) →
      (assembleDataLog H env c g).included = [R1.1, R2.1, R3.1] ∧
      (assembleDataLog H env c g).ctrl.last_data_log_index = (R3.1 : Int) ∧
      (ReportsText H (!g) → (assembleDataLog H env c g).ok = true →
        (assembleDataLog H env c g).ctrl.data_log
          = dataLogText c.name
              (timeOffset g
                ((env.millis + SIZE_MOD - entryDataTime H g c.data R1.1 % SIZE_MOD)
                  % SIZE_MOD))
              [entryText H g c.data R1.1, entryText H g c.data R2.1,
                entryText H g c.data R3.1]) ∧
      (Reassembles H (!g) →
        (assembleDataLog H env2 (assembleDataLog H env c g).ctrl g).included
          = if R4.2 + R5.2 < H.DATA_LOG_MAX_CHAR - 50 then [R4.1, R5.1] else [R4.1])) := by
  obtain ⟨s1, s2, -⟩ := assembleDataLog_spec H env c g hM hM2 hw
  have next : Reassembles H (!g) →
      (assembleDataLog H env2 (assembleDataLog H env c g).ctrl g).included
        = greedyChunk (H.DATA_LOG_MAX_CHAR - 50)
            ((pending H g c).drop (assembleDataLog H env c g).included.length) := by
    intro hR
    obtain ⟨p1, p2⟩ := pending_after H env c g hM hM2 hw hR
    rw [← p2]
    exact (assembleDataLog_spec H env2 _ g hM hM2 (le_trans hw p1)).1
  refine ⟨s1, s2, next, fun hJ => assembleDataLog_text H env c g hM hM2 hw hJ, ?_⟩
  intro R1 R2 R3 R4 R5 hp h3 h4
  have h2 : R1.2 + R2.2 < H.DATA_LOG_MAX_CHAR - 50 := by omega
  have hinc : (assembleDataLog H env c g).included = [R1.1, R2.1, R3.1] := by
    rw [s1, hp]
    simp [greedyChunk, greedyTake, h2, h3, h4]
  refine ⟨hinc, ?_, fun hJ hok => ?_, fun hR => ?_⟩
  · rw [s2, hinc]; rfl
  · exact (assembleDataLog_text H env c g hM hM2 hw hJ R1.1 [R2.1, R3.1] hinc).2.2 hok
  · rw [next hR, hinc, hp]
    simp only [List.length_cons, List.length_nil, List.drop_succ_cons, List.drop_zero,
      greedyChunk, greedyTake]
    split_ifs <;> rfl

/-- C1 at a concrete input: entries of 4, 3, 2, 5 and 1 characters, with one empty series
among them, under a budget of 10: the first call includes the entries at indices 0, 1 and 3,
leaves the watermark at 3, the text `aaaa,bbb,cc` in the buffer and the payload around it
in the data log; the next call includes those at 4 and 5. -/
theorem greedy_in_order_chunking_witness :
    (assembleDataLog demoHeaders demoCloud
      (demoController ["aaaa".data, "bbb".data, [], "cc".data, "ddddd".data, "e".data])
      true).included = [0, 1, 3] ∧
    (assembleDataLog demoHeaders demoCloud
      (demoController ["aaaa".data, "bbb".data, [], "cc".data, "ddddd".data, "e".data])
      true).ctrl.last_data_log_index = 3 ∧
    (assembleDataLog demoHeaders demoCloud
      (demoController ["aaaa".data, "bbb".data, [], "cc".data, "ddddd".data, "e".data])
      true).ctrl.data_log = "\x7b\"id\":\"\",\"to\":1000,\"d\":[aaaa,bbb,cc]\x7d".data ∧
    (assembleDataLog demoHeaders demoCloud
      (demoController ["aaaa".data, "bbb".data, [], "cc".data, "ddddd".data, "e".data])
      true).ctrl.data_log_buffer = "aaaa,bbb,cc".data ∧
    (assembleDataLog demoHeaders demoCloud (assembleDataLog demoHeaders demoCloud
      (demoController ["aaaa".data, "bbb".data, [], "cc".data, "ddddd".data, "e".data])
      true).ctrl true).included = [4, 5] :=
  have h := greedy_in_order_chunking demoHeaders demoCloud demoCloud
    (demoController ["aaaa".data, "bbb".data, [], "cc".data, "ddddd".data, "e".data]) true
    (by decide) (by decide) (by decide)
  ⟨h.1.trans (by decide), h.2.1.trans (by decide),
    ((h.2.2.2.2 (0, 4) (1, 3) (3, 2) (4, 5) (5, 1) (by decide) (by decide) (by decide)).2.2.1
      (fun d hd => by
        cases d with
        | nil => cases hd
        | cons x xs => exact List.cons_ne_nil _ _)
      (by decide)).trans (by decide),
    by decide,
    (h.2.2.2.2 (0, 4) (1, 3) (3, 2) (4, 5) (5, 1) (by decide) (by decide) (by decide)).2.2.2
      (fun d => ⟨rfl, rfl⟩)⟩

/-! ## Sticky rejection -/

theorem addComponents_after_rejection (H : Headers D) (cs : List LoggerComponent) :
    ∀ c : LoggerController D, H.EEPROM_MAX ≤ c.eeprom_location →
      c.eeprom_location + totalStateSize cs < SIZE_MOD →
      (addComponents H c cs).components = c.components := by
  induction cs with
  | nil => intro c _ _; rfl
  | cons x xs ih =>
    intro c hmax hfit
    rw [totalStateSize_cons] at hfit
    have hloc : (addComponent H c x).eeprom_location = c.eeprom_location + x.getStateSize := by
      rw [addComponent_eeprom_location]; exact Nat.mod_eq_of_lt (by omega)
    have hrej : (addComponent H c x).components = c.components := by
      apply addComponent_rejects
      rw [Nat.mod_eq_of_lt (by omega)]
      omega
    rw [addComponents_cons, ih _ (by rw [hloc]; omega) (by rw [hloc]; omega), hrej]

theorem addComponents_placed (H : Headers D) (cs : List LoggerComponent) :
    ∀ c : LoggerController D, c.eeprom_location + totalStateSize cs < SIZE_MOD →
      ∃ k, (addComponents H c cs).components
        = c.components ++ placed c.eeprom_location (cs.take k) := by
  induction cs with
  | nil => intro c _; exact ⟨0, by simp [addComponents_nil, placed]⟩
  | cons x xs ih =>
    intro c hfit
    rw [totalStateSize_cons] at hfit
    have hloc : (addComponent H c x).eeprom_location = c.eeprom_location + x.getStateSize := by
      rw [addComponent_eeprom_location]; exact Nat.mod_eq_of_lt (by omega)
    by_cases hr : (c.eeprom_location + x.getStateSize) % SIZE_MOD ≥ H.EEPROM_MAX
    · refine ⟨0, ?_⟩
      rw [addComponents_cons, addComponents_after_rejection H xs _
        (by rw [hloc]; rw [Nat.mod_eq_of_lt (by omega)] at hr; exact hr)
        (by rw [hloc]; omega), addComponent_rejects H c x hr]
      simp [placed]
    · obtain ⟨k, hk⟩ := ih (addComponent H c x) (by rw [hloc]; omega)
      refine ⟨k + 1, ?_⟩
      rw [addComponents_cons, hk, addComponent_accepts H c x (not_le.mp hr), hloc,
        List.take_succ_cons]
      simp [placed]

/-- C19: `addComponent` advances the allocation cursor by the size of the component whether
it registers it or not, so (absent `size_t` wrap-around) after a rejected call every later
call is rejected as well, whatever the sizes, and the registered components are the
components of a prefix of the sequence passed, placed one after the other. -/
theorem rejection_is_sticky (H : Headers D) (c : LoggerController D) (comp : LoggerComponent)
    (cs : List LoggerComponent)
    (hfit : c.eeprom_location + comp.getStateSize + totalStateSize cs < SIZE_MOD) :
    (addComponent H c comp).eeprom_location = c.eeprom_location + comp.getStateSize ∧
    (H.EEPROM_MAX ≤ c.eeprom_location + comp.getStateSize →
      (addComponent H c comp).components = c.components ∧
      (addComponents H (addComponent H c comp) cs).components = c.components) ∧
    ∃ k, (addComponents H c (comp :: cs)).components
      = c.components ++ placed c.eeprom_location ((comp :: cs).take k) := by
  have hloc : (addComponent H c comp).eeprom_location
      = c.eeprom_location + comp.getStateSize := by
    rw [addComponent_eeprom_location]; exact Nat.mod_eq_of_lt (by omega)
  refine ⟨hloc, fun hmax => ?_, addComponents_placed H (comp :: cs) c
    (by rw [totalStateSize_cons]; omega)⟩
  have hrej : (addComponent H c comp).components = c.components := by
    apply addComponent_rejects
    rw [Nat.mod_eq_of_lt (by omega)]
    exact hmax
  refine ⟨hrej, ?_⟩
  rw [addComponents_after_rejection H cs _ (by rw [hloc]; exact hmax) (by rw [hloc]; omega),
    hrej]

/-- C19 at a concrete input: with the cursor at 12 and an EEPROM of 64 bytes, a component of
60 bytes is rejected and moves the cursor to 72, after which components of 1 and of 0 bytes
are rejected too. -/
theorem rejection_is_sticky_witness :
    (addComponent demoHeaders (demoController []) (demoComponent 60)).eeprom_location = 72 ∧
    (addComponents demoHeaders (addComponent demoHeaders (demoController [])
      (demoComponent 60)) [demoComponent 1, demoComponent 0]).components.length = 0 :=
  have h := rejection_is_sticky demoHeaders (demoController []) (demoComponent 60)
    [demoComponent 1, demoComponent 0] (by decide)
  ⟨h.1, by rw [(h.2.1 (by decide)).2]; decide⟩

/-! ## The reset-state command -/

theorem parseDataLoggingPeriod_pass (H : Headers D) (c : LoggerController D)
    (hv : c.command.variable_ ≠ H.CMD_DATA_LOG_PERIOD) :
    parseDataLoggingPeriod H c = (c.command.isTypeDefined H, c) := by
  unfold parseDataLoggingPeriod
  simp [LoggerCommand.parseVariable, hv]

theorem parseReset_state (H : Headers D) (c : LoggerController D)
    (hs : H.CMD_RET_SUCCESS ≠ H.CMD_RET_UNDEFINED)
    (hne : H.CMD_RESET_STATE ≠ H.CMD_RESET_DATA)
    (hv : c.command.variable_ = H.CMD_RESET)
    (hval : c.command.extractValue.value = H.CMD_RESET_STATE) :
    (parseReset H c).1 = true ∧
    (parseReset H c).2.command.ret_val = H.CMD_RET_SUCCESS ∧
    (parseReset H c).2.state = { c.state with version := 0 } ∧
    (parseReset H c).2.eeprom = { c.state with version := 0 } ∧
    (parseReset H c).2.data = c.data := by
  unfold parseReset
  simp [LoggerCommand.parseVariable, LoggerCommand.parseValue, hv, hval, hne, saveState,
    LoggerCommand.isTypeDefined, LoggerCommand.success, LoggerCommand.setLogMsg, hs]

theorem parseCommand_reset (H : Headers D) (c : LoggerController D) (hH : H.WellFormed)
    (hv : c.command.variable_ = H.CMD_RESET) (hl : c.state.locked = false)
    (hu : c.command.ret_val = H.CMD_RET_UNDEFINED)
    (hp : (parseReset H c).1 = true) :
    parseCommand H c = (parseReset H c).2 := by
  have hn := hH.2.2.2.2.2.2.2.1
  have h1 : c.command.variable_ ≠ H.CMD_LOCK := by
    rw [hv]; intro h; rw [h] at hn; simp at hn
  have h2 : c.command.variable_ ≠ H.CMD_STATE_LOG := by
    rw [hv]; intro h; rw [h] at hn; simp at hn
  have h3 : c.command.variable_ ≠ H.CMD_DATA_LOG := by
    rw [hv]; intro h; rw [h] at hn; simp at hn
  have h4 : c.command.variable_ ≠ H.CMD_DATA_LOG_PERIOD := by
    rw [hv]; intro h; rw [h] at hn; simp at hn
  have hd : c.command.isTypeDefined H = false := by
    simp [LoggerCommand.isTypeDefined, hu]
  unfold parseCommand
  simp only [parseLocked_pass H c h1 hl, parseStateLogging_pass H c h2,
    parseDataLogging_pass H c h3, parseDataLoggingPeriod_pass H c h4, hd, hp, ↓reduceIte,
    Bool.false_eq_true]

/-- C15: on an unlocked controller the reset command with the state sub-selector returns
success and leaves a stored record of version 0 (the other fields as they were in memory);
a freshly constructed controller with any default version other than 0 that then runs
`loadState(false)` fails to restore and ends with its defaults in memory and in storage. -/
theorem reset_state_marks_for_default_reset (H : Headers D) (env : Cloud)
    (c : LoggerController D) (s : Text) (hH : H.WellFormed)
    (hne : H.CMD_RESET_STATE ≠ H.CMD_RESET_DATA) (hl : c.state.locked = false)
    (hv : variableOf H s = H.CMD_RESET) (hval : valueOf H s = H.CMD_RESET_STATE) :
    (receiveCommand H env c s).1 = H.CMD_RET_SUCCESS ∧
    (receiveCommand H env c s).2.eeprom = { c.state with version := 0 } ∧
    (receiveCommand H env c s).2.eeprom.version = 0 ∧
    ∀ (version : Text) (defaults : LoggerControllerState) (hook : Int → Int → Bool),
      defaults.version ≠ 0 →
      (restoreState (new H version defaults (receiveCommand H env c s).2.eeprom hook)).1
        = false ∧
      (loadState (new H version defaults (receiveCommand H env c s).2.eeprom hook) false).state
        = defaults ∧
      (loadState (new H version defaults (receiveCommand H env c s).2.eeprom hook) false).eeprom
        = defaults := by
  have e := receiveCommand_eq H env c s
  have p := parseReset_state H { c with command := (LoggerCommand.load H s).extractVariable }
    hH.1 hne hv hval
  rw [parseCommand_reset H { c with command := (LoggerCommand.load H s).extractVariable }
    hH hv hl rfl p.1] at e
  have hret : (receiveCommand H env c s).1 = H.CMD_RET_SUCCESS := by
    rw [e.2.2.2, p.2.1]; simp [hH.1]
  have hee : (receiveCommand H env c s).2.eeprom = { c.state with version := 0 } :=
    e.2.1.trans p.2.2.2.1
  refine ⟨hret, hee, by rw [hee], fun version defaults hook hd => ?_⟩
  have hver : (new H version defaults (receiveCommand H env c s).2.eeprom hook :
      LoggerController D).eeprom.version
      ≠ (new H version defaults (receiveCommand H env c s).2.eeprom hook :
        LoggerController D).state.version := by
    show (receiveCommand H env c s).2.eeprom.version ≠ defaults.version
    rw [hee]; exact fun h => hd h.symm
  unfold loadState
  rw [restoreState_of_ne _ hver]
  exact ⟨rfl, rfl, rfl⟩

/-- C15 at a concrete input: `reset state` on the controller of the instance returns
`Success` (0) and stores a record of version 0. -/
theorem reset_state_marks_for_default_reset_witness :
    (receiveCommand demoHeaders demoCloud (demoController []) "reset state".data).1 = 0 ∧
    (receiveCommand demoHeaders demoCloud (demoController [])
      "reset state".data).2.eeprom.version = 0 ∧
    (loadState (new demoHeaders "demo".data demoState
      (receiveCommand demoHeaders demoCloud
        { demoController [] with state := { demoState with data_logging_period := 99 },
                                 eeprom := { demoState with data_logging_period := 99 } }
        "reset state".data).2.eeprom isDataLoggingPeriodValid_base) false).state
      = demoState :=
  have h := reset_state_marks_for_default_reset demoHeaders demoCloud (demoController [])
    "reset state".data (by decide) (by decide) (by decide) (by decide) (by decide)
  ⟨h.1, h.2.2.1, by decide⟩

/-! ## Due check -/

/-- C13, as stated, fails: with a stored period of 4320000 seconds (1200 hours) by time,
`last_data_log = 0` and the clock at 30000000 milliseconds, the elapsed 30000 seconds do not
exceed the period, yet `isTimeForDataLogAndClear` returns true: `period * 1000` does not fit
32 bits.  With a stored period of -1 second and 5 seconds elapsed it returns false. -/
theorem due_check_wraps :
    ¬ (30000000 - 0 > 4320000 * 1000) ∧
    isTimeForDataLogAndClear demoHeaders { demoCloud with millis := 30000000 }
      { demoController [] with
        state := { demoState with data_logging_period := 4320000 } } = some true ∧
    ((5000 : Int) - 0 > -1 * 1000) ∧
    isTimeForDataLogAndClear demoHeaders { demoCloud with millis := 5000 }
      { demoController [] with
        state := { demoState with data_logging_period := -1 } } = some false := by
  decide

/-- C13, amended: for every stored logging period that is not negative and whose thousandfold
fits a 32-bit `int`, and every clock value of the 32-bit millisecond clock,
`isTimeForDataLogAndClear` returns true, when the type is by time, exactly when the time
elapsed since `last_data_log` (modulo the wrap-around of the clock) exceeds
`data_logging_period * 1000` milliseconds, strictly; for every stored period, when the type
is by event, exactly when the first data series has at least `data_logging_period` samples;
and for any other type it returns false. -/
theorem due_check (H : Headers D) (env : Cloud) (c : LoggerController D)
    (hT : H.LOG_BY_TIME ≠ H.LOG_BY_EVENT) :
    (c.state.data_logging_type = H.LOG_BY_TIME →
      0 ≤ c.state.data_logging_period → c.state.data_logging_period * 1000 ≤ INT_MAX →
      env.millis < SIZE_MOD → c.last_data_log < SIZE_MOD →
      (c.last_data_log ≤ env.millis →
        isTimeForDataLogAndClear H env c = some (decide
          (((env.millis - c.last_data_log : Nat) : Int) > c.state.data_logging_period * 1000)))
      ∧ (env.millis < c.last_data_log →
        isTimeForDataLogAndClear H env c = some (decide
          (((env.millis + SIZE_MOD - c.last_data_log : Nat) : Int)
            > c.state.data_logging_period * 1000)))) ∧
    (c.state.data_logging_type = H.LOG_BY_EVENT →
      ∀ (d : D) (ds : List D), c.data = d :: ds →
        isTimeForDataLogAndClear H env c
          = some (decide (H.getN d ≥ c.state.data_logging_period))) ∧
    (c.state.data_logging_type ≠ H.LOG_BY_TIME → c.state.data_logging_type ≠ H.LOG_BY_EVENT →
      isTimeForDataLogAndClear H env c = some false) := by
  refine ⟨fun ht h0 h1 hm hl => ?_, fun he d ds hd => ?_, fun h1 h2 => ?_⟩
  · have hp : toInt32 (c.state.data_logging_period * 1000) % (SIZE_MOD : Int)
        = c.state.data_logging_period * 1000 := by
      rw [toInt32_of_range _ (by unfold INT_MIN; omega) h1]
      unfold INT_MAX at h1
      unfold SIZE_MOD
      omega
    unfold isTimeForDataLogAndClear
    simp only [ht, ↓reduceIte, hp]
    constructor
    · intro hle
      have : (env.millis % SIZE_MOD + SIZE_MOD - c.last_data_log % SIZE_MOD) % SIZE_MOD
          = env.millis - c.last_data_log := by
        rw [Nat.mod_eq_of_lt hm, Nat.mod_eq_of_lt hl]
        unfold SIZE_MOD at *
        omega
      rw [this]
      split_ifs with h <;> simp [h]
    · intro hlt
      have : (env.millis % SIZE_MOD + SIZE_MOD - c.last_data_log % SIZE_MOD) % SIZE_MOD
          = env.millis + SIZE_MOD - c.last_data_log := by
        rw [Nat.mod_eq_of_lt hm, Nat.mod_eq_of_lt hl]
        unfold SIZE_MOD at *
        omega
      rw [this]
      split_ifs with h <;> simp [h]
  · have hne : c.state.data_logging_type ≠ H.LOG_BY_TIME := by rw [he]; exact hT.symm
    unfold isTimeForDataLogAndClear getNumberDataPoints
    rw [if_neg hne, if_pos he, hd]
    simp only [List.head?_cons, Option.map_some']
    by_cases h : H.getN d ≥ c.state.data_logging_period
    · rw [if_pos h, decide_eq_true h]
    · rw [if_neg h, decide_eq_false h]
  · unfold isTimeForDataLogAndClear
    simp only [h1, h2, ↓reduceIte]

/-- C13, amended, at concrete inputs: with a period of 10 seconds by time the check is false
10000 milliseconds after the last log and true one millisecond later. -/
theorem due_check_witness :
    isTimeForDataLogAndClear demoHeaders { demoCloud with millis := 10500 }
      { demoController [] with last_data_log := 500 } = some false ∧
    isTimeForDataLogAndClear demoHeaders { demoCloud with millis := 10501 }
      { demoController [] with last_data_log := 500 } = some true :=
  ⟨((due_check demoHeaders { demoCloud with millis := 10500 }
      { demoController [] with last_data_log := 500 } (by decide)).1 (by decide) (by decide)
      (by decide) (by decide) (by decide)).1 (by decide),
   ((due_check demoHeaders { demoCloud with millis := 10501 }
      { demoController [] with last_data_log := 500 } (by decide)).1 (by decide) (by decide)
      (by decide) (by decide) (by decide)).1 (by decide)⟩

/-! ## The state report -/

theorem addToLoggerStateVariableBuffer_eq (H : Headers D) (c : LoggerController D)
    (info : Text) :
    addToLoggerStateVariableBuffer H c info
      = { c with state_variable_buffer :=
            stateVariableBuffer_add H c.state_variable_buffer info } := by
  unfold addToLoggerStateVariableBuffer stateVariableBuffer_add
  split_ifs <;> rfl

theorem foldl_addToLoggerStateVariableBuffer_eq (H : Headers D) (infos : List Text) :
    ∀ c : LoggerController D,
      infos.foldl (addToLoggerStateVariableBuffer H) c
        = { c with state_variable_buffer :=
              infos.foldl (stateVariableBuffer_add H) c.state_variable_buffer } := by
  induction infos with
  | nil => intro c; rfl
  | cons x xs ih =>
    intro c
    rw [List.foldl_cons, ih, addToLoggerStateVariableBuffer_eq]
    rfl

theorem foldl_components_eq (H : Headers D) (comps : List LoggerComponent) :
    ∀ c : LoggerController D,
      comps.foldl
        (fun c comp =>
          comp.assembleLoggerStateVariable.foldl (addToLoggerStateVariableBuffer H) c) c
        = { c with state_variable_buffer :=
              (List.foldl (stateVariableBuffer_add H) c.state_variable_buffer
                (comps.map (fun comp => comp.assembleLoggerStateVariable)).flatten) } := by
  induction comps with
  | nil => intro c; rfl
  | cons x xs ih =>
    intro c
    rw [List.foldl_cons, ih, foldl_addToLoggerStateVariableBuffer_eq, List.map_cons,
      List.flatten_cons, List.foldl_append]

theorem assembleLoggerStateVariable_eq (H : Headers D) (c : LoggerController D) :
    assembleLoggerStateVariable H c
      = { c with state_variable_buffer :=
            (List.foldl (stateVariableBuffer_add H) c.state_variable_buffer
              [H.getStateLockedText c.state.locked 60,
                H.getStateStateLoggingText c.state.state_logging 60,
                H.getStateDataLoggingText c.state.data_logging 60,
                H.getStateDataLoggingPeriodText c.state.data_logging_period
                  c.state.data_logging_type 60]) } := by
  unfold assembleLoggerStateVariable
  rw [addToLoggerStateVariableBuffer_eq, addToLoggerStateVariableBuffer_eq,
    addToLoggerStateVariableBuffer_eq, addToLoggerStateVariableBuffer_eq]
  rfl

theorem postLoggerStateVariable_eq (H : Headers D) (env : Cloud) (c : LoggerController D)
    (b : Text) :
    postLoggerStateVariable H env { c with state_variable_buffer := b } =
      if env.connected then
        { c with
          state_variable_buffer := b,
          date_time_buffer := env.date_time.take 24,
          state_variable :=
            (snprintf H.STATE_INFO_MAX_CHAR
              ("\x7b\"dt\":\"".data ++ env.date_time.take 24 ++ "\",\"version\":\"".data
                ++ c.version ++ "\",\"mac\":\"".data ++ hex02 (c.mac_address.getD 0 0)
                ++ ":".data ++ hex02 (c.mac_address.getD 1 0) ++ ":".data
                ++ hex02 (c.mac_address.getD 2 0) ++ ":".data
                ++ hex02 (c.mac_address.getD 3 0) ++ ":".data
                ++ hex02 (c.mac_address.getD 4 0) ++ ":".data
                ++ hex02 (c.mac_address.getD 5 0) ++ "\",\"s\":[".data ++ b
                ++ "]\x7d".data)).1 }
      else { c with state_variable_buffer := b } := by
  unfold postLoggerStateVariable
  split_ifs <;> rfl

/-- The buffer that `updateLoggerStateVariable` assembles and the report it posts. -/
theorem updateLoggerStateVariable_eq (H : Headers D) (env : Cloud) (c : LoggerController D) :
    updateLoggerStateVariable H env c =
      if env.connected then
        { c with
          state_variable_buffer := (stateFragments H c).foldl (stateVariableBuffer_add H) [],
          date_time_buffer := env.date_time.take 24,
          state_variable := stateReport H c (env.date_time.take 24) }
      else
        { c with
          state_variable_buffer :=
            (stateFragments H c).foldl (stateVariableBuffer_add H) [] } := by
  have hb : ∀ k : LoggerController D,
      assembleLoggerComponentsStateVariable H (assembleLoggerStateVariable H
        { k with state_variable_buffer := [] })
      = { k with state_variable_buffer :=
            (stateFragments H k).foldl (stateVariableBuffer_add H) [] } := by
    intro k
    unfold assembleLoggerComponentsStateVariable
    rw [foldl_components_eq, assembleLoggerStateVariable_eq]
    unfold stateFragments
    rw [List.foldl_append]
  unfold updateLoggerStateVariable
  dsimp only
  rw [hb, postLoggerStateVariable_eq]
  rfl

/-- C16: with the cloud connected, `updateLoggerStateVariable` called twice with no state
mutation in between yields the same `state_variable` text except for the embedded time
stamp: each call rebuilds the buffer from empty and posts the report of the controller with
the time stamp of that call, so the two texts are equal when the time stamps are. -/
theorem state_report_idempotent (H : Headers D) (env1 env2 : Cloud) (c : LoggerController D)
    (h1 : env1.connected = true) (h2 : env2.connected = true) :
    (updateLoggerStateVariable H env1 c).state_variable
      = stateReport H c (env1.date_time.take 24) ∧
    (updateLoggerStateVariable H env2 (updateLoggerStateVariable H env1 c)).state_variable
      = stateReport H c (env2.date_time.take 24) ∧
    (updateLoggerStateVariable H env2 (updateLoggerStateVariable H env1 c)).state_variable_buffer
      = (updateLoggerStateVariable H env1 c).state_variable_buffer ∧
    (env1.date_time.take 24 = env2.date_time.take 24 →
      (updateLoggerStateVariable H env2 (updateLoggerStateVariable H env1 c)).state_variable
        = (updateLoggerStateVariable H env1 c).state_variable) := by
  have e1 := updateLoggerStateVariable_eq H env1 c
  have e2 := updateLoggerStateVariable_eq H env2 (updateLoggerStateVariable H env1 c)
  rw [if_pos h1] at e1
  rw [if_pos h2] at e2
  have hf : stateFragments H (updateLoggerStateVariable H env1 c) = stateFragments H c := by
    rw [e1]; rfl
  have hr : ∀ dt, stateReport H (updateLoggerStateVariable H env1 c) dt = stateReport H c dt := by
    intro dt; rw [e1]; rfl
  have s1 : (updateLoggerStateVariable H env1 c).state_variable
      = stateReport H c (env1.date_time.take 24) := by rw [e1]
  have s2 : (updateLoggerStateVariable H env2
      (updateLoggerStateVariable H env1 c)).state_variable
      = stateReport H c (env2.date_time.take 24) := by rw [e2]; exact hr _
  refine ⟨s1, s2, ?_, fun ht => ?_⟩
  · rw [e2]
    show List.foldl (stateVariableBuffer_add H) []
      (stateFragments H (updateLoggerStateVariable H env1 c)) = _
    rw [hf, e1]
  · rw [s1, s2, ht]

/-- C16 at a concrete input: two reports of the controller of the instance with its two
components, taken at different times, differ only in the time stamp. -/
theorem state_report_idempotent_witness :
    (updateLoggerStateVariable demoHeaders demoCloud demoWithComponents).state_variable
      = "\x7b\"dt\":\"2020-01-01 00:00:00 UTC\",\"version\":\"demo\",\"mac\":\"00:00:00:00:00:00\",\"s\":[L0,S0,D0,P10s,R1]\x7d".data ∧
    (updateLoggerStateVariable demoHeaders demoLateCloud
      (updateLoggerStateVariable demoHeaders demoCloud demoWithComponents)).state_variable
      = "\x7b\"dt\":\"2020-01-15 00:00:00 UTC\",\"version\":\"demo\",\"mac\":\"00:00:00:00:00:00\",\"s\":[L0,S0,D0,P10s,R1]\x7d".data :=
  have h := state_report_idempotent demoHeaders demoCloud demoLateCloud demoWithComponents
    (by decide) (by decide)
  ⟨h.1.trans (by decide), h.2.1.trans (by decide)⟩

/-! ## The order of the dispatch chain -/

theorem parseComponentsCommand_trace_snd (comps : List LoggerComponent) :
    ∀ (i : Nat) (cmd : LoggerCommand),
      (parseComponentsCommand_trace i comps cmd).2 = parseComponentsCommand_loop comps cmd := by
  induction comps with
  | nil => intro i cmd; rfl
  | cons x xs ih =>
    intro i cmd
    unfold parseComponentsCommand_trace parseComponentsCommand_loop
    dsimp only
    split_ifs
    · rfl
    · exact ih _ _

theorem parseCommand_trace_snd (H : Headers D) (c : LoggerController D) :
    (parseCommand_trace H c).2 = parseCommand H c := by
  unfold parseCommand_trace parseCommand parseComponentsCommand
  dsimp only
  split_ifs <;> first | rfl | rw [parseComponentsCommand_trace_snd]

theorem firstClaimWins_claim (h : Handler) (order : List Handler) :
    FirstClaimWins (h :: order) [(h, true)] := by
  refine ⟨⟨order, rfl, fun hf => ?_⟩, fun e he => by cases he⟩
  have := hf (h, true) (List.mem_singleton.mpr rfl)
  cases this

theorem firstClaimWins_pass (h : Handler) (order : List Handler) (t : List (Handler × Bool))
    (ht : FirstClaimWins order t) : FirstClaimWins (h :: order) ((h, false) :: t) := by
  obtain ⟨⟨rest, h1, h2⟩, h3⟩ := ht
  refine ⟨⟨rest, by rw [List.map_cons, List.cons_append, h1],
    fun hf => h2 (fun e he => hf e (List.mem_cons_of_mem _ he))⟩, fun e he => ?_⟩
  cases t with
  | nil => cases he
  | cons a t =>
    rw [List.dropLast_cons₂] at he
    rcases List.mem_cons.mp he with e1 | e1
    · rw [e1]
    · exact h3 e e1

theorem firstClaimWins_nil : FirstClaimWins [] [] :=
  ⟨⟨[], rfl, fun _ => rfl⟩, fun e he => by cases he⟩

theorem parseComponentsCommand_trace_order (comps : List LoggerComponent) :
    ∀ (i : Nat) (cmd : LoggerCommand),
      FirstClaimWins ((List.range' i comps.length).map Handler.component)
        (parseComponentsCommand_trace i comps cmd).1 := by
  induction comps with
  | nil => intro i cmd; exact firstClaimWins_nil
  | cons x xs ih =>
    intro i cmd
    rw [List.length_cons, List.range'_succ, List.map_cons]
    unfold parseComponentsCommand_trace
    dsimp only
    split_ifs
    · exact firstClaimWins_claim _ _
    · exact firstClaimWins_pass _ _ _ (ih (i + 1) _)

theorem changeLocked_components (c : LoggerController D) (b : Bool) :
    (changeLocked c b).2.components = c.components := by
  rw [changeLocked_eq]; split_ifs <;> rfl

theorem changeStateLogging_components (c : LoggerController D) (b : Bool) :
    (changeStateLogging c b).2.components = c.components := by
  rw [changeStateLogging_eq]; split_ifs <;> rfl

theorem changeDataLogging_components (H : Headers D) (c : LoggerController D) (b : Bool) :
    (changeDataLogging H c b).2.components = c.components := by
  rw [changeDataLogging_eq]; split_ifs <;> rfl

theorem changeDataLoggingPeriod_components (c : LoggerController D) (p t : Int) :
    (changeDataLoggingPeriod c p t).2.components = c.components := by
  rw [changeDataLoggingPeriod_eq]; split_ifs <;> rfl

theorem parseLocked_components (H : Headers D) (c : LoggerController D) :
    (parseLocked H c).2.components = c.components := by
  unfold parseLocked
  dsimp only
  split_ifs
  · exact changeLocked_components { c with command := c.command.extractValue } true
  · exact changeLocked_components { c with command := c.command.extractValue } false
  · rfl
  · rfl
  · rfl

theorem parseStateLogging_components (H : Headers D) (c : LoggerController D) :
    (parseStateLogging H c).2.components = c.components := by
  unfold parseStateLogging
  dsimp only
  split_ifs
  · exact changeStateLogging_components { c with command := c.command.extractValue } true
  · exact changeStateLogging_components { c with command := c.command.extractValue } false
  · rfl
  · rfl

theorem parseDataLogging_components (H : Headers D) (c : LoggerController D) :
    (parseDataLogging H c).2.components = c.components := by
  unfold parseDataLogging
  dsimp only
  split_ifs
  · exact changeDataLogging_components H { c with command := c.command.extractValue } true
  · exact changeDataLogging_components H { c with command := c.command.extractValue } false
  · rfl
  · rfl

theorem parseDataLoggingPeriod_components (H : Headers D) (c : LoggerController D) :
    (parseDataLoggingPeriod H c).2.components = c.components := by
  unfold parseDataLoggingPeriod
  dsimp only
  split_ifs <;>
    first
    | rfl
    | exact changeDataLoggingPeriod_components
        { c with command := (parseDataLoggingPeriod_units H c.command.extractValue.extractUnits
            (atoi c.command.extractValue.value)).2.2 } _ _

theorem parseReset_components (H : Headers D) (c : LoggerController D) :
    (parseReset H c).2.components = c.components := by
  unfold parseReset
  dsimp only
  split_ifs <;> rfl

/-- The record of `parseCommand_trace` follows the fixed order and stops at the first claim. -/
theorem parseCommand_trace_order (H : Headers D) (c : LoggerController D) :
    FirstClaimWins (chainOrder c.components.length) (parseCommand_trace H c).1 := by
  have hc : (parseReset H (parseDataLoggingPeriod H (parseDataLogging H
      (parseStateLogging H (parseLocked H c).2).2).2).2).2.components = c.components := by
    rw [parseReset_components, parseDataLoggingPeriod_components, parseDataLogging_components,
      parseStateLogging_components, parseLocked_components]
  unfold parseCommand_trace chainOrder
  dsimp only
  split_ifs
  · exact firstClaimWins_claim _ _
  · exact firstClaimWins_pass _ _ _ (firstClaimWins_claim _ _)
  · exact firstClaimWins_pass _ _ _ (firstClaimWins_pass _ _ _ (firstClaimWins_claim _ _))
  · exact firstClaimWins_pass _ _ _ (firstClaimWins_pass _ _ _
      (firstClaimWins_pass _ _ _ (firstClaimWins_claim _ _)))
  · exact firstClaimWins_pass _ _ _ (firstClaimWins_pass _ _ _
      (firstClaimWins_pass _ _ _ (firstClaimWins_pass _ _ _ (firstClaimWins_claim _ _))))
  · rw [hc, List.range_eq_range']
    exact firstClaimWins_pass _ _ _ (firstClaimWins_pass _ _ _
      (firstClaimWins_pass _ _ _ (firstClaimWins_pass _ _ _ (firstClaimWins_pass _ _ _
        (parseComponentsCommand_trace_order _ _ _)))))

theorem parseComponentsCommand_trace_unclaimed (H : Headers D) (comps : List LoggerComponent) :
    ∀ (i : Nat) (cmd : LoggerCommand), cmd.ret_val = H.CMD_RET_UNDEFINED →
      (∀ comp ∈ comps, ComponentContract H comp) →
      (∀ e ∈ (parseComponentsCommand_trace i comps cmd).1, e.2 = false) →
      (parseComponentsCommand_trace i comps cmd).2.ret_val = H.CMD_RET_UNDEFINED := by
  induction comps with
  | nil => intro i cmd hu _ _; exact hu
  | cons x xs ih =>
    intro i cmd hu hc hf
    unfold parseComponentsCommand_trace at hf ⊢
    dsimp only at hf ⊢
    by_cases h : (x.parseCommand cmd).1 = true
    · rw [if_pos h] at hf
      have := hf (Handler.component i, true) (List.mem_singleton.mpr rfl)
      cases this
    · rw [if_neg h] at hf
      rw [if_neg h]
      have hx := hc x (List.mem_cons_self _ _) cmd hu (by simpa using h)
      exact ih (i + 1) _ hx (fun comp hcomp => hc comp (List.mem_cons_of_mem _ hcomp))
        (fun e he => hf e (List.mem_cons_of_mem _ he))

theorem handler_flag_false (H : Headers D) (r : Bool × LoggerController D)
    (hr : r.1 = r.2.command.isTypeDefined H) (h : ¬ r.1 = true) :
    r.2.command.ret_val = H.CMD_RET_UNDEFINED := by
  rw [hr] at h
  simpa [LoggerCommand.isTypeDefined] using h

/-- When no handler of the chain claims the command, it is left without a result. -/
theorem parseCommand_unclaimed (H : Headers D) (c : LoggerController D)
    (hc : ∀ comp ∈ c.components, ComponentContract H comp)
    (hf : ∀ e ∈ (parseCommand_trace H c).1, e.2 = false) :
    (parseCommand H c).command.ret_val = H.CMD_RET_UNDEFINED := by
  have hcomp : (parseReset H (parseDataLoggingPeriod H (parseDataLogging H
      (parseStateLogging H (parseLocked H c).2).2).2).2).2.components = c.components := by
    rw [parseReset_components, parseDataLoggingPeriod_components, parseDataLogging_components,
      parseStateLogging_components, parseLocked_components]
  rw [← parseCommand_trace_snd]
  unfold parseCommand_trace at hf ⊢
  dsimp only at hf ⊢
  by_cases h1 : (parseLocked H c).1 = true
  · rw [if_pos h1] at hf
    have := hf _ (List.mem_singleton.mpr rfl)
    cases this
  rw [if_neg h1] at hf
  rw [if_neg h1]
  by_cases h2 : (parseStateLogging H (parseLocked H c).2).1 = true
  · rw [if_pos h2] at hf
    have := hf (Handler.stateLogging, true) (by simp)
    cases this
  rw [if_neg h2] at hf
  rw [if_neg h2]
  by_cases h3 : (parseDataLogging H (parseStateLogging H (parseLocked H c).2).2).1 = true
  · rw [if_pos h3] at hf
    have := hf (Handler.dataLogging, true) (by simp)
    cases this
  rw [if_neg h3] at hf
  rw [if_neg h3]
  by_cases h4 : (parseDataLoggingPeriod H (parseDataLogging H
      (parseStateLogging H (parseLocked H c).2).2).2).1 = true
  · rw [if_pos h4] at hf
    have := hf (Handler.dataLoggingPeriod, true) (by simp)
    cases this
  rw [if_neg h4] at hf
  rw [if_neg h4]
  by_cases h5 : (parseReset H (parseDataLoggingPeriod H (parseDataLogging H
      (parseStateLogging H (parseLocked H c).2).2).2).2).1 = true
  · rw [if_pos h5] at hf
    have := hf (Handler.reset, true) (by simp)
    cases this
  rw [if_neg h5] at hf
  rw [if_neg h5]
  have hu := handler_flag_false H _ rfl h5
  apply parseComponentsCommand_trace_unclaimed H _ 0 _ hu
  · rw [hcomp]; exact hc
  · intro e he
    exact hf e (List.mem_append_right _ he)

theorem firstMatchWins_cons {S : Type} (h : Handler × (S → Bool × S))
    (rest : List (Handler × (S → Bool × S))) (s : S) :
    firstMatchWins (h :: rest) s =
      if (h.2 s).1 then ([(h.1, true)], (h.2 s).2)
      else ((h.1, false) :: (firstMatchWins rest (h.2 s).2).1,
        (firstMatchWins rest (h.2 s).2).2) := rfl

theorem firstMatchWins_componentHandlers (comps : List LoggerComponent) :
    ∀ (i : Nat) (k : LoggerController D),
      firstMatchWins (componentHandlers i comps) k
        = ((parseComponentsCommand_trace i comps k.command).1,
            { k with command := (parseComponentsCommand_trace i comps k.command).2 }) := by
  induction comps with
  | nil => intro i k; rfl
  | cons x xs ih =>
    intro i k
    unfold componentHandlers parseComponentsCommand_trace
    rw [firstMatchWins_cons]
    dsimp only
    by_cases h : (x.parseCommand k.command).1 = true
    · rw [if_pos h, if_pos h]
    · rw [if_neg h, if_neg h, ih]

theorem componentHandlers_order (comps : List LoggerComponent) :
    ∀ i : Nat, (componentHandlers i comps :
        List (Handler × (LoggerController D → Bool × LoggerController D))).map Prod.fst
      = (List.range' i comps.length).map Handler.component := by
  induction comps with
  | nil => intro i; rfl
  | cons x xs ih =>
    intro i
    unfold componentHandlers
    rw [List.map_cons, ih, List.length_cons, List.range'_succ, List.map_cons]

theorem dispatchChain_order (H : Headers D) (comps : List LoggerComponent) :
    (dispatchChain H comps).map Prod.fst = chainOrder comps.length := by
  unfold dispatchChain chainOrder
  rw [List.map_append, componentHandlers_order, List.range_eq_range']
  rfl

/-- The member `parseCommand`, with the record of the handlers it invokes, is the chain in
which the first match wins, over the handlers in their fixed order. -/
theorem parseCommand_trace_eq (H : Headers D) (c : LoggerController D) :
    parseCommand_trace H c = firstMatchWins (dispatchChain H c.components) c := by
  have hc : (parseReset H (parseDataLoggingPeriod H (parseDataLogging H
      (parseStateLogging H (parseLocked H c).2).2).2).2).2.components = c.components := by
    rw [parseReset_components, parseDataLoggingPeriod_components, parseDataLogging_components,
      parseStateLogging_components, parseLocked_components]
  unfold parseCommand_trace dispatchChain
  simp only [List.cons_append, List.nil_append, firstMatchWins_cons]
  rw [firstMatchWins_componentHandlers, hc]
  split_ifs <;> rfl

/-- C11, as stated, fails: with the component `demoSilent` registered, which gives a command
the result `Success` and returns false, the command `foo 0` goes through the whole chain and
no handler claims it, yet `receiveCommand` returns `Success` (0) and not `UnknownCommand`
(-3): `receiveCommand` marks the error when the command is still without a result, not when
every handler returned false. -/
theorem unclaimed_command_keeps_result :
    (firstMatchWins
      (dispatchChain demoHeaders
        (addComponents demoHeaders (demoController []) [demoSilent]).components)
      { addComponents demoHeaders (demoController []) [demoSilent] with
        command := (LoggerCommand.load demoHeaders "foo 0".data).extractVariable }).1
      = [(Handler.locked, false), (Handler.stateLogging, false), (Handler.dataLogging, false),
          (Handler.dataLoggingPeriod, false), (Handler.reset, false),
          (Handler.component 0, false)] ∧
    (receiveCommand demoHeaders demoCloud
      (addComponents demoHeaders (demoController []) [demoSilent]) "foo 0".data).1
      = demoHeaders.CMD_RET_SUCCESS ∧
    demoHeaders.CMD_RET_SUCCESS ≠ demoHeaders.CMD_RET_ERR_CMD := by
  decide

/-- C11, amended: `parseCommand` is the chain in which the first match wins over the handlers
in the fixed order lock, state logging, data logging, logging period, reset and then the
command handlers of the registered components in registration order: each handler gets the
controller as the handlers before it left it, the first one that claims the command is the
last one invoked, and when none claims it all of them were invoked.  `receiveCommand` returns
the `UnknownCommand` error whenever the chain leaves the command without a result, which is
so when no handler claimed it and every component keeps to the contract that a handler which
does not claim a command leaves it without a result. -/
theorem dispatch_chain_order (H : Headers D) (env : Cloud) (c : LoggerController D)
    (s : Text) :
    parseCommand H c = (firstMatchWins (dispatchChain H c.components) c).2 ∧
    (dispatchChain H c.components).map Prod.fst = chainOrder c.components.length ∧
    FirstClaimWins (chainOrder c.components.length)
      (firstMatchWins (dispatchChain H c.components) c).1 ∧
    ((parseCommand H
        { c with command := (LoggerCommand.load H s).extractVariable }).command.ret_val
        = H.CMD_RET_UNDEFINED →
      (receiveCommand H env c s).1 = H.CMD_RET_ERR_CMD) ∧
    ((∀ comp ∈ c.components, ComponentContract H comp) →
      (∀ e ∈ (firstMatchWins (dispatchChain H c.components)
          { c with command := (LoggerCommand.load H s).extractVariable }).1, e.2 = false) →
      (receiveCommand H env c s).1 = H.CMD_RET_ERR_CMD) := by
  have e := receiveCommand_eq H env c s
  refine ⟨?_, dispatchChain_order H c.components, ?_, fun hu => ?_, fun hc hf => ?_⟩
  · rw [← parseCommand_trace_eq, parseCommand_trace_snd]
  · rw [← parseCommand_trace_eq]
    exact parseCommand_trace_order H c
  · rw [e.2.2.2, if_pos hu]
  · have ht := parseCommand_trace_eq H
      { c with command := (LoggerCommand.load H s).extractVariable }
    have hu := parseCommand_unclaimed H
      { c with command := (LoggerCommand.load H s).extractVariable } hc
      (by rw [ht]; exact hf)
    rw [e.2.2.2, if_pos hu]

/-- C11 at concrete inputs: with two components registered, `reads 0` goes through the five
handlers of the controller and the first component and is claimed by the second, which ends
the chain with its result, and `foo 0` is claimed by no handler and returns `UnknownCommand`
(-3). -/
theorem dispatch_chain_order_witness :
    (firstMatchWins (dispatchChain demoHeaders demoWithComponents.components)
      { demoWithComponents with
        command := (LoggerCommand.load demoHeaders "reads 0".data).extractVariable }).1
      = [(Handler.locked, false), (Handler.stateLogging, false), (Handler.dataLogging, false),
          (Handler.dataLoggingPeriod, false), (Handler.reset, false),
          (Handler.component 0, false), (Handler.component 1, true)] ∧
    (receiveCommand demoHeaders demoCloud demoWithComponents "reads 0".data).1 = -4 ∧
    (receiveCommand demoHeaders demoCloud demoWithComponents "foo 0".data).1 = -3 :=
  ⟨by decide, by decide,
    (dispatch_chain_order demoHeaders demoCloud demoWithComponents "foo 0".data).2.2.2.2
      (by
        intro comp hcomp
        have hm : comp = { demoComponent 8 with eeprom_start := 12 } ∨
            comp = { demoReads with eeprom_start := 20 } := by
          simpa [demoWithComponents, addComponents, addComponent, demoController, new,
            loadState, restoreState, demoHeaders, SIZE_MOD, demoComponent, demoReads,
            demoState] using hcomp
        rcases hm with rfl | rfl
        · intro cmd hu _; exact hu
        · intro cmd hu hfalse
          by_cases hv : cmd.parseVariable "reads".data = true
          · simp only [demoReads, hv, ↓reduceIte] at hfalse ⊢
            by_cases hp : atoi cmd.extractValue.value > 0
            · simp [hp, LoggerCommand.isTypeDefined, LoggerCommand.success,
                demoHeaders] at hfalse
            · simp [hp, LoggerCommand.isTypeDefined, LoggerCommand.errorValue,
                LoggerCommand.error, demoHeaders] at hfalse
          · simp only [demoReads, hv] at hfalse ⊢
            exact hu)
      (by decide)⟩

/-! ## The logging cycle -/

theorem reporting_lt (H : Headers D) (g : Bool) (ds : List D) :
    ∀ i : Nat, ∀ e ∈ reporting H g i ds, e.1 < i + ds.length := by
  induction ds with
  | nil => intro i e he; cases he
  | cons d ds ih =>
    intro i e he
    rw [reporting_cons] at he
    rw [List.length_cons]
    split_ifs at he
    · rcases List.mem_cons.mp he with h | h
      · subst h; show i < i + (ds.length + 1); omega
      · have := ih _ e h; omega
    · have := ih _ e he; omega

theorem pending_lt (H : Headers D) (g : Bool) (c : LoggerController D) :
    ∀ e ∈ pending H g c, e.1 < c.data.length := by
  intro e he
  unfold pending at he
  have := reporting_lt H g c.data 0 e (List.mem_filter.mp he).1
  omega

theorem lastIncluded_mem (t : List Nat) :
    ∀ w : Int, t ≠ [] → ∃ x ∈ t, lastIncluded t w = (x : Int) := by
  induction t with
  | nil => intro w h; exact absurd rfl h
  | cons a t ih =>
    intro w _
    rw [lastIncluded_cons]
    cases t with
    | nil => exact ⟨a, List.mem_cons_self _ _, rfl⟩
    | cons b t =>
      obtain ⟨x, hx, e⟩ := ih (a : Int) (List.cons_ne_nil _ _)
      exact ⟨x, List.mem_cons_of_mem _ hx, e⟩

theorem lastIncluded_max (t : List Nat) :
    ∀ w : Int, t.Pairwise (fun a b => a < b) → ∀ x ∈ t, (x : Int) ≤ lastIncluded t w := by
  induction t with
  | nil => intro w _ x hx; cases hx
  | cons a t ih =>
    intro w hs x hx
    rw [lastIncluded_cons]
    obtain ⟨h1, h2⟩ := List.pairwise_cons.mp hs
    rcases List.mem_cons.mp hx with e | e
    · rw [e]
      exact lastIncluded_ge t (a : Int) (fun y hy => by have := h1 y hy; omega)
    · exact ih (a : Int) h2 x e

theorem greedyChunk_ne_nil (budget : Nat) (es : List (Nat × Nat)) (h : es ≠ []) :
    greedyChunk budget es ≠ [] := by
  cases es with
  | nil => exact absurd rfl h
  | cons e es => exact List.cons_ne_nil _ _

theorem assembleDataLog_env (H : Headers D) (env env2 : Cloud) (c : LoggerController D)
    (g : Bool) (h : env.millis = env2.millis) :
    assembleDataLog H env c g = assembleDataLog H env2 c g := by
  unfold assembleDataLog
  rw [h]

theorem publishDataLog_snd (env : Cloud) (c : LoggerController D) :
    (publishDataLog env c).2 = c := by
  unfold publishDataLog
  split_ifs <;> rfl

theorem assembleDataLog_ok (H : Headers D) (env : Cloud) (c : LoggerController D) (g : Bool)
    (hw : -1 ≤ c.last_data_log_index) (h : (assembleDataLog H env c g).ok = true) :
    pending H g c ≠ [] := by
  obtain ⟨n, hn⟩ : ∃ n : Nat, c.last_data_log_index + 1 = (n : Int) :=
    ⟨(c.last_data_log_index + 1).toNat, by omega⟩
  rw [pending_eq_reporting H g c n hn]
  intro hp
  unfold assembleDataLog at h
  simp only [hn, Int.toNat_natCast] at h
  by_cases h1 : (n : Int) = (c.data.length : Int)
  · rw [if_pos h1] at h; cases h
  · rw [if_neg h1, if_neg (by omega)] at h
    have hs := assembleDataLog_first_spec H g (c.data.drop n) n
    split at h
    · cases h
    · rename_i j d rest heq
      rw [heq] at hs
      rw [hp] at hs
      cases hs.1

/-- What one call of `assembleDataLog` does to the watermark and the data vector. -/
theorem assembleDataLog_step (H : Headers D) (env : Cloud) (c : LoggerController D) (g : Bool)
    (hM : 50 ≤ H.DATA_LOG_MAX_CHAR) (hM2 : H.DATA_LOG_MAX_CHAR < SIZE_MOD)
    (hw : -1 ≤ c.last_data_log_index) :
    (assembleDataLog H env c g).ctrl.data.length = c.data.length ∧
    (assembleDataLog H env c g).included.Pairwise (fun a b => a < b) ∧
    (∀ x ∈ (assembleDataLog H env c g).included,
      c.last_data_log_index < (x : Int) ∧
      (x : Int) ≤ (assembleDataLog H env c g).ctrl.last_data_log_index) ∧
    c.last_data_log_index ≤ (assembleDataLog H env c g).ctrl.last_data_log_index ∧
    (c.last_data_log_index < (c.data.length : Int) →
      (assembleDataLog H env c g).ctrl.last_data_log_index < (c.data.length : Int)) ∧
    ((assembleDataLog H env c g).ok = true →
      (assembleDataLog H env c g).included ≠ [] ∧
      c.last_data_log_index < (assembleDataLog H env c g).ctrl.last_data_log_index) := by
  obtain ⟨s1, s2, s3⟩ := assembleDataLog_spec H env c g hM hM2 hw
  have htake := greedyChunk_eq_take (H.DATA_LOG_MAX_CHAR - 50) (pending H g c)
  rw [← s1] at htake
  have hmem : ∀ x ∈ (assembleDataLog H env c g).included,
      ∃ e ∈ pending H g c, e.1 = x := by
    intro x hx
    rw [htake] at hx
    obtain ⟨a, ha, rfl⟩ := List.mem_map.mp hx
    exact ⟨a, List.mem_of_mem_take ha, rfl⟩
  have hsorted : (assembleDataLog H env c g).included.Pairwise (fun a b => a < b) := by
    rw [htake, List.pairwise_map]
    exact List.Pairwise.sublist (List.take_sublist _ _) (pending_sorted H g c)
  have hgt : ∀ x ∈ (assembleDataLog H env c g).included, c.last_data_log_index < (x : Int) := by
    intro x hx
    obtain ⟨e, he, rfl⟩ := hmem x hx
    exact pending_gt H g c e he
  have hle : c.last_data_log_index ≤ (assembleDataLog H env c g).ctrl.last_data_log_index := by
    rw [s2]
    exact lastIncluded_ge _ _ (fun x hx => le_of_lt (hgt x hx))
  have hne : (assembleDataLog H env c g).included ≠ [] →
      c.last_data_log_index < (assembleDataLog H env c g).ctrl.last_data_log_index ∧
      (assembleDataLog H env c g).ctrl.last_data_log_index < (c.data.length : Int) := by
    intro hne
    obtain ⟨x, hx, e⟩ := lastIncluded_mem _ c.last_data_log_index hne
    rw [s2, e]
    obtain ⟨a, ha, rfl⟩ := hmem x hx
    have := pending_lt H g c a ha
    have := pending_gt H g c a ha
    constructor <;> omega
  have hlen : (assembleDataLog H env c g).ctrl.data.length = c.data.length :=
    (List.Forall₂.length_eq s3).symm
  refine ⟨hlen, hsorted, fun x hx => ⟨hgt x hx, ?_⟩, hle, fun hlt => ?_, fun hok => ?_⟩
  · rw [s2]; exact lastIncluded_max _ _ hsorted x hx
  · by_cases hne' : (assembleDataLog H env c g).included = []
    · rw [s2, hne', lastIncluded_nil]; exact hlt
    · exact (hne hne').2
  · have hp := assembleDataLog_ok H env c g hw hok
    have hinc : (assembleDataLog H env c g).included ≠ [] := by
      rw [s1]; exact greedyChunk_ne_nil _ _ hp
    exact ⟨hinc, (hne hinc).1⟩


theorem logData_loop_succ (H : Headers D) (envs : Nat → Cloud) (fuel k : Nat)
    (c : LoggerController D) :
    logData_loop H envs (fuel + 1) k c =
      if (assembleDataLog H (envs k) c true).ok then
        match logData_loop H envs fuel (k + 1)
          (publishDataLog (envs k) (assembleDataLog H (envs k) c true).ctrl).2 with
        | none => none
        | some cy =>
          some { cy with chunks :=
            { included := (assembleDataLog H (envs k) c true).included,
              watermark := (assembleDataLog H (envs k) c true).ctrl.last_data_log_index,
              data_log := (assembleDataLog H (envs k) c true).ctrl.data_log,
              success := (publishDataLog (envs k)
                (assembleDataLog H (envs k) c true).ctrl).1 } :: cy.chunks }
      else some { chunks := [], dropped := (assembleDataLog H (envs k) c true).included,
                  ctrl := (assembleDataLog H (envs k) c true).ctrl } := rfl

/-- The loop of `logData` ends within the passes allowed, every chunk is handed to
`publishDataLog` with the watermark at its last entry, and over the cycle the entries handed
to `addToDataLog` and the watermarks are strictly increasing. -/
theorem logData_loop_spec (H : Headers D) (envs : Nat → Cloud)
    (hM : 50 ≤ H.DATA_LOG_MAX_CHAR) (hM2 : H.DATA_LOG_MAX_CHAR < SIZE_MOD) (fuel : Nat) :
    ∀ (k : Nat) (c : LoggerController D), -1 ≤ c.last_data_log_index →
      c.last_data_log_index < (c.data.length : Int) →
      (c.data.length : Int) - (c.last_data_log_index + 1) < (fuel : Int) →
      ∃ cy, logData_loop H envs fuel k c = some cy ∧
        (∀ x ∈ cy.entries, c.last_data_log_index < (x : Int)) ∧
        cy.entries.Pairwise (fun a b => a < b) ∧
        (∀ p ∈ cy.chunks, p.included ≠ [] ∧ p.watermark = lastIncluded p.included (-1) ∧
          c.last_data_log_index < p.watermark) ∧
        (cy.chunks.map (fun p => p.watermark)).Pairwise (fun a b => a < b) := by
  induction fuel with
  | zero => intro k c _ h2 h3; exfalso; omega
  | succ fuel ih =>
    intro k c hw hlt hfuel
    obtain ⟨t1, t2, t3, t4, t5, t6⟩ := assembleDataLog_step H (envs k) c true hM hM2 hw
    obtain ⟨s1, s2, -⟩ := assembleDataLog_spec H (envs k) c true hM hM2 hw
    rw [logData_loop_succ]
    by_cases hok : (assembleDataLog H (envs k) c true).ok = true
    · rw [if_pos hok, publishDataLog_snd]
      obtain ⟨hne, hgt⟩ := t6 hok
      obtain ⟨cy, e, c1, c2, c3, c4⟩ := ih (k + 1) (assembleDataLog H (envs k) c true).ctrl
        (le_trans hw t4) (by rw [t1]; exact t5 hlt) (by rw [t1]; push_cast at hfuel ⊢; omega)
      rw [e]
      refine ⟨_, rfl, ?_, ?_, ?_, ?_⟩
      · intro x hx
        simp only [Cycle.entries, List.map_cons, List.flatten_cons, List.append_assoc,
          List.mem_append] at hx
        rcases hx with hx | hx
        · exact (t3 x hx).1
        · have := c1 x (by simp only [Cycle.entries, List.mem_append]; exact hx)
          omega
      · simp only [Cycle.entries, List.map_cons, List.flatten_cons, List.append_assoc]
        rw [List.pairwise_append]
        refine ⟨t2, c2, fun a ha b hb => ?_⟩
        have h1 := (t3 a ha).2
        have h2 := c1 b hb
        omega
      · intro p hp
        rcases List.mem_cons.mp hp with e1 | e1
        · subst e1
          refine ⟨hne, ?_, hgt⟩
          show (assembleDataLog H (envs k) c true).ctrl.last_data_log_index = _
          rw [s2]
          cases hinc : (assembleDataLog H (envs k) c true).included with
          | nil => exact absurd hinc hne
          | cons a t => rw [lastIncluded_cons, lastIncluded_cons]
        · obtain ⟨q1, q2, q3⟩ := c3 p e1
          exact ⟨q1, q2, by omega⟩
      · rw [List.map_cons, List.pairwise_cons]
        refine ⟨fun w hw' => ?_, c4⟩
        obtain ⟨p, hp, rfl⟩ := List.mem_map.mp hw'
        exact (c3 p hp).2.2
    · rw [if_neg hok]
      refine ⟨_, rfl, ?_, ?_, ?_, ?_⟩
      · intro x hx
        simp only [Cycle.entries, List.map_nil, List.flatten_nil, List.nil_append] at hx
        exact (t3 x hx).1
      · simp only [Cycle.entries, List.map_nil, List.flatten_nil, List.nil_append]
        exact t2
      · intro p hp; cases hp
      · exact List.Pairwise.nil

/-- When the cycle ends without running into the overflow guard, the chunks together hold
the pending reporting entries, each once and in index order. -/
theorem logData_loop_complete (H : Headers D) (envs : Nat → Cloud)
    (hM : 50 ≤ H.DATA_LOG_MAX_CHAR) (hM2 : H.DATA_LOG_MAX_CHAR < SIZE_MOD)
    (hR : Reassembles H false) (fuel : Nat) :
    ∀ (k : Nat) (c : LoggerController D) (cy : LoggerController.Cycle D),
      -1 ≤ c.last_data_log_index →
      logData_loop H envs fuel k c = some cy → cy.dropped = [] →
      (cy.chunks.map (fun p => p.included)).flatten = (pending H true c).map Prod.fst := by
  induction fuel with
  | zero => intro k c cy _ h; cases h
  | succ fuel ih =>
    intro k c cy hw h hd
    obtain ⟨s1, -, -⟩ := assembleDataLog_spec H (envs k) c true hM hM2 hw
    obtain ⟨p1, p2⟩ := pending_after H (envs k) c true hM hM2 hw hR
    have htake := greedyChunk_eq_take (H.DATA_LOG_MAX_CHAR - 50) (pending H true c)
    rw [← s1] at htake
    rw [logData_loop_succ] at h
    by_cases hok : (assembleDataLog H (envs k) c true).ok = true
    · rw [if_pos hok, publishDataLog_snd] at h
      cases hl : logData_loop H envs fuel (k + 1) (assembleDataLog H (envs k) c true).ctrl with
      | none => rw [hl] at h; cases h
      | some cy2 =>
        rw [hl] at h
        have hcy := Option.some.inj h
        rw [← hcy] at hd ⊢
        have := ih (k + 1) _ cy2 (le_trans hw p1) hl hd
        show (assembleDataLog H (envs k) c true).included
          ++ (cy2.chunks.map (fun p => p.included)).flatten = _
        rw [this, p2]
        have hsplit : (pending H true c).map Prod.fst
            = ((pending H true c).take
                (assembleDataLog H (envs k) c true).included.length).map Prod.fst
              ++ ((pending H true c).drop
                (assembleDataLog H (envs k) c true).included.length).map Prod.fst := by
          rw [← List.map_append, List.take_append_drop]
        rw [hsplit, ← htake]
    · rw [if_neg hok] at h
      have hcy := Option.some.inj h
      rw [← hcy] at hd ⊢
      have hnil : pending H true c = [] := by
        by_contra hne
        have : (assembleDataLog H (envs k) c true).included = [] := hd
        rw [s1] at this
        exact greedyChunk_ne_nil _ _ hne this
      rw [hnil]
      rfl

theorem logData_loop_env (H : Headers D) (envs envs2 : Nat → Cloud)
    (hm : ∀ k, (envs k).millis = (envs2 k).millis) (fuel : Nat) :
    ∀ (k : Nat) (c : LoggerController D),
      (logData_loop H envs fuel k c).map Cycle.assembled
        = (logData_loop H envs2 fuel k c).map Cycle.assembled := by
  induction fuel with
  | zero => intro k c; rfl
  | succ fuel ih =>
    intro k c
    rw [logData_loop_succ, logData_loop_succ, publishDataLog_snd, publishDataLog_snd,
      ← assembleDataLog_env H (envs k) (envs2 k) c true (hm k)]
    by_cases hok : (assembleDataLog H (envs k) c true).ok = true
    · rw [if_pos hok, if_pos hok]
      have := ih (k + 1) (assembleDataLog H (envs k) c true).ctrl
      revert this
      cases logData_loop H envs fuel (k + 1) (assembleDataLog H (envs k) c true).ctrl <;>
        cases logData_loop H envs2 fuel (k + 1) (assembleDataLog H (envs k) c true).ctrl <;>
        intro this
      · rfl
      · cases this
      · cases this
      · simp only [Option.map_some', Option.some.injEq, Cycle.assembled, Prod.mk.injEq]
          at this ⊢
        simp only [List.map_cons, this.1, this.2.1, this.2.2, and_self]
    · rw [if_neg hok, if_neg hok]

theorem pending_all (H : Headers D) (g : Bool) (c : LoggerController D) :
    pending H g { c with last_data_log_index := -1 } = reporting H g 0 c.data := by
  unfold pending
  rw [List.filter_eq_self]
  intro e _
  simp only [decide_eq_true_eq]
  omega

/-- C12: in one `logData` cycle (which always ends) every chunk is handed to `publishDataLog`
with the watermark already at its last entry, and `publishDataLog` leaves the controller as
it is; the chunks assembled, their data logs and the controller at the end of the cycle, the
final watermark included, are the same whatever the connection state and `Particle.publish`
return; and the entries handed to `addToDataLog` over the cycle are strictly increasing, so
no entry is assembled into a chunk a second time. -/
theorem at_most_once_delivery (H : Headers D) (envs envs2 : Nat → Cloud)
    (c : LoggerController D)
    (hM : 50 ≤ H.DATA_LOG_MAX_CHAR) (hM2 : H.DATA_LOG_MAX_CHAR < SIZE_MOD)
    (hm : ∀ k, (envs k).millis = (envs2 k).millis) :
    (∃ cy, logData H envs c = some cy ∧
      (∀ p ∈ cy.chunks, p.included ≠ [] ∧ p.watermark = lastIncluded p.included (-1)) ∧
      cy.entries.Pairwise (fun a b => a < b) ∧
      (cy.chunks.map (fun p => p.watermark)).Pairwise (fun a b => a < b)) ∧
    (∀ (env : Cloud) (k : LoggerController D), (publishDataLog env k).2 = k) ∧
    (logData H envs c).map Cycle.assembled = (logData H envs2 c).map Cycle.assembled := by
  refine ⟨?_, publishDataLog_snd, ?_⟩
  · unfold logData
    by_cases hl : (c.state.data_logging || false) = true
    · rw [if_pos hl]
      obtain ⟨cy, e, -, c2, c3, c4⟩ := logData_loop_spec H envs hM hM2 (c.data.length + 1) 0
        { c with last_data_log_index := -1 } (le_refl _)
        (by show (-1 : Int) < (c.data.length : Int); omega)
        (by show ((c.data.length : Int)) - (-1 + 1) < ((c.data.length + 1 : Nat) : Int)
            push_cast; omega)
      exact ⟨cy, e, fun p hp => ⟨(c3 p hp).1, (c3 p hp).2.1⟩, c2, c4⟩
    · rw [if_neg hl]
      exact ⟨_, rfl, fun p hp => absurd hp (List.not_mem_nil p), List.Pairwise.nil,
        List.Pairwise.nil⟩
  · unfold logData
    split_ifs
    · exact logData_loop_env H envs envs2 hm _ _ _
    · rfl

theorem entryText_assembledFrom (H : Headers D) (g : Bool) (hR : Reassembles H (!g))
    (xs ys : List D) (h : AssembledFrom H (!g) xs ys) :
    ∀ i : Nat, entryText H g ys i = entryText H g xs i := by
  induction h with
  | nil => intro i; rfl
  | cons hxy _ ih =>
    intro i
    cases i with
    | zero =>
      unfold entryText
      rw [List.getElem?_cons_zero, List.getElem?_cons_zero]
      rcases hxy with e | e
      · rw [e]
      · rw [e]; exact (hR _).2
    | succ i =>
      have := ih i
      unfold entryText at this ⊢
      rw [List.getElem?_cons_succ, List.getElem?_cons_succ]
      exact this

/-- Every chunk of the cycle is handed to `publishDataLog` as the wire payload around the
serialized texts of its entries. -/
theorem logData_loop_texts (H : Headers D) (envs : Nat → Cloud)
    (hM : 50 ≤ H.DATA_LOG_MAX_CHAR) (hM2 : H.DATA_LOG_MAX_CHAR < SIZE_MOD)
    (hR : Reassembles H false) (hJ : ReportsText H false) (fuel : Nat) :
    ∀ (k : Nat) (c : LoggerController D) (cy : LoggerController.Cycle D),
      -1 ≤ c.last_data_log_index →
      logData_loop H envs fuel k c = some cy →
      ∀ p ∈ cy.chunks, ∃ t : Nat,
        p.data_log = dataLogText c.name (some t) (p.included.map (entryText H true c.data)) := by
  induction fuel with
  | zero => intro k c cy _ h; cases h
  | succ fuel ih =>
    intro k c cy hw h p hp
    obtain ⟨-, -, s3⟩ := assembleDataLog_spec H (envs k) c true hM hM2 hw
    obtain ⟨-, -, -, t4, -, t6⟩ := assembleDataLog_step H (envs k) c true hM hM2 hw
    obtain ⟨n, hn⟩ : ∃ n : Nat, c.last_data_log_index + 1 = (n : Int) :=
      ⟨(c.last_data_log_index + 1).toNat, by omega⟩
    obtain ⟨hname, -, -⟩ := assembleDataLog_raw H (envs k) c true hM hM2 n hn
    rw [logData_loop_succ] at h
    by_cases hok : (assembleDataLog H (envs k) c true).ok = true
    · rw [if_pos hok, publishDataLog_snd] at h
      cases hl : logData_loop H envs fuel (k + 1) (assembleDataLog H (envs k) c true).ctrl with
      | none => rw [hl] at h; cases h
      | some cy2 =>
        rw [hl] at h
        have hcy := Option.some.inj h
        rw [← hcy] at hp
        rcases List.mem_cons.mp hp with e1 | e1
        · subst e1
          cases hinc : (assembleDataLog H (envs k) c true).included with
          | nil => exact absurd hinc (t6 hok).1
          | cons j rest =>
            have ht := (assembleDataLog_text H (envs k) c true hM hM2 hw hJ j rest hinc).2.2 hok
            exact ⟨((envs k).millis + SIZE_MOD - entryDataTime H true c.data j % SIZE_MOD)
              % SIZE_MOD, ht⟩
        · obtain ⟨t, ht⟩ := ih (k + 1) _ cy2 (le_trans hw t4) hl p e1
          refine ⟨t, ?_⟩
          rw [ht, hname]
          congr 1
          apply List.map_congr_left
          intro i _
          exact entryText_assembledFrom H true hR _ _ s3 i
    · rw [if_neg hok] at h
      have hcy := Option.some.inj h
      rw [← hcy] at hp
      cases hp

/-- C17: in a `logData` cycle with data logging on (re-assembling the log of a series giving
the same text), the loop ends, and when no assembled chunk runs into the overflow guard the
entries of the successive chunks, concatenated, are exactly the entries that have something
to report, each once and in index order; every chunk is handed to `publishDataLog` as the
wire payload around the serialized texts of exactly its entries, joined by commas (an entry
that reports having a text that is not empty); the watermark increases strictly from chunk
to chunk. -/
theorem chunk_cycle_complete (H : Headers D) (envs : Nat → Cloud) (c : LoggerController D)
    (hM : 50 ≤ H.DATA_LOG_MAX_CHAR) (hM2 : H.DATA_LOG_MAX_CHAR < SIZE_MOD)
    (hR : Reassembles H false) (hl : c.state.data_logging = true) :
    ∃ cy, logData H envs c = some cy ∧
      (cy.dropped = [] →
        (cy.chunks.map (fun p => p.included)).flatten
          = (reporting H true 0 c.data).map Prod.fst) ∧
      (ReportsText H false → ∀ p ∈ cy.chunks, ∃ t : Nat,
        p.data_log
          = dataLogText c.name (some t) (p.included.map (entryText H true c.data))) ∧
      ((cy.chunks.map (fun p => p.included)).flatten ++ cy.dropped).Pairwise
        (fun a b => a < b) ∧
      (cy.chunks.map (fun p => p.watermark)).Pairwise (fun a b => a < b) := by
  have hlog : logData H envs c
      = logData_loop H envs (c.data.length + 1) 0 { c with last_data_log_index := -1 } := by
    unfold logData
    rw [if_pos (by rw [hl]; rfl)]
  obtain ⟨cy, e, -, c2, -, c4⟩ := logData_loop_spec H envs hM hM2 (c.data.length + 1) 0
    { c with last_data_log_index := -1 } (le_refl _)
    (by show (-1 : Int) < (c.data.length : Int); omega)
    (by show ((c.data.length : Int)) - (-1 + 1) < ((c.data.length + 1 : Nat) : Int)
        push_cast; omega)
  refine ⟨cy, hlog.trans e, fun hd => ?_, fun hJ =>
    logData_loop_texts H envs hM hM2 hR hJ _ 0 { c with last_data_log_index := -1 } cy
      (le_refl _) e, c2, c4⟩
  rw [logData_loop_complete H envs hM hM2 hR _ 0 _ cy (le_refl _) e hd, pending_all]

/-- C12 at a concrete input: the cycle over six series assembles the chunks `[0, 1, 3]` and
`[4, 5]` with the watermarks 3 and 5 whether the cloud accepts every publication or is not
connected at all. -/
theorem at_most_once_delivery_witness :
    (logData demoHeaders (fun _ => demoCloud)
        (demoLogging ["aaaa".data, "bbb".data, [], "cc".data, "ddddd".data, "e".data])).map
        Cycle.assembled
      = (logData demoHeaders (fun _ => demoOffline)
        (demoLogging ["aaaa".data, "bbb".data, [], "cc".data, "ddddd".data, "e".data])).map
        Cycle.assembled ∧
    (logData demoHeaders (fun _ => demoOffline)
        (demoLogging ["aaaa".data, "bbb".data, [], "cc".data, "ddddd".data, "e".data])).map
        (fun cy => cy.chunks.map (fun p => (p.included, p.watermark, p.success)))
      = some [([0, 1, 3], 3, false), ([4, 5], 5, false)] :=
  ⟨(at_most_once_delivery demoHeaders (fun _ => demoCloud) (fun _ => demoOffline)
      (demoLogging ["aaaa".data, "bbb".data, [], "cc".data, "ddddd".data, "e".data])
      (by decide) (by decide) (fun _ => rfl)).2.2, by decide⟩

/-- C17 at a concrete input: over the six series, of which the third has nothing to report,
the cycle ends and its chunks `[0, 1, 3]` and `[4, 5]` together are the reporting entries;
they are published as the payloads with `aaaa,bbb,cc` and with `ddddd,e`. -/
theorem chunk_cycle_complete_witness :
    (∃ cy, logData demoHeaders (fun _ => demoCloud)
        (demoLogging ["aaaa".data, "bbb".data, [], "cc".data, "ddddd".data, "e".data])
        = some cy ∧
      (cy.dropped = [] →
        (cy.chunks.map (fun p => p.included)).flatten
          = (reporting demoHeaders true 0
              (demoLogging ["aaaa".data, "bbb".data, [], "cc".data, "ddddd".data,
                "e".data]).data).map Prod.fst) ∧
      (ReportsText demoHeaders false → ∀ p ∈ cy.chunks, ∃ t : Nat,
        p.data_log
          = dataLogText
              (demoLogging ["aaaa".data, "bbb".data, [], "cc".data, "ddddd".data,
                "e".data]).name (some t)
              (p.included.map (entryText demoHeaders true
                (demoLogging ["aaaa".data, "bbb".data, [], "cc".data, "ddddd".data,
                  "e".data]).data))) ∧
      ((cy.chunks.map (fun p => p.included)).flatten ++ cy.dropped).Pairwise
        (fun a b => a < b) ∧
      (cy.chunks.map (fun p => p.watermark)).Pairwise (fun a b => a < b)) ∧
    ReportsText demoHeaders false ∧
    (logData demoHeaders (fun _ => demoCloud)
        (demoLogging ["aaaa".data, "bbb".data, [], "cc".data, "ddddd".data, "e".data])).map
        (fun cy => (cy.chunks.map (fun p => (p.included, p.data_log)), cy.dropped))
      = some ([([0, 1, 3], "\x7b\"id\":\"\",\"to\":1000,\"d\":[aaaa,bbb,cc]\x7d".data),
          ([4, 5], "\x7b\"id\":\"\",\"to\":1000,\"d\":[ddddd,e]\x7d".data)], []) :=
  ⟨chunk_cycle_complete demoHeaders (fun _ => demoCloud)
      (demoLogging ["aaaa".data, "bbb".data, [], "cc".data, "ddddd".data, "e".data])
      (by decide) (by decide) (fun _ => ⟨rfl, rfl⟩) (by decide),
    fun d hd => by
      cases d with
      | nil => cases hd
      | cons x xs => exact List.cons_ne_nil _ _,
    by decide⟩

/-! ## The buffers of the data log at their limits -/

/-- C14, the code at the failing input: for a single entry of 70 characters with a data log
of 60 characters, `assembleDataLog` returns false and the data log keeps within its size,
but `addToDataLog` fills all 50 characters of `data_log_buffer`, leaving no room for the
terminator. -/
theorem oversize_entry_fills_data_log_buffer :
    (assembleDataLog demoHeaders demoCloud
      (demoController [List.replicate 70 (Char.ofNat 120)]) true).ok = false ∧
    (assembleDataLog demoHeaders demoCloud
      (demoController [List.replicate 70 (Char.ofNat 120)]) true).ctrl.data_log.length + 1
      ≤ demoHeaders.DATA_LOG_MAX_CHAR ∧
    (assembleDataLog demoHeaders demoCloud
      (demoController [List.replicate 70 (Char.ofNat 120)]) true).ctrl.data_log_buffer.length
      = demoHeaders.DATA_LOG_MAX_CHAR - 10 ∧
    ¬ ((assembleDataLog demoHeaders demoCloud
      (demoController [List.replicate 70 (Char.ofNat 120)]) true).ctrl.data_log_buffer.length + 1
      ≤ demoHeaders.DATA_LOG_MAX_CHAR - 10) := by
  decide

/-- C18, the code at the failing input: with a device name of 19 characters, a time offset
of ten digits and a single entry of 9 characters, which is below the budget of 10, the
formatted data log has the 60 characters of `sizeof(data_log)`, so `assembleDataLog` takes
the overflow branch and returns false with the watermark already on the entry; the cycle
then ends with no chunk published and the next entry never assembled. -/
theorem overflow_guard_is_reached :
    (demoNamed ["aaaaaaaaa".data, "bbb".data]).name.length = 19 ∧
    pending demoHeaders true (demoNamed ["aaaaaaaaa".data, "bbb".data]) = [(0, 9), (1, 3)] ∧
    9 < demoHeaders.DATA_LOG_MAX_CHAR - 50 ∧
    (assembleDataLog demoHeaders demoLateCloud
      (demoNamed ["aaaaaaaaa".data, "bbb".data]) true).ok = false ∧
    (assembleDataLog demoHeaders demoLateCloud
      (demoNamed ["aaaaaaaaa".data, "bbb".data]) true).included = [0] ∧
    (assembleDataLog demoHeaders demoLateCloud
      (demoNamed ["aaaaaaaaa".data, "bbb".data]) true).ctrl.last_data_log_index = 0 ∧
    ("\x7b\"id\":\"abcdefghijklmnopqrs\",\"to\":1234567890,\"d\":[aaaaaaaaa]\x7d".data).length
      = demoHeaders.DATA_LOG_MAX_CHAR ∧
    (logData demoHeaders (fun _ => demoLateCloud)
      { demoNamed ["aaaaaaaaa".data, "bbb".data] with
        state := { demoState with data_logging := true } }).map
        (fun cy => (cy.chunks.map (fun p => p.included), cy.dropped))
      = some ([], [0]) := by
  decide

end LabLogger
